import Mathlib

/-!
# Result data stream composition (`src/DS/rds.c`)

A shallow embedding of the tree surgery performed by `rds.c`: asset
identification extraction, target back-reference injection and
check-content-ref rewriting, result processing, the composer with its
tailoring merge, the node locator and the content dump, followed by theorems
about them.

Modelling conventions

* A libxml2 node is an `XmlNode`: an element (namespace URI, tag name,
  attributes in document order, children in document order), a text node, or
  any other non-element node (`comment`).  Attributes carry no namespace, as in
  the data model of the specification (string to string).
* A C function that mutates a tree in place is a function returning the new
  tree.  A pointer into a children list is the position of the node in that
  list.
* A call that hands a null pointer to `strcmp` has no defined result; such a
  run is `none`.
* `xmlNewTextChild` stores its content as it is given; `xmlNodeSetContent`
  parses it for references (`xmlStringGetNodeList`).
* The suffix counters are natural numbers; `oscap_sprintf("asset%i", suffix)`
  is the decimal rendering of the counter.
* Functions of the repository that are defined outside `rds.c`
  (`oscap_expand_ipv6`) and lookup tables (`oscap_htable_get`) are parameters.
-/

namespace Rds

/-! ## Data model -/

/-- A libxml2 node as far as `rds.c` looks at it. -/
inductive XmlNode where
  | element (ns : Option String) (name : String) (attrs : List (String × String))
      (children : List XmlNode)
  | text (content : String)
  | comment (content : String)

namespace XmlNode

/-- The test `node->type == XML_ELEMENT_NODE`. -/
def isElement : XmlNode → Bool
  | element _ _ _ _ => true
  | _ => false

/-- The test `type == XML_ELEMENT_NODE && strcmp(name, tag) == 0`. -/
def isElementNamed (tag : String) : XmlNode → Bool
  | element _ name _ _ => name == tag
  | _ => false

/-- The field `node->children` (empty for a node that is not an element). -/
def children : XmlNode → List XmlNode
  | element _ _ _ ch => ch
  | _ => []

/-- The attribute list of an element. -/
def attrs : XmlNode → List (String × String)
  | element _ _ as _ => as
  | _ => []

/-- The field `node->ns`, as a namespace URI. -/
def ns : XmlNode → Option String
  | element n _ _ _ => n
  | _ => none

/-- Replace the children list of an element. -/
def setChildren : XmlNode → List XmlNode → XmlNode
  | element n name as _, ch => element n name as ch
  | other, _ => other

end XmlNode

open XmlNode

/-- Lookup of the first attribute called `key` in an attribute list. -/
def attrLookup (key : String) : List (String × String) → Option String
  | [] => none
  | (k, v) :: rest => if k = key then some v else attrLookup key rest

/-- The libxml2 call `xmlGetProp(node, key)`: `none` is the null pointer. -/
def xmlGetProp (node : XmlNode) (key : String) : Option String :=
  attrLookup key node.attrs

/-- Replace the value of the first attribute called `key`, or append it. -/
def attrSet (key value : String) : List (String × String) → List (String × String)
  | [] => [(key, value)]
  | (k, v) :: rest => if k = key then (k, value) :: rest else (k, v) :: attrSet key value rest

/-- The libxml2 call `xmlSetProp(node, key, value)`. -/
def xmlSetProp (node : XmlNode) (key value : String) : XmlNode :=
  match node with
  | element n name as ch => element n name (attrSet key value as) ch
  | other => other

/-- The libxml2 call `xmlAddChild(parent, child)` for an element child: the
child becomes the last child of the parent. -/
def xmlAddChild (parent child : XmlNode) : XmlNode :=
  parent.setChildren (parent.children ++ [child])

mutual
/-- The text held below a node: the concatenation of its text descendants. -/
def XmlNode.innerText : XmlNode → String
  | .element _ _ _ ch => innerTextList ch
  | .text s => s
  | .comment _ => ""
/-- The text held by a list of sibling nodes. -/
def innerTextList : List XmlNode → String
  | [] => ""
  | c :: rest => c.innerText ++ innerTextList rest
end

/-- The libxml2 call `xmlNodeGetContent(node)`. -/
def xmlNodeGetContent : XmlNode → String
  | .comment s => s
  | n => n.innerText

/-- An element holding one text node with the content as it is given: what
`xmlNewTextChild` creates. -/
def textElement (ns : Option String) (name content : String) : XmlNode :=
  .element ns name [] [.text content]

/-! ## Content parsing: `xmlNodeSetContent`

The libxml2 call `xmlNodeSetContent(node, content)` does not store the content
as it is given: it builds the children of the node with
`xmlStringGetNodeList`, which reads `&` as the start of a character reference
or of an entity reference. -/

/-- Value of a hexadecimal digit. -/
def hexVal (c : Char) : Option Int :=
  if '0' ≤ c ∧ c ≤ '9' then some (c.toNat - 48 : Int)
  else if 'a' ≤ c ∧ c ≤ 'f' then some (c.toNat - 87 : Int)
  else if 'A' ≤ c ∧ c ≤ 'F' then some (c.toNat - 55 : Int)
  else none

/-- Value of a decimal digit. -/
def decVal (c : Char) : Option Int :=
  if '0' ≤ c ∧ c ≤ '9' then some (c.toNat - 48 : Int) else none

/-- The value that a C `int` holds after an operation whose result is `n`
(the character value is added up without a check for overflow). -/
def wrapInt (n : Int) : Int := (n + 2147483648) % 4294967296 - 2147483648

/-- The text that a character reference with the value `charval` adds to the
buffer (`xmlCopyCharMultiByte`): nothing for 0 and for a value of 0x110000 or
more, the low byte for a negative value, else the character with this code.
Where libxml2 stores bytes that are no UTF-8 text (a surrogate code, or a low
byte of 0x80 or more) the strings of this model hold U+FFFD in their place. -/
def charOfVal (charval : Int) : List Char :=
  if charval < 0 then
    (if charval % 256 = 0 then []
     else if charval % 256 < 128 then [Char.ofNat (charval % 256).toNat]
     else [Char.ofNat 65533])
  else if charval = 0 then []
  else if charval < 55296 then [Char.ofNat charval.toNat]
  else if charval < 57344 then [Char.ofNat 65533]
  else if charval < 1114112 then [Char.ofNat charval.toNat]
  else []

/-- The content of a predefined entity (`xmlGetPredefinedEntity`); the new
node has no document, so no other entity is known. -/
def predefinedEntity (name : List Char) : Option (List Char) :=
  if name = ['l', 't'] then some ['<']
  else if name = ['g', 't'] then some ['>']
  else if name = ['a', 'm', 'p'] then some ['&']
  else if name = ['a', 'p', 'o', 's'] then some ['\'']
  else if name = ['q', 'u', 'o', 't'] then some ['"']
  else none

/-- Where the scan of `xmlStringGetNodeList` stands: in plain text, behind
`&`, behind `&#`, in the digits of a hexadecimal or decimal character
reference, or in the name of an entity reference. -/
inductive ScanMode where
  | plain
  | amp
  | hash
  | hex (charval : Int)
  | dec (charval : Int)
  | name (chars : List Char)

/-- The buffered text becomes a text node, unless the buffer is empty. -/
def flushText (buf : List Char) (nodes : List XmlNode) : List XmlNode :=
  if buf.isEmpty then nodes else nodes ++ [.text (String.mk buf)]

/-- The name that `xmlNewReference` gives the entity reference node: a leading
`&` is dropped. -/
def refName (name : List Char) : List Char :=
  match name with
  | '&' :: rest => rest
  | _ => name

/-- A character met by the main loop: `&` starts a reference, any other
character is text. -/
def scanPlain (c : Char) (buf : List Char) : ScanMode × List Char :=
  if c = '&' then (.amp, buf) else (.plain, buf ++ [c])

/-- The loop of `xmlStringGetNodeList` over the characters that are left, with
the text buffer and the nodes made so far.  A character reference ends at
`;`; a character that is no digit ends it without a character and is read
again by the main loop.  A reference to a predefined entity adds its content
to the buffer; any other entity reference flushes the buffer and adds an
entity reference node, which is a `comment` node (a node that is neither
element nor text) holding the name.  An entity name that no `;` ends stops the
function: the nodes made so far are returned and the buffer is dropped. -/
def scanContentChars : List Char → ScanMode → List Char → List XmlNode → List XmlNode
  | [], .plain, buf, nodes => flushText buf nodes
  | [], .amp, _, nodes => nodes
  | [], .name _, _, nodes => nodes
  | [], _, buf, nodes => flushText buf nodes
  | c :: rest, .plain, buf, nodes =>
    scanContentChars rest (scanPlain c buf).1 (scanPlain c buf).2 nodes
  | c :: rest, .amp, buf, nodes =>
    if c = '#' then scanContentChars rest .hash buf nodes
    else if c = ';' then scanContentChars rest .plain buf nodes
    else scanContentChars rest (.name [c]) buf nodes
  | c :: rest, .hash, buf, nodes =>
    if c = 'x' then scanContentChars rest (.hex 0) buf nodes
    else if c = ';' then scanContentChars rest .plain buf nodes
    else
      match decVal c with
      | some d => scanContentChars rest (.dec d) buf nodes
      | none => scanContentChars rest (scanPlain c buf).1 (scanPlain c buf).2 nodes
  | c :: rest, .hex v, buf, nodes =>
    if c = ';' then scanContentChars rest .plain (buf ++ charOfVal v) nodes
    else
      match hexVal c with
      | some d => scanContentChars rest (.hex (wrapInt (v * 16 + d))) buf nodes
      | none => scanContentChars rest (scanPlain c buf).1 (scanPlain c buf).2 nodes
  | c :: rest, .dec v, buf, nodes =>
    if c = ';' then scanContentChars rest .plain (buf ++ charOfVal v) nodes
    else
      match decVal c with
      | some d => scanContentChars rest (.dec (wrapInt (v * 10 + d))) buf nodes
      | none => scanContentChars rest (scanPlain c buf).1 (scanPlain c buf).2 nodes
  | c :: rest, .name chars, buf, nodes =>
    if c = ';' then
      match predefinedEntity chars with
      | some content => scanContentChars rest .plain (buf ++ content) nodes
      | none =>
        scanContentChars rest .plain []
          (flushText buf nodes ++ [.comment (String.mk (refName chars))])
    else scanContentChars rest (.name (chars ++ [c])) buf nodes

/-- The libxml2 function `xmlStringGetNodeList(doc, value)` for a node that is
in no document yet: the children that `xmlNodeSetContent` gives an element. -/
def xmlStringGetNodeList (value : String) : List XmlNode :=
  scanContentChars value.data .plain [] []

/-- An element made by `xmlNewNode` followed by `xmlNodeSetContent`. -/
def contentElement (ns : Option String) (name content : String) : XmlNode :=
  .element ns name [] (xmlStringGetNodeList content)

/-- The content is one that `xmlNodeSetContent` stores as a single text node
holding the content itself: it is not empty and has no `&`. -/
def storedVerbatim (content : String) : Bool :=
  !content.data.isEmpty && decide ('&' ∉ content.data)

/-! ## Constants of `rds.c` -/

def arf_ns_uri : String := "http://scap.nist.gov/schema/asset-reporting-format/1.1"
def core_ns_uri : String := "http://scap.nist.gov/schema/reporting-core/1.1"
def ai_ns_uri : String := "http://scap.nist.gov/schema/asset-identification/1.1"

def fact_mac : String := "urn:xccdf:fact:asset:identifier:mac"
def fact_fqdn : String := "urn:xccdf:fact:asset:identifier:fqdn"
def fact_host_name : String := "urn:xccdf:fact:asset:identifier:host_name"

/-! ## Asset extractor: `ds_rds_add_ai_from_xccdf_results` -/

/-- The call `oscap_sprintf("asset%i", suffix)`.  The C counter is an
`unsigned int` printed with `%i`; below 2^31, a number of children that no
container reaches, this is the decimal rendering of the natural number. -/
def assetId (suffix : Nat) : String := "asset" ++ toString suffix

/-- The loop of lines 235-255: walk the children of the assets container and
bump the suffix at each `asset` element whose id is the current candidate.
An `asset` element without an `id` attribute sends a null pointer to `strcmp`. -/
def assetSuffixScan : List XmlNode → Nat → Option Nat
  | [], suffix => some suffix
  | child :: rest, suffix =>
    if child.isElementNamed "asset" then
      match xmlGetProp child "id" with
      | none => none
      | some id => assetSuffixScan rest (if assetId suffix = id then suffix + 1 else suffix)
    else assetSuffixScan rest suffix

/-- The state of the walk over the result tree (lines 271-348).
`connections` are the children of the `connections` element, `device` the
children of `computing-device` that follow the `connections` element, and the
two pointers are positions in `device`. -/
structure AiScan where
  connections : List XmlNode
  device : List XmlNode
  last_fqdn : Option Nat
  last_hostname : Option Nat

/-- Insert `node` so that it gets position `i` in the list. -/
def insertAt (l : List XmlNode) (i : Nat) (node : XmlNode) : List XmlNode :=
  l.take i ++ node :: l.drop i

/-- The `mac` branch of lines 317-323. -/
def AiScan.addMac (st : AiScan) (content : String) : AiScan :=
  { st with connections := st.connections ++
      [.element (some ai_ns_uri) "connection" []
        [textElement (some ai_ns_uri) "mac-address" content]] }

/-- The `fqdn` branch of lines 327-334: the new element is linked only while
`last_fqdn` is null, before the hostname if there is one, else as last child. -/
def AiScan.addFqdn (st : AiScan) (content : String) : AiScan :=
  let fqdn := contentElement (some ai_ns_uri) "fqdn" content
  match st.last_fqdn with
  | some _ => st
  | none =>
    match st.last_hostname with
    | some h =>
      { st with device := insertAt st.device h fqdn, last_fqdn := some h,
                last_hostname := some (h + 1) }
    | none =>
      { st with device := st.device ++ [fqdn], last_fqdn := some st.device.length }

/-- The `host_name` branch of lines 336-343: the new element is linked only
while `last_hostname` is null, after the fqdn if there is one, else as last
child. -/
def AiScan.addHostname (st : AiScan) (content : String) : AiScan :=
  let hostname := contentElement (some ai_ns_uri) "hostname" content
  match st.last_hostname with
  | some _ => st
  | none =>
    match st.last_fqdn with
    | some f =>
      { st with device := insertAt st.device (f + 1) hostname, last_hostname := some (f + 1) }
    | none =>
      { st with device := st.device ++ [hostname], last_hostname := some st.device.length }

/-- One round of the inner loop (lines 307-346) over the children of a
`target-facts` element. -/
def AiScan.addFact (st : AiScan) (child : XmlNode) : AiScan :=
  if child.isElementNamed "fact" then
    match xmlGetProp child "name" with
    | none => st
    | some name =>
      let content := xmlNodeGetContent child
      let st1 := if name = fact_mac then st.addMac content else st
      let st2 := if name = fact_fqdn then st1.addFqdn content else st1
      if name = fact_host_name then st2.addHostname content else st2
  else st

/-- The `target-address` branch of lines 280-302.  `expand_ipv6` stands for
`oscap_expand_ipv6`, which is defined outside `rds.c`. -/
def AiScan.addAddress (expand_ipv6 : String → String) (st : AiScan) (content : String) :
    AiScan :=
  let ip :=
    if '.' ∈ content.data then textElement (some ai_ns_uri) "ip-v4" content
    else textElement (some ai_ns_uri) "ip-v6" (expand_ipv6 content)
  { st with connections := st.connections ++
      [.element (some ai_ns_uri) "connection" []
        [.element (some ai_ns_uri) "ip-address" [] [ip]]] }

/-- One round of the outer loop (lines 275-348) over the children of the
result tree. -/
def AiScan.step (expand_ipv6 : String → String) (st : AiScan) (child : XmlNode) : AiScan :=
  if child.isElementNamed "target-address" then
    st.addAddress expand_ipv6 (xmlNodeGetContent child)
  else if child.isElementNamed "target-facts" then
    child.children.foldl AiScan.addFact st
  else st

/-- The whole walk over the children of the result tree, from the state in
which `computing-device` holds only the empty `connections` element. -/
def aiScan (expand_ipv6 : String → String) (test_result : XmlNode) : AiScan :=
  test_result.children.foldl (AiScan.step expand_ipv6) ⟨[], [], none, none⟩

/-- The children of `computing-device` at the end of the function: the
`connections` element comes first and is unlinked when it has no child
(lines 350-353). -/
def AiScan.deviceChildren (st : AiScan) : List XmlNode :=
  (if st.connections.isEmpty then []
   else [.element (some ai_ns_uri) "connections" [] st.connections]) ++ st.device

/-- The asset built for a result tree, carrying the given id. -/
def buildAsset (expand_ipv6 : String → String) (id : String) (test_result : XmlNode) :
    XmlNode :=
  .element (some arf_ns_uri) "asset" [("id", id)]
    [.element (some ai_ns_uri) "computing-device" []
      (aiScan expand_ipv6 test_result).deviceChildren]

/-- The function `ds_rds_add_ai_from_xccdf_results(doc, assets, xccdf_result_doc)`.
The result is the assets container after the call together with the new
asset (the return value of the C function).  The target document is the one
built by the composer, whose root declares the `arf` and `ai` namespaces. -/
def ds_rds_add_ai_from_xccdf_results (expand_ipv6 : String → String)
    (assets test_result : XmlNode) : Option (XmlNode × XmlNode) :=
  match assetSuffixScan assets.children 0 with
  | none => none
  | some suffix =>
    let asset := buildAsset expand_ipv6 (assetId suffix) test_result
    some (xmlAddChild assets asset, asset)

/-- The calls of the asset extractor made one after the other on the same
assets container, one per result tree: the final container and the assets
returned, in call order. -/
def extractAll (expand_ipv6 : String → String) :
    XmlNode → List XmlNode → Option (XmlNode × List XmlNode)
  | assets, [] => some (assets, [])
  | assets, test_result :: rest =>
    match ds_rds_add_ai_from_xccdf_results expand_ipv6 assets test_result with
    | none => none
    | some (assets1, asset) =>
      match extractAll expand_ipv6 assets1 rest with
      | none => none
      | some (final, more) => some (final, asset :: more)

/-- The `id` attributes of the `asset` element children, in document order. -/
def assetIdsOf (children : List XmlNode) : List (Option String) :=
  (children.filter (isElementNamed "asset")).map (fun c => xmlGetProp c "id")

/-- The suffix scan as seen on the list of ids of the `asset` children. -/
def scanIds : List (Option String) → Nat → Option Nat
  | [], suffix => some suffix
  | none :: _, _ => none
  | some id :: rest, suffix => scanIds rest (if assetId suffix = id then suffix + 1 else suffix)

/-- Value of a decimal digit character. -/
def digitVal (c : Char) : Nat := c.toNat - 48

/-- Value of a list of decimal digits, most significant first. -/
def digitsVal (l : List Char) : Nat := l.foldl (fun acc c => 10 * acc + digitVal c) 0

/-! ## Reference injector: `ds_rds_report_inject_ai_target_id_ref` -/

/-- The test of lines 368-372: an element named `target`, `target-address`
or `target-facts`. -/
def isAnchor (node : XmlNode) : Bool :=
  node.isElementNamed "target" || node.isElementNamed "target-address" ||
    node.isElementNamed "target-facts"

/-- The loop of lines 367-378, started at position `i` with `prev_sibling`
equal to `acc`: the position of the last anchor met. -/
def findPrevSibling : List XmlNode → Nat → Option Nat → Option Nat
  | [], _, acc => acc
  | c :: rest, i, acc => findPrevSibling rest (i + 1) (if isAnchor c then some i else acc)

/-- The loop of lines 389-412 over the siblings that follow `prev_sibling`.
`some true`: a `target-id-ref` with the asset-identification system and the
given name was met (the function returns 0 there); `some false`: the loop
ended or broke at another element; `none`: a `target-id-ref` lacking the
attribute that `strcmp` reads. -/
def scanDuplicate (asset_id : String) : List XmlNode → Option Bool
  | [] => some false
  | c :: rest =>
    if c.isElement then
      if c.isElementNamed "target-id-ref" then
        match xmlGetProp c "system" with
        | none => none
        | some system_attr =>
          if system_attr = ai_ns_uri then
            match xmlGetProp c "name" with
            | none => none
            | some name_attr =>
              if name_attr = asset_id then some true else scanDuplicate asset_id rest
          else scanDuplicate asset_id rest
      else some false
    else scanDuplicate asset_id rest

/-- The element built by lines 414-419, in the namespace of `prev_sibling`. -/
def newTargetIdRef (ns : Option String) (asset_id : String) : XmlNode :=
  .element ns "target-id-ref" [("system", ai_ns_uri), ("name", asset_id), ("href", "")] []

/-- The function `ds_rds_report_inject_ai_target_id_ref(doc, test_result_node, asset_id)`:
the return value and the TestResult node after the call. -/
def ds_rds_report_inject_ai_target_id_ref (test_result_node : XmlNode) (asset_id : String) :
    Option (Int × XmlNode) :=
  match findPrevSibling test_result_node.children 0 none with
  | none => some (-1, test_result_node)
  | some i =>
    match scanDuplicate asset_id (test_result_node.children.drop (i + 1)) with
    | none => none
    | some true => some (0, test_result_node)
    | some false =>
      let ns := match test_result_node.children.get? i with
        | some prev_sibling => prev_sibling.ns
        | none => none
      some (0, test_result_node.setChildren
        (insertAt test_result_node.children (i + 1) (newTargetIdRef ns asset_id)))

/-- The number of `target-id-ref` element children of a node. -/
def countTargetIdRef (node : XmlNode) : Nat :=
  (node.children.filter (isElementNamed "target-id-ref")).length

/-- A `target-id-ref` element that refers to the asset `asset_id` in the
asset-identification system. -/
def isMatchingRef (asset_id : String) (node : XmlNode) : Bool :=
  node.isElementNamed "target-id-ref" && xmlGetProp node "system" == some ai_ns_uri &&
    xmlGetProp node "name" == some asset_id

/-- The TestResult node has a child that is an anchor. -/
def hasAnchor (test_result_node : XmlNode) : Bool :=
  test_result_node.children.any isAnchor

/-- The node carries the attributes that the duplicate scan reads from a
`target-id-ref` element: `system` and `name`. -/
def refAttrsPresent (node : XmlNode) : Bool :=
  !node.isElementNamed "target-id-ref" ||
    ((xmlGetProp node "system").isSome && (xmlGetProp node "name").isSome)

/-- A node that the duplicate scan steps over: a node that is not an element,
or a `target-id-ref` element. -/
def isSkipped (node : XmlNode) : Bool :=
  !node.isElement || node.isElementNamed "target-id-ref"

/-- A reference to the asset is already in place: a matching `target-id-ref`
follows the last anchor with nothing but skipped nodes in between. -/
def AlreadyReferenced (asset_id : String) (test_result_node : XmlNode) : Prop :=
  ∃ pre x mid m post, test_result_node.children = pre ++ x :: (mid ++ m :: post) ∧
    isAnchor x = true ∧ (∀ y ∈ mid ++ m :: post, isAnchor y = false) ∧
    (∀ y ∈ mid, isSkipped y = true) ∧ isMatchingRef asset_id m = true

/-! ## Reference injector: check-content-ref rewriting -/

/-- The function `ds_rds_report_inject_check_content_ref`.  The mapping
`arf_report_mapping` is a lookup function (`oscap_htable_get`). -/
def ds_rds_report_inject_check_content_ref (arf_report_mapping : String → Option String)
    (check_content_ref : XmlNode) : XmlNode :=
  if check_content_ref.isElementNamed "check-content-ref" then
    match xmlGetProp check_content_ref "href" with
    | none => check_content_ref
    | some oval_filename =>
      match arf_report_mapping oval_filename with
      | none => check_content_ref
      | some report_id => xmlSetProp check_content_ref "href" ("#" ++ report_id)
  else check_content_ref

mutual
/-- The function `ds_rds_report_inject_rule_result_check_refs`, applied to a
`rule-result` or `complex-check` node. -/
def ds_rds_report_inject_rule_result_check_refs (arf_report_mapping : String → Option String) :
    XmlNode → XmlNode
  | .element ns name attrs children =>
    .element ns name attrs (injectCheckRefsChildren arf_report_mapping children)
  | other => other
/-- The `while (child)` loop of `ds_rds_report_inject_rule_result_check_refs`. -/
def injectCheckRefsChildren (arf_report_mapping : String → Option String) :
    List XmlNode → List XmlNode
  | [] => []
  | child :: rest =>
    injectCheckRefsChild arf_report_mapping child ::
      injectCheckRefsChildren arf_report_mapping rest
/-- The body of that loop: a `complex-check` element is handed to the function
itself, the children of a `check` element are handed to
`ds_rds_report_inject_check_content_ref`, any other node is left alone. -/
def injectCheckRefsChild (arf_report_mapping : String → Option String) : XmlNode → XmlNode
  | .element ns name attrs children =>
    if name = "complex-check" then
      .element ns name attrs (injectCheckRefsChildren arf_report_mapping children)
    else if name = "check" then
      .element ns name attrs
        (children.map (ds_rds_report_inject_check_content_ref arf_report_mapping))
    else .element ns name attrs children
  | other => other
end

/-- The function `ds_rds_report_inject_rule_result_refs`. -/
def ds_rds_report_inject_rule_result_refs (arf_report_mapping : String → Option String)
    (test_result_node : XmlNode) : XmlNode :=
  test_result_node.setChildren (test_result_node.children.map fun child =>
    if child.isElementNamed "rule-result" then
      ds_rds_report_inject_rule_result_check_refs arf_report_mapping child
    else child)

/-! ## Positions in a tree -/

/-- The node reached from `node` by following the given child positions. -/
def nodeAt : XmlNode → List Nat → Option XmlNode
  | node, [] => some node
  | node, i :: rest =>
    match node.children.get? i with
    | some child => nodeAt child rest
    | none => none

/-- A node without its attributes and children: its kind, namespace and tag
name, or its text. -/
def XmlNode.bare : XmlNode → XmlNode
  | .element ns name _ _ => .element ns name [] []
  | other => other

/-- The path leads from a `rule-result` or `complex-check` node to a direct
child of a `check` element, going down through `complex-check` elements only. -/
def viaChecks : XmlNode → List Nat → Bool
  | _, [] => false
  | node, j :: rest =>
    match node.children.get? j with
    | some child =>
      (child.isElementNamed "check" && rest.length == 1) ||
        (child.isElementNamed "complex-check" && viaChecks child rest)
    | none => false

/-- The path leads from the TestResult node to a direct child of a `check`
element reached from a `rule-result` child of the TestResult through zero or
more nested `complex-check` elements. -/
def isRewriteTarget (test_result_node : XmlNode) : List Nat → Bool
  | [] => false
  | i :: rest =>
    match test_result_node.children.get? i with
    | some child => child.isElementNamed "rule-result" && viaChecks child rest
    | none => false

/-- The rewrite that a node on a target path undergoes: for a
`check-content-ref` element whose `href` is a key of the mapping, the old
`href` and the report id it maps to. -/
def hrefRewrite (arf_report_mapping : String → Option String) (onTarget : Bool)
    (node : XmlNode) : Option (String × String) :=
  if onTarget && node.isElementNamed "check-content-ref" then
    match xmlGetProp node "href" with
    | some href =>
      match arf_report_mapping href with
      | some report_id => some (href, report_id)
      | none => none
    | none => none
  else none

/-- How a node `after` the rewriting relates to the node `before` it at the
same position: same kind, namespace, name and text, same number of children;
the attributes are the same, except that on a target path the first `href` of
a `check-content-ref` whose value is a key of the mapping now reads `#` followed
by the report id. -/
def HrefRewritten (arf_report_mapping : String → Option String) (onTarget : Bool)
    (before after : XmlNode) : Prop :=
  after.bare = before.bare ∧ after.children.length = before.children.length ∧
    match hrefRewrite arf_report_mapping onTarget before with
    | some (href, report_id) =>
      ∃ pre post, before.attrs = pre ++ ("href", href) :: post ∧
        (∀ a ∈ pre, a.1 ≠ "href") ∧
        after.attrs = pre ++ ("href", "#" ++ report_id) :: post
    | none => after.attrs = before.attrs

/-- The relation `HrefRewritten` between what two trees hold at one position:
the position exists in both trees or in neither. -/
def SamePlace (arf_report_mapping : String → Option String) (onTarget : Bool) :
    Option XmlNode → Option XmlNode → Prop
  | some before, some after => HrefRewritten arf_report_mapping onTarget before after
  | none, none => True
  | _, _ => False

/-! ## Facts of a result tree -/

/-- The name and content that a child of a `target-facts` element contributes:
one entry for a `fact` element with a `name` attribute, none otherwise. -/
def factEntry (child : XmlNode) : List (String × String) :=
  if child.isElementNamed "fact" then
    match xmlGetProp child "name" with
    | some name => [(name, xmlNodeGetContent child)]
    | none => []
  else []

/-- The named facts of a result tree in document order: the facts of all its
`target-facts` element children. -/
def factsOf (test_result : XmlNode) : List (String × String) :=
  (test_result.children.filter (isElementNamed "target-facts")).flatMap
    (fun target_facts => target_facts.children.flatMap factEntry)

/-- The content of the first fact with the given name. -/
def firstFact (name : String) (facts : List (String × String)) : Option String :=
  (facts.find? (fun p => p.1 == name)).map Prod.snd

/-- The scan state agrees with the facts met so far: `device` holds the fqdn
of the first fqdn fact, then the hostname of the first host_name fact, and the
two pointers are the positions of these elements. -/
def AiScan.Tracks (st : AiScan) (facts : List (String × String)) : Prop :=
  st.device =
      (firstFact fact_fqdn facts).toList.map (contentElement (some ai_ns_uri) "fqdn") ++
      (firstFact fact_host_name facts).toList.map (contentElement (some ai_ns_uri) "hostname") ∧
    st.last_fqdn = (firstFact fact_fqdn facts).map (fun _ => 0) ∧
    st.last_hostname =
      (firstFact fact_host_name facts).map (fun _ => (firstFact fact_fqdn facts).toList.length)

/-! ## Network identities of a result tree -/

/-- A source of a connection entry in a result tree: a `target-address`
direct child, or a mac fact, with its text. -/
inductive NetSource where
  | address (text : String)
  | mac (text : String)

/-- The mac fact that a child of a `target-facts` element is, if it is one:
a `fact` element whose `name` attribute is the mac identifier. -/
def macSourceOf (child : XmlNode) : List NetSource :=
  if child.isElementNamed "fact" then
    match xmlGetProp child "name" with
    | some name => if name = fact_mac then [.mac (xmlNodeGetContent child)] else []
    | none => []
  else []

/-- The sources that one direct child of the result tree contributes. -/
def netSourcesOfChild (child : XmlNode) : List NetSource :=
  if child.isElementNamed "target-address" then [.address (xmlNodeGetContent child)]
  else if child.isElementNamed "target-facts" then child.children.flatMap macSourceOf
  else []

/-- The `target-address` direct children and the mac facts of a result tree,
in document order. -/
def netSources (test_result : XmlNode) : List NetSource :=
  test_result.children.flatMap netSourcesOfChild

/-- The connection entry that a source yields: an `ip-address` holding an
`ip-v4` with the text unchanged when the text contains a dot and an `ip-v6`
with the expanded text otherwise, or a `mac-address` holding the text. -/
def connectionFor (expand_ipv6 : String → String) : NetSource → XmlNode
  | NetSource.address content =>
    XmlNode.element (some ai_ns_uri) "connection" []
      [XmlNode.element (some ai_ns_uri) "ip-address" []
        [if '.' ∈ content.data then textElement (some ai_ns_uri) "ip-v4" content
         else textElement (some ai_ns_uri) "ip-v6" (expand_ipv6 content)]]
  | NetSource.mac content =>
    XmlNode.element (some ai_ns_uri) "connection" []
      [textElement (some ai_ns_uri) "mac-address" content]

/-! ## Relationship builder: `ds_rds_add_relationship` -/

/-- The function `ds_rds_add_relationship(doc, relationships, type, subject, ref)`:
the relationships container after the call.  The target document is the one
built by the composer, whose root declares the `core` namespace. -/
def ds_rds_add_relationship (relationships : XmlNode) (type subject ref : String) : XmlNode :=
  let relationship :=
    xmlSetProp (xmlSetProp (.element (some core_ns_uri) "relationship" [] []) "type" type)
      "subject" subject
  let ref_node := contentElement (some core_ns_uri) "ref" ref
  xmlAddChild relationships (xmlAddChild relationship ref_node)

/-! ## Documents and reports -/

/-- A libxml2 document as `rds.c` sees it: its root element, if it has one
(the result of `xmlDocGetRootElement`). -/
abbrev XmlDoc := Option XmlNode

/-- The tag name of an element (the field `node->name`). -/
def XmlNode.name : XmlNode → String
  | .element _ name _ _ => name
  | .text _ => "text"
  | .comment _ => "comment"

/-- The position and the node of the first child that is an element with the
given tag name. -/
def findElementNamed (tag : String) : List XmlNode → Option (Nat × XmlNode)
  | [] => none
  | c :: rest =>
    if c.isElementNamed tag then some (0, c)
    else (findElementNamed tag rest).map (fun r => (r.1 + 1, r.2))

/-- The function `ds_rds_create_report(target_doc, reports_node, source_doc, report_id)`:
the reports container after the call and the new report.  The copy made by
`xmlDOMWrapCloneNode` is the same tree; a source document without a root
leaves the content empty. -/
def ds_rds_create_report (reports_node : XmlNode) (source_doc : XmlDoc) (report_id : String) :
    XmlNode × XmlNode :=
  let report := xmlSetProp (.element (some arf_ns_uri) "report" [] []) "id" report_id
  let report_content := XmlNode.element (some arf_ns_uri) "content" [] source_doc.toList
  let report := xmlAddChild report report_content
  (xmlAddChild reports_node report, report)

/-! ## Reference injector: `ds_rds_report_inject_refs` -/

/-- The function `ds_rds_get_inner_content(doc, parent_node)`: the position
and the node of the first `content` element child. -/
def ds_rds_get_inner_content (parent_node : XmlNode) : Option (Nat × XmlNode) :=
  findElementNamed "content" parent_node.children

/-- The loop of lines 501-512 from position `i` on: the first component is
`test_result_node` (the first `TestResult` element child, where the loop
breaks), the second is `inner_element_node` (the last element met). -/
def scanContent : List XmlNode → Nat → Option (Nat × XmlNode) →
    Option (Nat × XmlNode) × Option (Nat × XmlNode)
  | [], _, inner => (none, inner)
  | c :: rest, i, inner =>
    if c.isElement then
      if c.isElementNamed "TestResult" then (some (i, c), some (i, c))
      else scanContent rest (i + 1) (some (i, c))
    else scanContent rest (i + 1) inner

/-- The loop of lines 540-551 from position `i` on: the last `TestResult`
element child. -/
def findLastTestResult : List XmlNode → Nat → Option (Nat × XmlNode) → Option (Nat × XmlNode)
  | [], _, acc => acc
  | c :: rest, i, acc =>
    findLastTestResult rest (i + 1) (if c.isElementNamed "TestResult" then some (i, c) else acc)

/-- Lines 560-564: the back-reference is injected, then the hrefs are
rewritten whatever the first call returned, and the value of the first call
is returned. -/
def injectIntoTestResult (test_result_node : XmlNode) (asset_id : String)
    (arf_report_mapping : String → Option String) : Option (Int × XmlNode) :=
  match ds_rds_report_inject_ai_target_id_ref test_result_node asset_id with
  | none => none
  | some (ret, node) => some (ret, ds_rds_report_inject_rule_result_refs arf_report_mapping node)

/-- The function `ds_rds_report_inject_refs(doc, report, asset_id, arf_report_mapping)`:
the return value and the report after the call. -/
def ds_rds_report_inject_refs (report : XmlNode) (asset_id : String)
    (arf_report_mapping : String → Option String) : Option (Int × XmlNode) :=
  match ds_rds_get_inner_content report with
  | none => some (-1, report)
  | some (ci, content_node) =>
    if content_node.children.isEmpty then some (-1, report)
    else
      match scanContent content_node.children 0 none with
      | (_, none) => some (-1, report)
      | (some (ti, test_result_node), some _) =>
        match injectIntoTestResult test_result_node asset_id arf_report_mapping with
        | none => none
        | some (ret, node) =>
          some (ret, report.setChildren (report.children.set ci
            (content_node.setChildren (content_node.children.set ti node))))
      | (none, some (ii, inner_element_node)) =>
        if !inner_element_node.isElementNamed "Benchmark" then some (-1, report)
        else if inner_element_node.children.isEmpty then some (-1, report)
        else
          match findLastTestResult inner_element_node.children 0 none with
          | none => some (-1, report)
          | some (ti, test_result_node) =>
            match injectIntoTestResult test_result_node asset_id arf_report_mapping with
            | none => none
            | some (ret, node) =>
              some (ret, report.setChildren (report.children.set ci
                (content_node.setChildren (content_node.children.set ii
                  (inner_element_node.setChildren
                    (inner_element_node.children.set ti node))))))

/-- The error that `ds_rds_report_inject_ai_target_id_ref` records with
`oscap_seterr` when it finds no anchor (line 381). -/
def targetIdRefErrors (test_result_node : XmlNode) : List String :=
  match findPrevSibling test_result_node.children 0 none with
  | none =>
    ["No target element was found in TestResult. " ++
      "The most likely reason is that the content is not valid! " ++
      "(XCCDF spec states 'target' element as required)"]
  | some _ => []

/-- The errors that a call of `ds_rds_report_inject_refs` that returns records
with `oscap_seterr`, in itself (lines 492, 515, 528, 534, 555), in
`ds_rds_get_inner_content` (line 128) and in
`ds_rds_report_inject_ai_target_id_ref`. -/
def injectRefsErrors (report : XmlNode) : List String :=
  match ds_rds_get_inner_content report with
  | none => ["Given ARF node has no 'arf:content' node inside!"]
  | some (_, content_node) =>
    if content_node.children.isEmpty then
      ["Given report doesn't contain any data, " ++ "can't inject AI asset target id ref"]
    else
      match scanContent content_node.children 0 none with
      | (_, none) =>
        ["Given report doesn't contain any XML element! " ++
          "Can't inject AI asset target id ref"]
      | (some (_, test_result_node), some _) => targetIdRefErrors test_result_node
      | (none, some (_, inner_element_node)) =>
        if !inner_element_node.isElementNamed "Benchmark" then
          ["Top level element of the report isn't TestResult " ++
            "or Benchmark, the report is likely invalid!"]
        else if inner_element_node.children.isEmpty then
          ["Top level element of the report isn't TestResult " ++
            "and does not contain any children! No TestResult to inject to has been found."]
        else
          match findLastTestResult inner_element_node.children 0 none with
          | none =>
            ["TestResult node to inject to has not been found" ++
              "(checked root element and all children of it)."]
          | some (_, test_result_node) => targetIdRefErrors test_result_node

/-! ## Result processing: `ds_rds_add_xccdf_test_results` -/

/-- The nodes that `ds_rds_add_xccdf_test_results` works on, and the errors it
has recorded with `oscap_seterr`. -/
structure Containers where
  reports : XmlNode
  relationships : XmlNode
  assets : XmlNode
  errors : List String

/-- The call `oscap_sprintf("xccdf%i", report_suffix)`. -/
def reportId (report_suffix : Nat) : String := "xccdf" ++ toString report_suffix

/-- The statements that both branches run for one TestResult (lines 588-601
and 632-645): `result_root` is the root of the document holding it and
`report_id` the id of its report.  The report is created as last child of the
reports container and is changed in place by the reference injection, whose
return value is not looked at and whose errors stay recorded. -/
def addOneResult (expand_ipv6 : String → String) (arf_report_mapping : String → Option String)
    (report_request_id : String) (c : Containers) (result_root : XmlNode)
    (report_id : String) : Option Containers :=
  let created := ds_rds_create_report c.reports (some result_root) report_id
  let relationships1 :=
    ds_rds_add_relationship c.relationships "arfvocab:createdFor" report_id report_request_id
  match ds_rds_add_ai_from_xccdf_results expand_ipv6 c.assets result_root with
  | none => none
  | some (assets1, asset) =>
    match xmlGetProp asset "id" with
    | none => none
    | some asset_id =>
      let relationships2 :=
        ds_rds_add_relationship relationships1 "arfvocab:isAbout" report_id asset_id
      match ds_rds_report_inject_refs created.2 asset_id arf_report_mapping with
      | none => none
      | some (_, report1) =>
        some { reports := created.1.setChildren (created.1.children.dropLast ++ [report1]),
               relationships := relationships2, assets := assets1,
               errors := c.errors ++ injectRefsErrors created.2 }

/-- The loop of lines 613-650 over the children of a Benchmark root. -/
def addBenchmarkResults (expand_ipv6 : String → String)
    (arf_report_mapping : String → Option String) (report_request_id : String) :
    List XmlNode → Nat → Containers → Option Containers
  | [], _, c => some c
  | candidate_result :: rest, report_suffix, c =>
    if candidate_result.isElementNamed "TestResult" then
      match addOneResult expand_ipv6 arf_report_mapping report_request_id c candidate_result
          (reportId report_suffix) with
      | none => none
      | some c1 =>
        addBenchmarkResults expand_ipv6 arf_report_mapping report_request_id rest
          (report_suffix + 1) c1
    else
      addBenchmarkResults expand_ipv6 arf_report_mapping report_request_id rest report_suffix c

/-- The function `ds_rds_add_xccdf_test_results`.  A result document without
a root element sends a null pointer to `root_element->ns`. -/
def ds_rds_add_xccdf_test_results (expand_ipv6 : String → String)
    (arf_report_mapping : String → Option String) (c : Containers)
    (xccdf_result_file_doc : XmlDoc) (report_request_id : String) : Option Containers :=
  match xccdf_result_file_doc with
  | none => none
  | some root_element =>
    if root_element.isElementNamed "TestResult" then
      addOneResult expand_ipv6 arf_report_mapping report_request_id c root_element "xccdf1"
    else if root_element.isElementNamed "Benchmark" then
      addBenchmarkResults expand_ipv6 arf_report_mapping report_request_id
        root_element.children 1 c
    else
      some { c with errors := c.errors ++
        ["Unknown root element '" ++ root_element.name ++
          "' in given XCCDF result document, expected TestResult or Benchmark."] }

/-! ## Composer: `_ds_rds_create_from_dom` -/

/-- The tailoring arguments of the composer when `tailoring_doc` is not null:
the document, its file path and the formatted time of its last change (null
when `stat` failed). -/
structure Tailoring where
  doc : XmlDoc
  filepath : String
  timestamp : Option String

/-- The functions of `sds.c` that the tailoring merge calls and that are
defined outside `rds.c`; the two lookups are seen through their test against
null. -/
structure SdsHelpers where
  ds_sds_mangle_filepath : String → String
  lookup_component_in_collection : XmlNode → String → Bool
  ds_sds_find_component_ref : List XmlNode → String → Bool

/-- Modelled from the spec: `node_get_child_element`, defined outside `rds.c`,
finds the first element child with the given name (the `data-stream` and
`checklists` structure of the bundle). -/
def node_get_child_element (parent : XmlNode) (name : String) : Option (Nat × XmlNode) :=
  findElementNamed name parent.children

/-- The conversion `%03d` of a counter. -/
def pad3 (counter : Nat) : String :=
  String.mk (List.replicate (3 - (toString counter).length) '0') ++ toString counter

/-- The loops of lines 718-728: while the id is taken, the next candidate is
made from the counter.  The loop is cut after `fuel` tests (`none`). -/
def retryId (taken : String → Bool) (next : Nat → String) : Nat → String → Nat → Option String
  | 0, _, _ => none
  | fuel + 1, id, counter =>
    if taken id then retryId taken next fuel (next counter) (counter + 1) else some id

/-- The tailoring merge of lines 713-769 on the imported bundle root: the
bundle root after the merge.  The second lookup starts from the children of
the first element child of the bundle root and dereferences a null pointer
when there is none. -/
def mergeTailoring (h : SdsHelpers) (fuel : Nat) (sds_res_node : XmlNode) (t : Tailoring) :
    Option XmlNode :=
  let mangled := h.ds_sds_mangle_filepath t.filepath
  match retryId (h.lookup_component_in_collection sds_res_node)
      (fun counter => "scap_org.open-scap_comp_" ++ mangled ++ "_tailoring" ++ pad3 counter)
      fuel ("scap_org.open-scap_comp_" ++ mangled ++ "_tailoring") 0 with
  | none => none
  | some tailoring_component_id =>
    match sds_res_node.children.find? XmlNode.isElement with
    | none => none
    | some first =>
      match retryId (h.ds_sds_find_component_ref first.children)
          (fun counter => "scap_org.open-scap_cref_" ++ mangled ++ "_tailoring" ++ pad3 counter)
          fuel ("scap_org.open-scap_cref_" ++ mangled ++ "_tailoring") 0 with
      | none => none
      | some tailoring_component_ref_id =>
        let sds_ns := sds_res_node.ns
        let tailoring_component :=
          (xmlSetProp (xmlSetProp (.element sds_ns "component" [] []) "id"
            tailoring_component_id) "timestamp" (t.timestamp.getD "")).setChildren t.doc.toList
        let sds1 := xmlAddChild sds_res_node tailoring_component
        let tailoring_component_ref :=
          XmlNode.element sds_ns "component-ref"
            [("id", tailoring_component_ref_id), ("xlink:href", "#" ++ tailoring_component_id)] []
        match node_get_child_element sds1 "data-stream" with
        | none =>
          some (xmlAddChild sds1 (.element sds_ns "data-stream" []
            [.element sds_ns "checklists" [] [tailoring_component_ref]]))
        | some (di, datastream_element) =>
          match node_get_child_element datastream_element "checklists" with
          | none => some sds1
          | some (ki, checklists_element) =>
            some (sds1.setChildren (sds1.children.set di
              (datastream_element.setChildren (datastream_element.children.set ki
                (xmlAddChild checklists_element tailoring_component_ref)))))

/-- Lines 699-770 as a function of the bundle tree: the bundle root as it ends
up below `arf:content`.  The merge runs when `tailoring_doc` is not null and
the file path is not the sentinel; it reads `sds_res_node->ns`, a null pointer
when the bundle document has no root. -/
def importBundle (h : SdsHelpers) (fuel : Nat) (sds_doc : XmlDoc)
    (tailoring : Option Tailoring) : Option XmlDoc :=
  match tailoring with
  | none => some sds_doc
  | some t =>
    if t.filepath = "NONEXISTENT" then some sds_doc
    else
      match sds_doc with
      | none => none
      | some sds_res_node => (mergeTailoring h fuel sds_res_node t).map some

/-- The node trees that the import of the bundle works with, by address, and
the root pointer of the bundle document `sds_doc`.  A change made in place to
a node is a change of the tree at its address; whoever holds the address sees
it. -/
structure BundleMem where
  nodes : List XmlNode
  sds_root : Option Nat

/-- The memory before the call: the bundle document holds its root, if it has
one, at address 0. -/
def BundleMem.ofDoc (sds_doc : XmlDoc) : BundleMem :=
  ⟨sds_doc.toList, sds_doc.map (fun _ => 0)⟩

/-- The bundle document as its owner sees it: the tree at its root pointer
(`xmlDocGetRootElement(sds_doc)`). -/
def BundleMem.sdsDoc (mem : BundleMem) : XmlDoc :=
  mem.sds_root.bind (fun root => mem.nodes.get? root)

/-- Lines 700-707: the memory and `sds_res_node` after the import of the bundle
root.  `xmlDOMWrapCloneNode` makes a copy of the root tree at a new address
and leaves the bundle document as it is; `xmlDOMWrapAdoptNode` takes the root
itself and unlinks it from the bundle document, whose root pointer becomes
null.  Without a root `sds_res_node` stays null. -/
def importRoot (clone : Bool) (mem : BundleMem) : BundleMem × Option Nat :=
  match mem.sds_root with
  | none => (mem, none)
  | some root =>
    if clone then
      match mem.nodes.get? root with
      | none => (mem, none)
      | some tree => (⟨mem.nodes ++ [tree], mem.sds_root⟩, some mem.nodes.length)
    else (⟨mem.nodes, none⟩, some root)

/-- Lines 700-770 on the memory: the import of the root and then, when
`tailoring_doc` is not null and the file path is not the sentinel, the
tailoring merge, which changes the node `sds_res_node` in place.  The result
is the memory after the merge and `sds_res_node`, the node that
`xmlAddChild(arf_content, sds_res_node)` has put below `arf:content`. -/
def importBundleMem (h : SdsHelpers) (fuel : Nat) (clone : Bool) (sds_doc : XmlDoc)
    (tailoring : Option Tailoring) : Option (BundleMem × Option Nat) :=
  let imported := importRoot clone (BundleMem.ofDoc sds_doc)
  match tailoring with
  | none => some imported
  | some t =>
    if t.filepath = "NONEXISTENT" then some imported
    else
      match imported.2 with
      | none => none
      | some sds_res_node =>
        match imported.1.nodes.get? sds_res_node with
        | none => none
        | some tree =>
          match mergeTailoring h fuel tree t with
          | none => none
          | some merged =>
            some (⟨imported.1.nodes.set sds_res_node merged, imported.1.sds_root⟩,
              some sds_res_node)

/-- The loop of lines 781-791 over the report mapping, in iteration order: one
report per entry, holding the sub-result document that the key resolves to.
A key that does not resolve sends a null pointer into `oscap_htable_get` or
`oscap_source_get_xmlDoc`. -/
def addOvalReports (oval_result_sources : String → Option XmlDoc)
    (oval_result_mapping : String → Option String) :
    List (String × String) → XmlNode → Option XmlNode
  | [], reports => some reports
  | (oval_filename, report_id) :: rest, reports =>
    match oval_result_mapping oval_filename with
    | none => none
    | some report_file =>
      match oval_result_sources report_file with
      | none => none
      | some oval_result_doc =>
        addOvalReports oval_result_sources oval_result_mapping rest
          (ds_rds_create_report reports oval_result_doc report_id).1

/-- What the composer hands back: the return value, the document stored in
`*ret`, and the bundle document as its owner sees it after the call. -/
structure CreateResult where
  code : Int
  ret : XmlDoc
  sds_doc : XmlDoc

/-- The lookup `oscap_htable_get` in a table given by its entries. -/
def oscap_htable_get (table : List (String × String)) (key : String) : Option String :=
  attrLookup key table

/-- The function `_ds_rds_create_from_dom`.  The report mapping is given by
its entries in iteration order.  With `clone` the bundle root is copied, else
it is moved out of its document; `arf:content` holds the node `sds_res_node`
as the tailoring merge leaves it. -/
def _ds_rds_create_from_dom (h : SdsHelpers) (fuel : Nat) (expand_ipv6 : String → String)
    (sds_doc : XmlDoc) (tailoring : Option Tailoring) (xccdf_result_file_doc : XmlDoc)
    (oval_result_sources : String → Option XmlDoc)
    (oval_result_mapping : String → Option String)
    (arf_report_mapping : List (String × String)) (clone : Bool) : Option CreateResult :=
  let relationships := XmlNode.element (some core_ns_uri) "relationships" [] []
  let report_requests := XmlNode.element (some arf_ns_uri) "report-requests" [] []
  let assets := XmlNode.element (some arf_ns_uri) "assets" [] []
  let report_request :=
    xmlSetProp (.element (some arf_ns_uri) "report-request" [] []) "id" "collection1"
  match importBundleMem h fuel clone sds_doc tailoring with
  | none => none
  | some (mem, sds_res_node) =>
    let arf_content := XmlNode.element (some arf_ns_uri) "content" []
      (sds_res_node.bind (fun node => mem.nodes.get? node)).toList
    let report_requests1 := xmlAddChild report_requests (xmlAddChild report_request arf_content)
    let reports := XmlNode.element (some arf_ns_uri) "reports" [] []
    match ds_rds_add_xccdf_test_results expand_ipv6 (oscap_htable_get arf_report_mapping)
        ⟨reports, relationships, assets, []⟩ xccdf_result_file_doc "collection1" with
    | none => none
    | some c =>
      match addOvalReports oval_result_sources oval_result_mapping arf_report_mapping
          c.reports with
      | none => none
      | some reports1 =>
        some { code := 0,
               ret := some (.element (some arf_ns_uri) "asset-report-collection" []
                 [c.relationships, report_requests1, c.assets, reports1]),
               sds_doc := mem.sdsDoc }

/-- The function `ds_rds_create_from_dom`: the bundle is moved. -/
def ds_rds_create_from_dom (h : SdsHelpers) (fuel : Nat) (expand_ipv6 : String → String)
    (sds_doc : XmlDoc) (tailoring : Option Tailoring) (xccdf_result_file_doc : XmlDoc)
    (oval_result_sources : String → Option XmlDoc)
    (oval_result_mapping : String → Option String)
    (arf_report_mapping : List (String × String)) : Option CreateResult :=
  _ds_rds_create_from_dom h fuel expand_ipv6 sds_doc tailoring xccdf_result_file_doc
    oval_result_sources oval_result_mapping arf_report_mapping false

/-- The function `ds_rds_create_from_dom_clone`: the bundle is copied. -/
def ds_rds_create_from_dom_clone (h : SdsHelpers) (fuel : Nat) (expand_ipv6 : String → String)
    (sds_doc : XmlDoc) (tailoring : Option Tailoring) (xccdf_result_file_doc : XmlDoc)
    (oval_result_sources : String → Option XmlDoc)
    (oval_result_mapping : String → Option String)
    (arf_report_mapping : List (String × String)) : Option CreateResult :=
  _ds_rds_create_from_dom h fuel expand_ipv6 sds_doc tailoring xccdf_result_file_doc
    oval_result_sources oval_result_mapping arf_report_mapping true

/-! ## Expected entries -/

/-- A relationship entry: a `relationship` element with the attributes `type`
and `subject` and a single `ref` child holding the text `ref`. -/
def relationshipEntry (type subject ref : String) : XmlNode :=
  .element (some core_ns_uri) "relationship" [("type", type), ("subject", subject)]
    [.element (some core_ns_uri) "ref" [] [.text ref]]

/-- A report entry: a `report` element with the given id and a single
`content` child holding the given nodes. -/
def reportEntry (id : String) (content : List XmlNode) : XmlNode :=
  .element (some arf_ns_uri) "report" [("id", id)]
    [.element (some arf_ns_uri) "content" [] content]

/-- The TestResult as it stands in its report after the reference injection
for the given asset id. -/
def injectedCopy (arf_report_mapping : String → Option String) (asset_id : String)
    (test_result : XmlNode) : XmlNode :=
  match injectIntoTestResult test_result asset_id arf_report_mapping with
  | some (_, node) => node
  | none => test_result

/-- The sub-result lookups resolve for every entry of the report mapping. -/
def OvalResolvable (oval_result_sources : String → Option XmlDoc)
    (oval_result_mapping : String → Option String) (table : List (String × String)) : Prop :=
  ∀ entry ∈ table, ∃ report_file oval_result_doc,
    oval_result_mapping entry.1 = some report_file ∧
    oval_result_sources report_file = some oval_result_doc

/-- The containers `c1` are the containers `c` with reports, relationships and
assets appended: the new reports are report entries, the new assets are
`asset` elements, and every new relationship has as subject the id of a new
report and as ref the request id or the id of a new asset. -/
def Grown (report_request_id : String) (c c1 : Containers) : Prop :=
  ∃ reports rels assets : List XmlNode,
    c1.reports = c.reports.setChildren (c.reports.children ++ reports) ∧
    c1.relationships = c.relationships.setChildren (c.relationships.children ++ rels) ∧
    c1.assets = c.assets.setChildren (c.assets.children ++ assets) ∧
    (∀ r ∈ reports, ∃ id content, r = reportEntry id content) ∧
    (∀ a ∈ assets, a.isElementNamed "asset" = true) ∧
    ∀ r ∈ rels, ∃ type subject ref, r = relationshipEntry type subject ref ∧
      (∃ report ∈ reports, report.isElementNamed "report" = true ∧
        xmlGetProp report "id" = some subject) ∧
      (ref = report_request_id ∨
        ∃ asset ∈ assets, asset.isElementNamed "asset" = true ∧
          xmlGetProp asset "id" = some ref)

/-! ## Tree node locator: `ds_rds_lookup_container`, `ds_rds_lookup_component` -/

/-- Modelled from the spec: `oscap_streq`, declared outside `rds.c`, compares
two strings for exact equality ("matching an `id` attribute exactly"); the
first argument may be the null pointer of a missing attribute, which is equal
to no string. -/
def oscap_streq (s1 : Option String) (s2 : String) : Bool :=
  s1 == some s2

/-- The function `ds_rds_lookup_container(doc, container_name)`: the position
among the children of the root and the node found, `none` for `NULL`. -/
def ds_rds_lookup_container (doc : XmlDoc) (container_name : String) : Option (Nat × XmlNode) :=
  match doc with
  | none => none
  | some root => findElementNamed container_name root.children

/-- The loop of lines 93-107 over the children of the container. -/
def findComponent (component_name id : String) : List XmlNode → Option (Nat × XmlNode)
  | [] => none
  | candidate :: rest =>
    if candidate.isElementNamed component_name &&
        oscap_streq (xmlGetProp candidate "id") id then some (0, candidate)
    else (findComponent component_name id rest).map (fun r => (r.1 + 1, r.2))

/-- The function `ds_rds_lookup_component(doc, container_name, component_name, id)`. -/
def ds_rds_lookup_component (doc : XmlDoc) (container_name component_name id : String) :
    Option (Nat × XmlNode) :=
  match ds_rds_lookup_container doc container_name with
  | none => none
  | some (_, container) => findComponent component_name id container.children

/-- The position and the node of the first node of a list that satisfies `p`. -/
def findFirst (p : XmlNode → Bool) : List XmlNode → Option (Nat × XmlNode)
  | [] => none
  | c :: rest => if p c then some (0, c) else (findFirst p rest).map (fun r => (r.1 + 1, r.2))

/-- An element with the given tag name whose `id` attribute is the given id. -/
def isComponent (component_name id : String) (node : XmlNode) : Bool :=
  node.isElementNamed component_name && xmlGetProp node "id" == some id

/-! ## Content dump: `ds_rds_dump_arf_content` -/

/-- An `oscap_source` made from a document: the document and its file path. -/
structure OscapSource where
  doc : XmlDoc
  filepath : String

/-- The loop of lines 152-163: the last element child (`inner_root`). -/
def lastElementChild : List XmlNode → Option XmlNode → Option XmlNode
  | [], inner_root => inner_root
  | candidate :: rest, inner_root =>
    lastElementChild rest (if candidate.isElement then some candidate else inner_root)

/-- The function `ds_rds_dump_arf_content`: the return value and the source
handed to the session, if any.  `register` stands for
`ds_rds_session_register_component_source`, which is defined outside `rds.c`
and whose return value the function returns; `doc` and `target_dir` are the
document and the target directory of the session.  The document built by
`ds_doc_from_foreign_node` is rooted at a copy of `inner_root`. -/
def ds_rds_dump_arf_content (register : String → OscapSource → Int) (doc : XmlDoc)
    (target_dir container_name component_name content_id : String) :
    Int × Option OscapSource :=
  match ds_rds_lookup_component doc container_name component_name content_id with
  | none => (-1, none)
  | some (_, parent_node) =>
    match ds_rds_get_inner_content parent_node with
    | none => (-1, none)
    | some (_, content_node) =>
      match lastElementChild content_node.children none with
      | none => (-1, none)
      | some inner_root =>
        let source : OscapSource :=
          ⟨some inner_root, target_dir ++ "/" ++ component_name ++ ".xml"⟩
        (register content_id source, some source)

/-! ## The TestResult that the reference injector works on -/

/-- The TestResult `test_result` is the one located in the report, and `put`
places a node where it stands: the report has a first `content` element
child, and either `test_result` is the first `TestResult` element child of
that content, or the content has no `TestResult` element child, its last
element child is a `Benchmark`, and `test_result` is the last `TestResult`
element child of this Benchmark. -/
def Located (report test_result : XmlNode) (put : XmlNode → XmlNode) : Prop :=
  ∃ rpre content rpost,
    report.children = rpre ++ content :: rpost ∧
    content.isElementNamed "content" = true ∧
    (∀ y ∈ rpre, y.isElementNamed "content" = false) ∧
    ((∃ cpre cpost,
        content.children = cpre ++ test_result :: cpost ∧
        test_result.isElementNamed "TestResult" = true ∧
        (∀ y ∈ cpre, y.isElementNamed "TestResult" = false) ∧
        put = fun node =>
          report.setChildren (rpre ++ content.setChildren (cpre ++ node :: cpost) :: rpost)) ∨
     (∃ cpre bench cpost bpre bpost,
        content.children = cpre ++ bench :: cpost ∧
        (∀ y ∈ cpre, y.isElementNamed "TestResult" = false) ∧
        (∀ y ∈ cpost, y.isElement = false) ∧
        bench.isElementNamed "Benchmark" = true ∧
        bench.children = bpre ++ test_result :: bpost ∧
        test_result.isElementNamed "TestResult" = true ∧
        (∀ y ∈ bpost, y.isElementNamed "TestResult" = false) ∧
        put = fun node =>
          report.setChildren (rpre ++ content.setChildren
            (cpre ++ bench.setChildren (bpre ++ node :: bpost) :: cpost) :: rpost)))

/-- The report that one pass of the loop of lines 781-791 appends for an entry
of the report mapping: the copy of the sub-result document that the file name
resolves to, under the id of the entry. -/
def ovalReport (oval_result_sources : String → Option XmlDoc)
    (oval_result_mapping : String → Option String) (entry : String × String) :
    Option XmlNode :=
  match oval_result_mapping entry.1 with
  | none => none
  | some report_file =>
    match oval_result_sources report_file with
    | none => none
    | some oval_result_doc => some (ds_rds_create_report
        (.element (some arf_ns_uri) "reports" [] []) oval_result_doc entry.2).2

/-! ## Example inputs -/

/-- Helpers under which no component id and no component-ref id is taken. -/
def exampleHelpers : SdsHelpers :=
  ⟨fun path => path, fun _ _ => false, fun _ _ => false⟩

/-- A checklist bundle with a `data-stream` holding an empty `checklists`. -/
def exampleBundle : XmlNode :=
  .element none "data-stream-collection" []
    [.element none "data-stream" [] [.element none "checklists" [] []]]

/-- A tailoring document with its file path and time stamp. -/
def exampleTailoring : Tailoring :=
  ⟨some (.element none "Tailoring" [] []), "t.xml", some "2014-01-01T00:00:00"⟩

/-- A TestResult without anchor that holds one `check-content-ref`. -/
def exampleTestResult : XmlNode :=
  .element none "TestResult" []
    [.element none "rule-result" []
      [.element none "check" []
        [.element none "check-content-ref" [("href", "oval.xml")] []]]]

/-- A report mapping that knows the file `oval.xml` as report `oval0`. -/
def exampleMapping : String → Option String :=
  fun href => if href == "oval.xml" then some "oval0" else none

/-- A TestResult with an anchor that holds one `check-content-ref`. -/
def exampleAnchoredTestResult : XmlNode :=
  .element none "TestResult" []
    [.element none "target" [] [.text "host"],
     .element none "rule-result" []
      [.element none "check" []
        [.element none "check-content-ref" [("href", "oval.xml")] []]]]

/-- A TestResult whose anchor is followed by a `target-id-ref` without
attributes, and that holds one `check-content-ref`. -/
def exampleBareRefTestResult : XmlNode :=
  .element none "TestResult" []
    [.element none "target" [] [.text "host"],
     .element none "target-id-ref" [] [],
     .element none "rule-result" []
      [.element none "check" []
        [.element none "check-content-ref" [("href", "oval.xml")] []]]]

/-- A checklist bundle whose `data-stream` has no `checklists` child. -/
def exampleBareBundle : XmlNode :=
  .element none "data-stream-collection" [] [.element none "data-stream" [] []]

/-- The entries of a report mapping with the one file `oval.xml`. -/
def exampleTable : List (String × String) := [("oval.xml", "oval0")]

/-- A result mapping that sends `oval.xml` to the source `oval.result.xml`. -/
def exampleResultMapping : String → Option String :=
  fun name => if name == "oval.xml" then some "oval.result.xml" else none

/-- Result sources that hold one loaded document. -/
def exampleSources : String → Option XmlDoc :=
  fun file =>
    if file == "oval.result.xml" then some (some (.element none "oval_results" [] []))
    else none

/-! # Theorems -/

/-! ## Content without references -/

theorem scanContentChars_plain (l : List Char) (h : '&' ∉ l) :
    ∀ (buf : List Char) (nodes : List XmlNode),
      scanContentChars l .plain buf nodes = flushText (buf ++ l) nodes := by
  induction l with
  | nil => intro buf nodes; simp [scanContentChars]
  | cons c rest ih =>
    intro buf nodes
    have hc : c ≠ '&' := fun hc => h (by simp [hc])
    have hrest : '&' ∉ rest := fun hr => h (by simp [hr])
    simp only [scanContentChars, scanPlain, hc, if_false]
    rw [ih hrest]
    simp

/-- A content without `&` is stored as it is given: as one text node, or as no
node when it is empty. -/
theorem xmlStringGetNodeList_plain (content : String) (h : '&' ∉ content.data) :
    xmlStringGetNodeList content = if content.data.isEmpty then [] else [.text content] := by
  rw [xmlStringGetNodeList, scanContentChars_plain _ h]
  simp [flushText]

theorem contentElement_verbatim (ns : Option String) (name content : String)
    (h : storedVerbatim content = true) :
    contentElement ns name content = textElement ns name content := by
  simp only [storedVerbatim, Bool.and_eq_true, Bool.not_eq_true', decide_eq_true_eq] at h
  rw [contentElement, xmlStringGetNodeList_plain _ h.2, h.1]
  simp [textElement]

/-- The text of an element made by `xmlNodeSetContent` from a content without
`&` is the content. -/
theorem xmlNodeGetContent_contentElement (ns : Option String) (name content : String)
    (h : '&' ∉ content.data) :
    xmlNodeGetContent (contentElement ns name content) = content := by
  rw [contentElement, xmlStringGetNodeList_plain _ h]
  by_cases hempty : content.data.isEmpty = true
  · have h0 : content = "" := by
      cases content with
      | mk data =>
        simp only [List.isEmpty_iff] at hempty
        simp [hempty]
    simp [hempty, h0, xmlNodeGetContent, XmlNode.innerText, innerTextList]
  · simp [hempty, xmlNodeGetContent, XmlNode.innerText, innerTextList]

theorem digitChar_ne_amp (d : Nat) (h : d < 10) : Nat.digitChar d ≠ '&' := by
  interval_cases d <;> decide

theorem toDigitsCore_no_amp (fuel : Nat) : ∀ (n : Nat) (ds : List Char), '&' ∉ ds →
    '&' ∉ Nat.toDigitsCore 10 fuel n ds := by
  induction fuel with
  | zero => intro n ds h; simpa [Nat.toDigitsCore] using h
  | succ fuel ih =>
    intro n ds h
    unfold Nat.toDigitsCore
    have hcons : '&' ∉ Nat.digitChar (n % 10) :: ds := by
      intro hmem
      rcases List.mem_cons.1 hmem with h1 | h1
      · exact digitChar_ne_amp _ (Nat.mod_lt n (by decide)) h1.symm
      · exact h h1
    by_cases h0 : n / 10 = 0
    · simpa [h0] using hcons
    · simp only [h0, if_false]
      exact ih _ _ hcons

/-- An asset id is stored as it is given. -/
theorem assetId_verbatim (k : Nat) : storedVerbatim (assetId k) = true := by
  have h1 : (assetId k).data = "asset".data ++ (Nat.toDigits 10 k) := by
    simp [assetId, toString, Nat.repr, String.data_append, List.asString]
  have h2 : '&' ∉ Nat.toDigits 10 k := toDigitsCore_no_amp _ _ _ (by simp)
  simp only [storedVerbatim, h1, Bool.and_eq_true, Bool.not_eq_true', decide_eq_true_eq]
  refine ⟨by simp, ?_⟩
  intro hmem
  rcases List.mem_append.1 hmem with h | h
  · revert h
    decide
  · exact h2 h

/-! ## Decimal rendering of the suffix -/

theorem digitVal_digitChar (d : Nat) (h : d < 10) : digitVal (Nat.digitChar d) = d := by
  interval_cases d <;> rfl

theorem toDigitsCore_spec (fuel : Nat) : ∀ (n : Nat) (ds : List Char), n < fuel →
    ∃ pre, Nat.toDigitsCore 10 fuel n ds = pre ++ ds ∧ digitsVal pre = n := by
  induction fuel with
  | zero => intro n ds h; omega
  | succ fuel ih =>
    intro n ds h
    unfold Nat.toDigitsCore
    by_cases h0 : n / 10 = 0
    · simp only [h0, if_true]
      refine ⟨[Nat.digitChar (n % 10)], rfl, ?_⟩
      have hn : n < 10 := by omega
      simp [digitsVal, Nat.mod_eq_of_lt hn, digitVal_digitChar n hn]
    · simp only [h0, if_false]
      obtain ⟨pre, hpre, hval⟩ := ih (n / 10) (Nat.digitChar (n % 10) :: ds) (by omega)
      refine ⟨pre ++ [Nat.digitChar (n % 10)], by simp [hpre], ?_⟩
      simp only [digitsVal] at hval ⊢
      rw [List.foldl_append, hval]
      simp [digitVal_digitChar _ (Nat.mod_lt n (by decide))]
      omega

theorem digitsVal_repr (n : Nat) : digitsVal (Nat.repr n).data = n := by
  obtain ⟨pre, hpre, hval⟩ := toDigitsCore_spec (n + 1) n [] (by omega)
  simp [Nat.repr, Nat.toDigits, hpre, List.asString, hval]

/-- Two different suffixes give two different asset ids. -/
theorem assetId_injective {m n : Nat} (h : assetId m = assetId n) : m = n := by
  have h1 : (assetId m).data = (assetId n).data := by rw [h]
  simp only [assetId, String.data_append] at h1
  have h2 := List.append_cancel_left h1
  have h3 : digitsVal (toString m).data = digitsVal (toString n).data := by rw [h2]
  simpa [show toString m = Nat.repr m from rfl, show toString n = Nat.repr n from rfl,
    digitsVal_repr] using h3

theorem assetId_eq_iff {m n : Nat} : assetId m = assetId n ↔ m = n :=
  ⟨assetId_injective, fun h => by rw [h]⟩

/-! ## The suffix scan -/

theorem assetSuffixScan_eq_scanIds (children : List XmlNode) :
    ∀ suffix, assetSuffixScan children suffix = scanIds (assetIdsOf children) suffix := by
  induction children with
  | nil => intro suffix; rfl
  | cons c rest ih =>
    intro suffix
    by_cases hc : c.isElementNamed "asset" = true
    · cases hid : xmlGetProp c "id" with
      | none => simp [assetSuffixScan, assetIdsOf, hc, hid, scanIds]
      | some id =>
        simp only [assetSuffixScan, hc, hid, if_true]
        rw [ih]
        simp [assetIdsOf, hc, hid, scanIds]
    · simp only [assetSuffixScan, hc]
      rw [if_neg (by simp), ih]
      simp [assetIdsOf, hc]

theorem assetIdsOf_append (a b : List XmlNode) :
    assetIdsOf (a ++ b) = assetIdsOf a ++ assetIdsOf b := by
  simp [assetIdsOf]

/-- Scanning ids `asset s, asset (s+1), ...` from suffix `s` bumps the suffix
once per id. -/
theorem scanIds_range (n : Nat) : ∀ s,
    scanIds ((List.range' s n).map fun i => some (assetId i)) s = some (s + n) := by
  induction n with
  | zero => intro s; rfl
  | succ n ih =>
    intro s
    simp only [List.range'_succ, List.map_cons, scanIds, if_true]
    rw [ih (s + 1)]
    congr 1
    omega

/-- On ids `asset n` with `n` strictly increasing and at least `s`, the scan
from `s` ends at the smallest number from `s` on that is not in the list. -/
theorem scanIds_sorted (nums : List Nat) : ∀ s, nums.Pairwise (· < ·) → (∀ n ∈ nums, s ≤ n) →
    ∃ k, scanIds (nums.map fun n => some (assetId n)) s = some k ∧ s ≤ k ∧ k ∉ nums ∧
      ∀ j, s ≤ j → j < k → j ∈ nums := by
  induction nums with
  | nil =>
    intro s _ _
    exact ⟨s, rfl, le_refl s, by simp, fun j h1 h2 => by omega⟩
  | cons n rest ih =>
    intro s hsorted hge
    rw [List.pairwise_cons] at hsorted
    have hsn : s ≤ n := hge n (by simp)
    simp only [List.map_cons, scanIds]
    by_cases hEq : s = n
    · subst hEq
      simp only [if_true]
      obtain ⟨k, hk, hle, hnot, hall⟩ := ih (s + 1) hsorted.2 (fun m hm => hsorted.1 m hm)
      refine ⟨k, hk, by omega, ?_, ?_⟩
      · simp only [List.mem_cons, not_or]
        exact ⟨by omega, hnot⟩
      · intro j h1 h2
        by_cases hj : j = s
        · simp [hj]
        · exact List.mem_cons_of_mem _ (hall j (by omega) h2)
    · rw [if_neg (fun h => hEq (assetId_injective h))]
      obtain ⟨k, hk, hle, hnot, hall⟩ := ih s hsorted.2
        (fun m hm => by have := hsorted.1 m hm; omega)
      have hks : k = s := by
        by_contra hne
        have hmem := hall s (le_refl s) (by omega)
        have := hsorted.1 s hmem
        omega
      refine ⟨k, hk, hle, ?_, ?_⟩
      · simp only [List.mem_cons, not_or]
        exact ⟨by omega, hnot⟩
      · intro j h1 h2
        omega

/-- When any two asset ids `asset m`, `asset n` met in this order have `m < n`,
and `asset s` is not among the ids already passed, the scan ends at a suffix
whose id is neither among the ids passed nor among the ids scanned. -/
theorem scanIds_fresh (ids : List String) : ∀ (seen : List String) (s : Nat),
    (seen ++ ids).Pairwise (fun a b => ∀ m n, a = assetId m → b = assetId n → m < n) →
    assetId s ∉ seen →
    ∃ k, scanIds (ids.map some) s = some k ∧ assetId k ∉ seen ++ ids := by
  induction ids with
  | nil =>
    intro seen s _ hs
    exact ⟨s, rfl, by simpa using hs⟩
  | cons x rest ih =>
    intro seen s hpw hs
    have hpw2 : ((seen ++ [x]) ++ rest).Pairwise
        (fun a b => ∀ m n, a = assetId m → b = assetId n → m < n) := by
      simpa using hpw
    simp only [List.map_cons, scanIds]
    by_cases hEq : assetId s = x
    · rw [if_pos hEq]
      have hfresh : assetId (s + 1) ∉ seen ++ [x] := by
        intro hmem
        rw [List.mem_append] at hmem
        rcases hmem with hmem | hmem
        · have hlt : ∀ b ∈ x :: rest, ∀ m n, assetId (s + 1) = assetId m → b = assetId n →
              m < n := fun b hb => (List.pairwise_append.1 hpw).2.2 _ hmem b hb
          have := hlt x (by simp) (s + 1) s rfl hEq.symm
          omega
        · simp only [List.mem_singleton] at hmem
          have := assetId_injective (hmem.trans hEq.symm)
          omega
      obtain ⟨k, hk, hnot⟩ := ih (seen ++ [x]) (s + 1) hpw2 hfresh
      exact ⟨k, hk, by simpa using hnot⟩
    · rw [if_neg hEq]
      have hfresh : assetId s ∉ seen ++ [x] := by
        simp only [List.mem_append, List.mem_singleton, not_or]
        exact ⟨hs, hEq⟩
      obtain ⟨k, hk, hnot⟩ := ih (seen ++ [x]) s hpw2 hfresh
      exact ⟨k, hk, by simpa using hnot⟩

/-! ## Asset ids -/

theorem add_ai_eq (expand_ipv6 : String → String) (ns : Option String) (name : String)
    (attrs : List (String × String)) (ch : List XmlNode) (test_result : XmlNode) (k : Nat)
    (hscan : scanIds (assetIdsOf ch) 0 = some k) :
    ds_rds_add_ai_from_xccdf_results expand_ipv6 (.element ns name attrs ch) test_result
      = some (.element ns name attrs (ch ++ [buildAsset expand_ipv6 (assetId k) test_result]),
          buildAsset expand_ipv6 (assetId k) test_result) := by
  simp [ds_rds_add_ai_from_xccdf_results, XmlNode.children, assetSuffixScan_eq_scanIds, hscan,
    xmlAddChild, XmlNode.setChildren]

theorem assetIdsOf_buildAsset (expand_ipv6 : String → String) (id : String)
    (test_result : XmlNode) :
    assetIdsOf [buildAsset expand_ipv6 id test_result] = [some id] := by
  simp [assetIdsOf, buildAsset, isElementNamed, xmlGetProp, XmlNode.attrs, attrLookup]

theorem xmlGetProp_buildAsset (expand_ipv6 : String → String) (id : String)
    (test_result : XmlNode) :
    xmlGetProp (buildAsset expand_ipv6 id test_result) "id" = some id := by
  simp [buildAsset, xmlGetProp, XmlNode.attrs, attrLookup]

theorem extractAll_from (expand_ipv6 : String → String) (ns : Option String) (name : String)
    (attrs : List (String × String)) (results : List XmlNode) :
    ∀ (ch : List XmlNode) (k : Nat),
      assetIdsOf ch = (List.range' 0 k).map (fun i => some (assetId i)) →
      ∃ assets, extractAll expand_ipv6 (.element ns name attrs ch) results
          = some (.element ns name attrs (ch ++ assets), assets) ∧
        assets.map (fun a => xmlGetProp a "id")
          = (List.range' k results.length).map (fun i => some (assetId i)) ∧
        assetIdsOf assets = (List.range' k results.length).map (fun i => some (assetId i)) := by
  induction results with
  | nil =>
    intro ch k _
    exact ⟨[], by simp [extractAll], by simp, by simp [assetIdsOf]⟩
  | cons r rest ih =>
    intro ch k hch
    have hscan : scanIds (assetIdsOf ch) 0 = some k := by
      rw [hch]
      simpa using scanIds_range k 0
    have hch1 : assetIdsOf (ch ++ [buildAsset expand_ipv6 (assetId k) r])
        = (List.range' 0 (k + 1)).map (fun i => some (assetId i)) := by
      rw [assetIdsOf_append, hch, assetIdsOf_buildAsset, List.range'_concat]
      simp
    obtain ⟨more, hmore, hids, hids2⟩ := ih (ch ++ [buildAsset expand_ipv6 (assetId k) r])
      (k + 1) hch1
    refine ⟨buildAsset expand_ipv6 (assetId k) r :: more, ?_, ?_, ?_⟩
    · simp [extractAll, add_ai_eq expand_ipv6 ns name attrs ch r k hscan, hmore]
    · simp [List.range'_succ, xmlGetProp_buildAsset, hids]
    · have := assetIdsOf_append [buildAsset expand_ipv6 (assetId k) r] more
      simp only [List.singleton_append] at this
      rw [this, assetIdsOf_buildAsset, hids2]
      simp [List.range'_succ]

/-- C1: starting from an assets container without children, successive calls
of the asset extractor, one per result tree, all succeed; the assets they
return carry the ids asset0, asset1, ..., asset(N-1) in call order, and the
children of the final container are exactly these assets, so that the ids of
its asset children in document order are the same sequence. -/
theorem extractAll_ids_sequential (expand_ipv6 : String → String) (ns : Option String)
    (name : String) (attrs : List (String × String)) (results : List XmlNode) :
    ∃ final assets,
      extractAll expand_ipv6 (.element ns name attrs []) results = some (final, assets) ∧
      assets.length = results.length ∧
      assets.map (fun a => xmlGetProp a "id")
        = (List.range results.length).map (fun i => some (assetId i)) ∧
      final.children = assets ∧
      assetIdsOf final.children
        = (List.range results.length).map (fun i => some (assetId i)) := by
  obtain ⟨assets, h1, h2, h3⟩ := extractAll_from expand_ipv6 ns name attrs results [] 0
    (by simp [assetIdsOf])
  have hlen : assets.length = results.length := by
    have := congrArg List.length h2
    simpa using this
  refine ⟨_, assets, h1, hlen, ?_, by simp [XmlNode.children], ?_⟩
  · rw [h2, List.range_eq_range']
  · simp only [List.nil_append, XmlNode.children]
    rw [h3, List.range_eq_range']

/-- C2 as stated fails: in a container whose asset children carry the ids
asset1, asset0 in this order, the extractor assigns asset1, the id of the
first child. -/
theorem asset_id_collision :
    ∃ assets asset,
      ds_rds_add_ai_from_xccdf_results (fun s => s)
        (.element none "assets" []
          [.element none "asset" [("id", "asset1")] [],
           .element none "asset" [("id", "asset0")] []])
        (.element none "TestResult" [] []) = some (assets, asset) ∧
      xmlGetProp asset "id"
        = xmlGetProp (.element none "asset" [("id", "asset1")] []) "id" :=
  ⟨_, _, rfl, rfl⟩

/-- C2, amended: when every asset child of the container has an id and any
two asset children whose ids read asset m and asset n, met in this document
order, have m < n, the extractor succeeds and the id of the new asset differs
from the id of every asset element that was already a child. -/
theorem asset_id_fresh_of_ordered (expand_ipv6 : String → String) (ns : Option String)
    (name : String) (attrs : List (String × String)) (ch : List XmlNode)
    (test_result : XmlNode) (ids : List String)
    (hids : assetIdsOf ch = ids.map some)
    (hordered : ids.Pairwise (fun a b => ∀ m n, a = assetId m → b = assetId n → m < n)) :
    ∃ assets asset,
      ds_rds_add_ai_from_xccdf_results expand_ipv6 (.element ns name attrs ch) test_result
        = some (assets, asset) ∧
      ∀ c ∈ ch, c.isElementNamed "asset" = true →
        xmlGetProp c "id" ≠ xmlGetProp asset "id" := by
  obtain ⟨k, hk, hfresh⟩ := scanIds_fresh ids [] 0 (by simpa using hordered) (by simp)
  rw [← hids] at hk
  refine ⟨_, _, add_ai_eq expand_ipv6 ns name attrs ch test_result k hk, ?_⟩
  intro c hc hasset heq
  rw [xmlGetProp_buildAsset] at heq
  have hmem : xmlGetProp c "id" ∈ assetIdsOf ch := by
    simp only [assetIdsOf, List.mem_map, List.mem_filter]
    exact ⟨c, ⟨hc, hasset⟩, rfl⟩
  rw [hids, heq] at hmem
  simp only [List.mem_map, Option.some.injEq, exists_eq_right] at hmem
  exact hfresh (by simpa using hmem)

/-- The amended C2 on a container holding asset0, an asset with the id host-7
and asset2. -/
theorem asset_id_fresh_of_ordered_witness :
    (assetIdsOf [.element none "asset" [("id", "asset0")] [], .text " ",
        .element none "asset" [("id", "host-7")] [],
        .element none "asset" [("id", "asset2")] []]
      = ["asset0", "host-7", "asset2"].map some) ∧
    ∃ assets asset,
      ds_rds_add_ai_from_xccdf_results (fun s => s)
        (.element none "assets" []
          [.element none "asset" [("id", "asset0")] [], .text " ",
           .element none "asset" [("id", "host-7")] [],
           .element none "asset" [("id", "asset2")] []])
        (.element none "TestResult" [] []) = some (assets, asset) ∧
      ∀ c ∈ [XmlNode.element none "asset" [("id", "asset0")] [], .text " ",
          .element none "asset" [("id", "host-7")] [],
          .element none "asset" [("id", "asset2")] []],
        c.isElementNamed "asset" = true → xmlGetProp c "id" ≠ xmlGetProp asset "id" :=
  ⟨rfl, asset_id_fresh_of_ordered (fun s => s) none "assets" [] _ _
    ["asset0", "host-7", "asset2"] rfl (by
      have e0 : "asset0" = assetId 0 := rfl
      have e2 : "asset2" = assetId 2 := rfl
      have hne : ∀ m, "host-7" ≠ assetId m := by
        intro m h
        have h1 := congrArg String.data h
        simp only [assetId, String.data_append] at h1
        have h2 := congrArg List.head? h1
        simp at h2
      simp only [List.pairwise_cons, List.mem_cons, List.mem_singleton, List.not_mem_nil,
        forall_eq_or_imp, forall_eq, false_implies, implies_true, List.Pairwise.nil, and_true]
      refine ⟨⟨fun m n _ h => absurd h (hne n), fun m n h1 h2 => ?_⟩,
        fun m n h => absurd h (hne m)⟩
      have := assetId_injective (e0.symm.trans h1)
      have := assetId_injective (e2.symm.trans h2)
      omega)⟩

/-- C3: when the asset children of the container carry the ids asset n for a
strictly increasing sequence of numbers n (nodes of any other kind may sit
between them), the extractor succeeds and assigns asset k, where asset k is
the id of no existing asset child while asset j is the id of one for every
j < k. -/
theorem asset_id_smallest_unused (expand_ipv6 : String → String) (ns : Option String)
    (name : String) (attrs : List (String × String)) (ch : List XmlNode)
    (test_result : XmlNode) (nums : List Nat)
    (hids : assetIdsOf ch = nums.map (fun n => some (assetId n)))
    (hsorted : nums.Pairwise (· < ·)) :
    ∃ k assets asset,
      ds_rds_add_ai_from_xccdf_results expand_ipv6 (.element ns name attrs ch) test_result
        = some (assets, asset) ∧
      xmlGetProp asset "id" = some (assetId k) ∧
      (∀ c ∈ ch, c.isElementNamed "asset" = true → xmlGetProp c "id" ≠ some (assetId k)) ∧
      ∀ j, j < k → ∃ c ∈ ch, c.isElementNamed "asset" = true ∧
        xmlGetProp c "id" = some (assetId j) := by
  obtain ⟨k, hk, _, hnot, hall⟩ := scanIds_sorted nums 0 hsorted (fun n _ => Nat.zero_le n)
  rw [← hids] at hk
  refine ⟨k, _, _, add_ai_eq expand_ipv6 ns name attrs ch test_result k hk,
    xmlGetProp_buildAsset _ _ _, ?_, ?_⟩
  · intro c hc hasset heq
    have hmem : xmlGetProp c "id" ∈ assetIdsOf ch := by
      simp only [assetIdsOf, List.mem_map, List.mem_filter]
      exact ⟨c, ⟨hc, hasset⟩, rfl⟩
    rw [hids, heq] at hmem
    simp only [List.mem_map, Option.some.injEq] at hmem
    obtain ⟨n, hn, hnk⟩ := hmem
    exact hnot (assetId_injective hnk ▸ hn)
  · intro j hj
    have hmem : some (assetId j) ∈ assetIdsOf ch := by
      rw [hids]
      exact List.mem_map.2 ⟨j, hall j (Nat.zero_le j) hj, rfl⟩
    simp only [assetIdsOf, List.mem_map, List.mem_filter] at hmem
    obtain ⟨c, ⟨hc, hasset⟩, hid⟩ := hmem
    exact ⟨c, hc, hasset, hid⟩

/-- C3 on a container holding asset0 and asset2 among other nodes: the
extractor assigns asset1. -/
theorem asset_id_smallest_unused_witness :
    (assetIdsOf [.text " ", .element none "asset" [("id", "asset0")] [],
        .element none "note" [] [], .element none "asset" [("id", "asset2")] []]
      = [0, 2].map (fun n => some (assetId n))) ∧
    [0, 2].Pairwise (· < ·) ∧
    ∃ k assets asset,
      ds_rds_add_ai_from_xccdf_results (fun s => s)
        (.element none "assets" []
          [.text " ", .element none "asset" [("id", "asset0")] [],
           .element none "note" [] [], .element none "asset" [("id", "asset2")] []])
        (.element none "TestResult" [] []) = some (assets, asset) ∧
      xmlGetProp asset "id" = some (assetId k) ∧
      (∀ c ∈ [XmlNode.text " ", .element none "asset" [("id", "asset0")] [],
          .element none "note" [] [], .element none "asset" [("id", "asset2")] []],
        c.isElementNamed "asset" = true → xmlGetProp c "id" ≠ some (assetId k)) ∧
      ∀ j, j < k → ∃ c ∈ [XmlNode.text " ", .element none "asset" [("id", "asset0")] [],
          .element none "note" [] [], .element none "asset" [("id", "asset2")] []],
        c.isElementNamed "asset" = true ∧ xmlGetProp c "id" = some (assetId j) :=
  ⟨rfl, by decide, asset_id_smallest_unused (fun s => s) none "assets" [] _ _ [0, 2] rfl
    (by decide)⟩

/-! ## Target back-reference injection -/

theorem findPrevSibling_no_anchor (l : List XmlNode) : ∀ (i : Nat) (acc : Option Nat),
    (∀ c ∈ l, isAnchor c = false) → findPrevSibling l i acc = acc := by
  induction l with
  | nil => intro i acc _; rfl
  | cons c rest ih =>
    intro i acc h
    simp only [findPrevSibling, h c (by simp)]
    exact ih _ _ (fun y hy => h y (by simp [hy]))

theorem findPrevSibling_last (pre : List XmlNode) (x : XmlNode) (post : List XmlNode)
    (hx : isAnchor x = true) (hpost : ∀ y ∈ post, isAnchor y = false) :
    ∀ (i : Nat) (acc : Option Nat),
      findPrevSibling (pre ++ x :: post) i acc = some (i + pre.length) := by
  induction pre with
  | nil =>
    intro i acc
    simp only [List.nil_append, findPrevSibling, hx, if_true, List.length_nil, Nat.add_zero]
    exact findPrevSibling_no_anchor post _ _ hpost
  | cons p pre ih =>
    intro i acc
    show findPrevSibling (pre ++ x :: post) (i + 1) _ = some (i + (pre.length + 1))
    rw [ih]
    congr 1
    omega

/-- A children list with an anchor splits at its last anchor. -/
theorem exists_last_anchor (l : List XmlNode) (h : l.any isAnchor = true) :
    ∃ pre x post, l = pre ++ x :: post ∧ isAnchor x = true ∧
      ∀ y ∈ post, isAnchor y = false := by
  induction l with
  | nil => simp at h
  | cons c rest ih =>
    by_cases hrest : rest.any isAnchor = true
    · obtain ⟨pre, x, post, hl, hx, hpost⟩ := ih hrest
      exact ⟨c :: pre, x, post, by simp [hl], hx, hpost⟩
    · have hc : isAnchor c = true := by
        simp only [List.any_cons, Bool.or_eq_true] at h
        rcases h with h | h
        · exact h
        · exact absurd h hrest
      refine ⟨[], c, rest, rfl, hc, ?_⟩
      intro y hy
      by_contra hy2
      exact hrest (List.any_eq_true.2 ⟨y, hy, by simpa using hy2⟩)

theorem findPrevSibling_none_iff (l : List XmlNode) :
    findPrevSibling l 0 none = none ↔ l.any isAnchor = false := by
  constructor
  · intro h
    by_contra hany
    obtain ⟨pre, x, post, hl, hx, hpost⟩ := exists_last_anchor l (by simpa using hany)
    rw [hl, findPrevSibling_last pre x post hx hpost] at h
    simp at h
  · intro h
    apply findPrevSibling_no_anchor
    intro c hc
    by_contra hc2
    have : l.any isAnchor = true := List.any_eq_true.2 ⟨c, hc, by simpa using hc2⟩
    simp [h] at this

/-- The injection on a children list split at its last anchor. -/
theorem inject_split (t : XmlNode) (asset_id : String) (pre : List XmlNode) (x : XmlNode)
    (post : List XmlNode) (hch : t.children = pre ++ x :: post) (hx : isAnchor x = true)
    (hpost : ∀ y ∈ post, isAnchor y = false) :
    ds_rds_report_inject_ai_target_id_ref t asset_id =
      match scanDuplicate asset_id post with
      | none => none
      | some true => some (0, t)
      | some false =>
        some (0, t.setChildren (pre ++ x :: newTargetIdRef x.ns asset_id :: post)) := by
  have hfind := findPrevSibling_last pre x post hx hpost 0 none
  simp only [Nat.zero_add] at hfind
  have hdrop : (pre ++ x :: post).drop (pre.length + 1) = post := by
    rw [show pre ++ x :: post = (pre ++ [x]) ++ post by simp]
    exact List.drop_left' (by simp)
  have hget : (pre ++ x :: post).get? pre.length = some x := by
    rw [List.get?_eq_getElem?, List.getElem?_append_right (le_refl _)]
    simp
  have hins : insertAt (pre ++ x :: post) (pre.length + 1) (newTargetIdRef x.ns asset_id)
      = pre ++ x :: newTargetIdRef x.ns asset_id :: post := by
    unfold insertAt
    rw [hdrop, show pre ++ x :: post = (pre ++ [x]) ++ post by simp,
      List.take_left' (by simp)]
    simp
  simp only [ds_rds_report_inject_ai_target_id_ref, hch, hfind, hdrop, hget, hins]

theorem scanDuplicate_new_first (ns : Option String) (asset_id : String)
    (post : List XmlNode) :
    scanDuplicate asset_id (newTargetIdRef ns asset_id :: post) = some true := by
  simp [scanDuplicate, newTargetIdRef, isElement, isElementNamed, xmlGetProp, XmlNode.attrs,
    attrLookup]

theorem scanDuplicate_ne_none (asset_id : String) (l : List XmlNode)
    (h : ∀ y ∈ l, refAttrsPresent y = true) : scanDuplicate asset_id l ≠ none := by
  induction l with
  | nil => simp [scanDuplicate]
  | cons c rest ih =>
    have ih2 := ih (fun y hy => h y (by simp [hy]))
    have hc := h c (by simp)
    unfold scanDuplicate
    by_cases he : c.isElement = true
    · by_cases hn : c.isElementNamed "target-id-ref" = true
      · simp only [refAttrsPresent, hn, Bool.not_true, Bool.false_or, Bool.and_eq_true] at hc
        obtain ⟨sys, hsys⟩ := Option.isSome_iff_exists.1 hc.1
        obtain ⟨nm, hnm⟩ := Option.isSome_iff_exists.1 hc.2
        simp only [he, hn, if_true, hsys, hnm]
        split_ifs <;> simp [ih2]
      · simp [he, hn]
    · simp only [he]
      simpa using ih2

/-- A matching reference that follows through skipped nodes only is found. -/
theorem scanDuplicate_found (asset_id : String) (mid : List XmlNode) (m : XmlNode)
    (post : List XmlNode) (hmid : ∀ y ∈ mid, isSkipped y = true ∧ refAttrsPresent y = true)
    (hm : isMatchingRef asset_id m = true) :
    scanDuplicate asset_id (mid ++ m :: post) = some true := by
  induction mid with
  | nil =>
    simp only [isMatchingRef, Bool.and_eq_true, beq_iff_eq] at hm
    obtain ⟨⟨hn, hsys⟩, hnm⟩ := hm
    have he : m.isElement = true := by
      cases m <;> simp_all [isElementNamed, isElement]
    simp [scanDuplicate, he, hn, hsys, hnm]
  | cons c rest ih =>
    have ih2 := ih (fun y hy => hmid y (by simp [hy]))
    obtain ⟨hskip, hattr⟩ := hmid c (by simp)
    simp only [List.cons_append]
    unfold scanDuplicate
    by_cases he : c.isElement = true
    · have hn : c.isElementNamed "target-id-ref" = true := by
        simpa [isSkipped, he] using hskip
      simp only [refAttrsPresent, hn, Bool.not_true, Bool.false_or, Bool.and_eq_true] at hattr
      obtain ⟨sys, hsys⟩ := Option.isSome_iff_exists.1 hattr.1
      obtain ⟨nm, hnm⟩ := Option.isSome_iff_exists.1 hattr.2
      simp only [he, hn, if_true, hsys, hnm]
      split_ifs <;> simp [ih2]
    · simp only [he]
      simpa using ih2

/-- When the scan finds a duplicate, a matching reference follows through
skipped nodes only. -/
theorem scanDuplicate_true_split (asset_id : String) (l : List XmlNode)
    (h : scanDuplicate asset_id l = some true) :
    ∃ mid m post, l = mid ++ m :: post ∧ (∀ y ∈ mid, isSkipped y = true) ∧
      isMatchingRef asset_id m = true := by
  induction l with
  | nil => simp [scanDuplicate] at h
  | cons c rest ih =>
    unfold scanDuplicate at h
    by_cases he : c.isElement = true
    · by_cases hn : c.isElementNamed "target-id-ref" = true
      · have hskip : isSkipped c = true := by simp [isSkipped, hn]
        have hcons : scanDuplicate asset_id rest = some true →
            ∃ mid m post, c :: rest = mid ++ m :: post ∧ (∀ y ∈ mid, isSkipped y = true) ∧
              isMatchingRef asset_id m = true := by
          intro hrest
          obtain ⟨mid, m, post, hl, hmid, hm⟩ := ih hrest
          refine ⟨c :: mid, m, post, by simp [hl], ?_, hm⟩
          intro y hy
          rcases List.mem_cons.1 hy with hy | hy
          · rw [hy]; exact hskip
          · exact hmid y hy
        simp only [he, hn, if_true] at h
        cases hsys : xmlGetProp c "system" with
        | none => simp [hsys] at h
        | some sys =>
          simp only [hsys] at h
          by_cases hs : sys = ai_ns_uri
          · simp only [hs, if_true] at h
            cases hnm : xmlGetProp c "name" with
            | none => simp [hnm] at h
            | some nm =>
              simp only [hnm] at h
              by_cases hname : nm = asset_id
              · exact ⟨[], c, rest, rfl, by simp,
                  by simp [isMatchingRef, hn, hsys, hs, hnm, hname]⟩
              · simp only [hname, if_false] at h
                exact hcons h
          · simp only [hs, if_false] at h
            exact hcons h
      · simp [he, hn] at h
    · simp only [he] at h
      obtain ⟨mid, m, post, hl, hmid, hm⟩ := ih (by simpa using h)
      refine ⟨c :: mid, m, post, by simp [hl], ?_, hm⟩
      intro y hy
      rcases List.mem_cons.1 hy with hy | hy
      · rw [hy]; simp [isSkipped, he]
      · exact hmid y hy

theorem children_setChildren (t : XmlNode) (l l2 : List XmlNode) (x : XmlNode)
    (h : t.children = x :: l) : (t.setChildren l2).children = l2 := by
  cases t <;> simp_all [XmlNode.children, XmlNode.setChildren]

theorem children_setChildren_of_append (t : XmlNode) (pre post l2 : List XmlNode) (x : XmlNode)
    (h : t.children = pre ++ x :: post) : (t.setChildren l2).children = l2 := by
  cases pre with
  | nil => exact children_setChildren t post l2 x h
  | cons p pre => exact children_setChildren t (pre ++ x :: post) l2 p h

theorem isAnchor_newTargetIdRef (ns : Option String) (asset_id : String) :
    isAnchor (newTargetIdRef ns asset_id) = false := by
  simp [isAnchor, newTargetIdRef, isElementNamed]

theorem filter_length_insert (p : XmlNode → Bool) (pre post : List XmlNode) (x new : XmlNode)
    (hnew : p new = true) :
    ((pre ++ x :: new :: post).filter p).length = ((pre ++ x :: post).filter p).length + 1 := by
  by_cases hx : p x = true <;> simp [List.filter_append, List.filter_cons, hx, hnew] <;> omega

/-- The last anchor of a children list is unique: two splits coincide. -/
theorem last_anchor_unique (pre1 pre2 post1 post2 : List XmlNode) (x1 x2 : XmlNode)
    (h : pre1 ++ x1 :: post1 = pre2 ++ x2 :: post2)
    (hx1 : isAnchor x1 = true) (hx2 : isAnchor x2 = true)
    (hpost1 : ∀ y ∈ post1, isAnchor y = false) (hpost2 : ∀ y ∈ post2, isAnchor y = false) :
    pre1 = pre2 ∧ x1 = x2 ∧ post1 = post2 := by
  have h1 := findPrevSibling_last pre1 x1 post1 hx1 hpost1 0 none
  have h2 := findPrevSibling_last pre2 x2 post2 hx2 hpost2 0 none
  rw [h, h2] at h1
  have hlen : pre1.length = pre2.length := by
    simp only [Nat.zero_add, Option.some.injEq] at h1
    exact h1.symm
  have := List.append_inj h hlen
  exact ⟨this.1, (List.cons.inj this.2).1, (List.cons.inj this.2).2⟩

/-- On a TestResult with an anchor whose `target-id-ref` children carry the
`system` and `name` attributes, the injection returns 0 and a second
injection with the same asset id returns 0 and changes nothing more; the tree
is left as it was when a reference was already in place, and gains exactly
one `target-id-ref` child otherwise. -/
theorem inject_idempotent (t : XmlNode) (asset_id : String)
    (hanchor : hasAnchor t = true) (hattrs : ∀ y ∈ t.children, refAttrsPresent y = true) :
    ∃ t1, ds_rds_report_inject_ai_target_id_ref t asset_id = some (0, t1) ∧
      ds_rds_report_inject_ai_target_id_ref t1 asset_id = some (0, t1) ∧
      (AlreadyReferenced asset_id t → t1 = t) ∧
      (¬ AlreadyReferenced asset_id t → countTargetIdRef t1 = countTargetIdRef t + 1) := by
  obtain ⟨pre, x, post, hch, hx, hpost⟩ := exists_last_anchor t.children hanchor
  have hsplit := inject_split t asset_id pre x post hch hx hpost
  have hne := scanDuplicate_ne_none asset_id post
    (fun y hy => hattrs y (by rw [hch]; simp [hy]))
  cases hscan : scanDuplicate asset_id post with
  | none => exact absurd hscan hne
  | some b =>
    cases b with
    | true =>
      rw [hscan] at hsplit
      refine ⟨t, hsplit, hsplit, fun _ => rfl, fun hnot => absurd ?_ hnot⟩
      obtain ⟨mid, m, post2, hl, hmid, hm⟩ := scanDuplicate_true_split asset_id post hscan
      exact ⟨pre, x, mid, m, post2, by rw [hch, hl], hx, by rw [← hl]; exact hpost, hmid, hm⟩
    | false =>
      rw [hscan] at hsplit
      have hch1 : (t.setChildren (pre ++ x :: newTargetIdRef x.ns asset_id :: post)).children
          = pre ++ x :: (newTargetIdRef x.ns asset_id :: post) :=
        children_setChildren_of_append t pre post _ x hch
      have hpost1 : ∀ y ∈ newTargetIdRef x.ns asset_id :: post, isAnchor y = false := by
        intro y hy
        rcases List.mem_cons.1 hy with hy | hy
        · rw [hy]; exact isAnchor_newTargetIdRef _ _
        · exact hpost y hy
      have hsplit1 := inject_split _ asset_id pre x _ hch1 hx hpost1
      rw [scanDuplicate_new_first] at hsplit1
      refine ⟨_, hsplit, hsplit1, ?_, ?_⟩
      · rintro ⟨pre2, x2, mid, m, post2, hch2, hx2, hpost2, hmid, hm⟩
        rw [hch] at hch2
        obtain ⟨_, _, hpost_eq⟩ := last_anchor_unique pre pre2 post _ x x2 hch2 hx hx2 hpost hpost2
        have hfound := scanDuplicate_found asset_id mid m post2
          (fun y hy => ⟨hmid y hy, hattrs y (by rw [hch, hpost_eq]; simp [hy])⟩) hm
        rw [← hpost_eq, hscan] at hfound
        simp at hfound
      · intro _
        have hnew : (newTargetIdRef x.ns asset_id).isElementNamed "target-id-ref" = true := by
          simp [newTargetIdRef, isElementNamed]
        simp only [countTargetIdRef, hch1, hch]
        exact filter_length_insert _ pre post x _ hnew

/-- On a TestResult whose last anchor is `x`, whose `target-id-ref` children
after `x` carry the `system` and `name` attributes and none of which matches
the asset id, the injection returns 0 and the new children list is the old
one with the new reference right after `x`. -/
theorem inject_inserts_after_last_anchor (t : XmlNode) (asset_id : String)
    (pre : List XmlNode) (x : XmlNode) (post : List XmlNode)
    (hch : t.children = pre ++ x :: post) (hx : isAnchor x = true)
    (hpost : ∀ y ∈ post, isAnchor y = false)
    (hattrs : ∀ y ∈ post, refAttrsPresent y = true)
    (hnone : ∀ y ∈ post, isMatchingRef asset_id y = false) :
    ds_rds_report_inject_ai_target_id_ref t asset_id =
      some (0, t.setChildren (pre ++ x ::
        XmlNode.element x.ns "target-id-ref"
          [("system", ai_ns_uri), ("name", asset_id), ("href", "")] [] :: post)) := by
  have hsplit := inject_split t asset_id pre x post hch hx hpost
  have hne := scanDuplicate_ne_none asset_id post hattrs
  cases hscan : scanDuplicate asset_id post with
  | none => exact absurd hscan hne
  | some b =>
    cases b with
    | true =>
      obtain ⟨mid, m, post2, hl, _, hm⟩ := scanDuplicate_true_split asset_id post hscan
      have := hnone m (by rw [hl]; simp)
      rw [hm] at this
      simp at this
    | false =>
      rw [hscan] at hsplit
      exact hsplit

/-- C4 at a failing input: the TestResult holds a `target` followed by a
`target-id-ref` without attributes; the duplicate scan hands the missing
`system` attribute to `strcmp`, so the call has no result. -/
theorem inject_undefined_on_bare_ref :
    hasAnchor (.element none "TestResult" []
      [.element none "target" [] [.text "host"], .element none "target-id-ref" [] []]) = true ∧
    ds_rds_report_inject_ai_target_id_ref (.element none "TestResult" []
      [.element none "target" [] [.text "host"], .element none "target-id-ref" [] []])
      "asset0" = none :=
  ⟨rfl, rfl⟩

/-- C5 at a failing input: the TestResult holds a `target-address` followed
by a `target-id-ref` that has a `name` but no `system` attribute, so that no
child is a matching reference; the call has no result instead of inserting
the new reference. -/
theorem inject_undefined_on_ref_without_system :
    hasAnchor (.element none "TestResult" []
      [.element none "target-address" [] [.text "10.0.0.5"],
       .element none "target-id-ref" [("name", "asset0")] []]) = true ∧
    ([XmlNode.element none "target-address" [] [.text "10.0.0.5"],
       .element none "target-id-ref" [("name", "asset0")] []].any
         (isMatchingRef "asset0")) = false ∧
    ds_rds_report_inject_ai_target_id_ref (.element none "TestResult" []
      [.element none "target-address" [] [.text "10.0.0.5"],
       .element none "target-id-ref" [("name", "asset0")] []])
      "asset0" = none :=
  ⟨rfl, rfl, rfl⟩

/-- C6: the injection returns -1 exactly when the TestResult has no element
child named target, target-address or target-facts, and exactly then its
result is -1 together with the unchanged TestResult. -/
theorem inject_error_iff (t : XmlNode) (asset_id : String) :
    ((ds_rds_report_inject_ai_target_id_ref t asset_id).map Prod.fst = some (-1)
      ↔ hasAnchor t = false) ∧
    (ds_rds_report_inject_ai_target_id_ref t asset_id = some (-1, t)
      ↔ hasAnchor t = false) := by
  by_cases hanchor : hasAnchor t = true
  · obtain ⟨pre, x, post, hch, hx, hpost⟩ := exists_last_anchor t.children hanchor
    have hsplit := inject_split t asset_id pre x post hch hx hpost
    rw [hsplit]
    cases hscan : scanDuplicate asset_id post with
    | none => simp [hanchor]
    | some b => cases b <;> simp [hanchor]
  · have hfalse : hasAnchor t = false := by simpa using hanchor
    have hfind : findPrevSibling t.children 0 none = none :=
      (findPrevSibling_none_iff _).2 hfalse
    simp [ds_rds_report_inject_ai_target_id_ref, hfind, hfalse]

/-- C7 as stated fails: the matching reference comes after the anchor but
behind a `platform` element, where the scan has already stopped; the call
returns 0 and inserts a second reference. -/
theorem inject_duplicates_behind_other_element :
    isAnchor (.element none "target" [] [.text "host"]) = true ∧
    isMatchingRef "asset0" (.element none "target-id-ref"
      [("system", ai_ns_uri), ("name", "asset0"), ("href", "")] []) = true ∧
    ds_rds_report_inject_ai_target_id_ref (.element none "TestResult" []
      [.element none "target" [] [.text "host"],
       .element none "platform" [] [],
       .element none "target-id-ref"
         [("system", ai_ns_uri), ("name", "asset0"), ("href", "")] []]) "asset0"
      = some (0, .element none "TestResult" []
      [.element none "target" [] [.text "host"],
       .element none "target-id-ref"
         [("system", ai_ns_uri), ("name", "asset0"), ("href", "")] [],
       .element none "platform" [] [],
       .element none "target-id-ref"
         [("system", ai_ns_uri), ("name", "asset0"), ("href", "")] []]) ∧
    ds_rds_report_inject_ai_target_id_ref (.element none "TestResult" []
      [.element none "target" [] [.text "host"],
       .element none "platform" [] [],
       .element none "target-id-ref"
         [("system", ai_ns_uri), ("name", "asset0"), ("href", "")] []]) "asset0"
      ≠ some (0, .element none "TestResult" []
      [.element none "target" [] [.text "host"],
       .element none "platform" [] [],
       .element none "target-id-ref"
         [("system", ai_ns_uri), ("name", "asset0"), ("href", "")] []]) := by
  refine ⟨rfl, rfl, rfl, ?_⟩
  rw [show ds_rds_report_inject_ai_target_id_ref (.element none "TestResult" []
      [.element none "target" [] [.text "host"],
       .element none "platform" [] [],
       .element none "target-id-ref"
         [("system", ai_ns_uri), ("name", "asset0"), ("href", "")] []]) "asset0"
      = some (0, .element none "TestResult" []
      [.element none "target" [] [.text "host"],
       .element none "target-id-ref"
         [("system", ai_ns_uri), ("name", "asset0"), ("href", "")] [],
       .element none "platform" [] [],
       .element none "target-id-ref"
         [("system", ai_ns_uri), ("name", "asset0"), ("href", "")] []]) from rfl]
  simp

/-- C7, amended: when a `target-id-ref` with the asset-identification system
and the given name follows the last anchor with nothing in between but nodes
that are not elements and `target-id-ref` elements carrying the `system` and
`name` attributes, the injection returns 0 and leaves the tree unchanged. -/
theorem inject_keeps_existing_ref (t : XmlNode) (asset_id : String)
    (pre : List XmlNode) (x : XmlNode) (mid : List XmlNode) (m : XmlNode)
    (post : List XmlNode)
    (hch : t.children = pre ++ x :: (mid ++ m :: post)) (hx : isAnchor x = true)
    (hlast : ∀ y ∈ mid ++ m :: post, isAnchor y = false)
    (hmid : ∀ y ∈ mid, isSkipped y = true ∧ refAttrsPresent y = true)
    (hm : isMatchingRef asset_id m = true) :
    ds_rds_report_inject_ai_target_id_ref t asset_id = some (0, t) := by
  rw [inject_split t asset_id pre x _ hch hx hlast,
    scanDuplicate_found asset_id mid m post hmid hm]

/-- The amended C7 on a TestResult whose matching reference follows the anchor
behind a text node and another `target-id-ref`. -/
theorem inject_keeps_existing_ref_witness :
    isAnchor (.element none "target-facts" [] []) = true ∧
    isMatchingRef "asset0" (.element none "target-id-ref"
      [("system", ai_ns_uri), ("name", "asset0"), ("href", "")] []) = true ∧
    ds_rds_report_inject_ai_target_id_ref (.element none "TestResult" []
      ([.element none "title" [] []] ++ .element none "target-facts" [] [] ::
        ([.text " ", .element none "target-id-ref" [("system", "other"), ("name", "n")] []] ++
          .element none "target-id-ref"
            [("system", ai_ns_uri), ("name", "asset0"), ("href", "")] [] ::
          [.element none "platform" [] []]))) "asset0"
      = some (0, .element none "TestResult" []
      ([.element none "title" [] []] ++ .element none "target-facts" [] [] ::
        ([.text " ", .element none "target-id-ref" [("system", "other"), ("name", "n")] []] ++
          .element none "target-id-ref"
            [("system", ai_ns_uri), ("name", "asset0"), ("href", "")] [] ::
          [.element none "platform" [] []]))) :=
  ⟨rfl, rfl, inject_keeps_existing_ref _ "asset0" [.element none "title" [] []]
    (.element none "target-facts" [] [])
    [.text " ", .element none "target-id-ref" [("system", "other"), ("name", "n")] []]
    (.element none "target-id-ref" [("system", ai_ns_uri), ("name", "asset0"), ("href", "")] [])
    [.element none "platform" [] []] rfl rfl (by decide) (by decide) rfl⟩

/-! ## Check-content-ref rewriting -/

theorem hrefRewritten_refl (m : String → Option String) (n : XmlNode) :
    HrefRewritten m false n n := by
  simp [HrefRewritten, hrefRewrite]

theorem samePlace_refl (m : String → Option String) (o : Option XmlNode) :
    SamePlace m false o o := by
  cases o with
  | none => trivial
  | some n => exact hrefRewritten_refl m n

theorem attrSet_split (key value : String) (l : List (String × String)) (old : String)
    (h : attrLookup key l = some old) :
    ∃ pre post, l = pre ++ (key, old) :: post ∧ (∀ a ∈ pre, a.1 ≠ key) ∧
      attrSet key value l = pre ++ (key, value) :: post := by
  induction l with
  | nil => simp [attrLookup] at h
  | cons a rest ih =>
    obtain ⟨k, v⟩ := a
    by_cases hk : k = key
    · subst hk
      simp only [attrLookup, if_true, Option.some.injEq] at h
      subst h
      exact ⟨[], rest, rfl, by simp, by simp [attrSet]⟩
    · simp only [attrLookup, hk, if_false] at h
      obtain ⟨pre, post, hl, hpre, hset⟩ := ih h
      refine ⟨(k, v) :: pre, post, by simp [hl], ?_, by simp [attrSet, hk, hset]⟩
      intro a ha
      rcases List.mem_cons.1 ha with ha | ha
      · rw [ha]; exact hk
      · exact hpre a ha

/-- What `ds_rds_report_inject_check_content_ref` does to a child of a `check`
element is what the relation asks of a node on a target path. -/
theorem inject_check_content_ref_rewritten (m : String → Option String) (n : XmlNode) :
    HrefRewritten m true n (ds_rds_report_inject_check_content_ref m n) := by
  unfold ds_rds_report_inject_check_content_ref
  by_cases hn : n.isElementNamed "check-content-ref" = true
  · cases hh : xmlGetProp n "href" with
    | none => simp [HrefRewritten, hrefRewrite, hn, hh]
    | some href =>
      cases hm : m href with
      | none => simp [HrefRewritten, hrefRewrite, hn, hh, hm]
      | some report_id =>
        cases n with
        | element ns name attrs ch =>
          obtain ⟨pre, post, hl, hpre, hset⟩ := attrSet_split "href" ("#" ++ report_id) attrs href
            (by simpa [xmlGetProp, XmlNode.attrs] using hh)
          simp only [hn, hh, hm, if_true, HrefRewritten, hrefRewrite, Bool.and_self,
            xmlSetProp, XmlNode.bare, XmlNode.children, XmlNode.attrs, true_and]
          exact ⟨pre, post, hl, hpre, hset⟩
        | text s => simp [isElementNamed] at hn
        | comment s => simp [isElementNamed] at hn
  · simp [HrefRewritten, hrefRewrite, hn]

theorem children_xmlSetProp (n : XmlNode) (key value : String) :
    (xmlSetProp n key value).children = n.children := by
  cases n <;> rfl

theorem children_inject_check_content_ref (m : String → Option String) (n : XmlNode) :
    (ds_rds_report_inject_check_content_ref m n).children = n.children := by
  unfold ds_rds_report_inject_check_content_ref
  split_ifs
  · cases hh : xmlGetProp n "href" with
    | none => rfl
    | some href =>
      cases hm : m href with
      | none => simp [hm]
      | some report_id => simp [hm, children_xmlSetProp]
  · rfl

theorem injectCheckRefsChildren_eq_map (m : String → Option String) (l : List XmlNode) :
    injectCheckRefsChildren m l = l.map (injectCheckRefsChild m) := by
  induction l with
  | nil => simp [injectCheckRefsChildren]
  | cons c rest ih => simp [injectCheckRefsChildren, ih]

theorem children_check_refs (m : String → Option String) (n : XmlNode) :
    (ds_rds_report_inject_rule_result_check_refs m n).children
      = n.children.map (injectCheckRefsChild m) := by
  cases n <;>
    simp [ds_rds_report_inject_rule_result_check_refs, XmlNode.children,
      injectCheckRefsChildren_eq_map]

/-- The loop body hands a `complex-check` child to the function itself. -/
theorem injectCheckRefsChild_complex (m : String → Option String) (c : XmlNode)
    (h : c.isElementNamed "complex-check" = true) :
    injectCheckRefsChild m c = ds_rds_report_inject_rule_result_check_refs m c := by
  cases c with
  | element ns name attrs ch =>
    have hname : name = "complex-check" := by simpa [isElementNamed] using h
    simp [injectCheckRefsChild, ds_rds_report_inject_rule_result_check_refs, hname]
  | text s => simp [isElementNamed] at h
  | comment s => simp [isElementNamed] at h

theorem injectCheckRefsChild_check (m : String → Option String) (c : XmlNode)
    (h : c.isElementNamed "check" = true) :
    injectCheckRefsChild m c
      = c.setChildren (c.children.map (ds_rds_report_inject_check_content_ref m)) := by
  cases c with
  | element ns name attrs ch =>
    have hname : name = "check" := by simpa [isElementNamed] using h
    simp [injectCheckRefsChild, hname, XmlNode.setChildren, XmlNode.children]
  | text s => simp [isElementNamed] at h
  | comment s => simp [isElementNamed] at h

theorem injectCheckRefsChild_other (m : String → Option String) (c : XmlNode)
    (h1 : c.isElementNamed "complex-check" = false) (h2 : c.isElementNamed "check" = false) :
    injectCheckRefsChild m c = c := by
  cases c with
  | element ns name attrs ch =>
    have hn1 : ¬ name = "complex-check" := by simpa [isElementNamed] using h1
    have hn2 : ¬ name = "check" := by simpa [isElementNamed] using h2
    simp [injectCheckRefsChild, hn1, hn2]
  | text s => simp [injectCheckRefsChild]
  | comment s => simp [injectCheckRefsChild]

theorem hrefRewritten_setChildren_map (m : String → Option String) (n : XmlNode)
    (f : XmlNode → XmlNode) : HrefRewritten m false n (n.setChildren (n.children.map f)) := by
  cases n <;> simp [HrefRewritten, hrefRewrite, XmlNode.setChildren, XmlNode.bare,
    XmlNode.children, XmlNode.attrs]

theorem children_setChildren_map (n : XmlNode) (f : XmlNode → XmlNode) :
    (n.setChildren (n.children.map f)).children = n.children.map f := by
  cases n <;> simp [XmlNode.setChildren, XmlNode.children]

/-- Below a child of a `check` element nothing changes. -/
theorem nodeAt_inject_check_content_ref (m : String → Option String) (n : XmlNode)
    (i : Nat) (q : List Nat) :
    nodeAt (ds_rds_report_inject_check_content_ref m n) (i :: q) = nodeAt n (i :: q) := by
  simp [nodeAt, children_inject_check_content_ref]

/-- The positions below a `check` element. -/
theorem samePlace_check (m : String → Option String) (c : XmlNode) (q : List Nat) :
    SamePlace m (q.length == 1) (nodeAt c q)
      (nodeAt (c.setChildren (c.children.map (ds_rds_report_inject_check_content_ref m))) q) := by
  cases q with
  | nil => exact hrefRewritten_setChildren_map m c _
  | cons r q2 =>
    simp only [nodeAt, children_setChildren_map, List.get?_eq_getElem?, List.getElem?_map]
    cases hget : c.children[r]? with
    | none => trivial
    | some x =>
      simp only [Option.map_some']
      cases q2 with
      | nil => exact inject_check_content_ref_rewritten m x
      | cons s q3 =>
        rw [nodeAt_inject_check_content_ref]
        exact samePlace_refl m _

/-- The positions below a node handed to
`ds_rds_report_inject_rule_result_check_refs`. -/
theorem samePlace_check_refs (m : String → Option String) (q : List Nat) :
    ∀ n : XmlNode, SamePlace m (viaChecks n q) (nodeAt n q)
      (nodeAt (ds_rds_report_inject_rule_result_check_refs m n) q) := by
  induction q with
  | nil =>
    intro n
    cases n <;> simp [SamePlace, nodeAt, viaChecks, HrefRewritten, hrefRewrite,
      ds_rds_report_inject_rule_result_check_refs, XmlNode.bare, XmlNode.children,
      XmlNode.attrs, injectCheckRefsChildren_eq_map]
  | cons j q ih =>
    intro n
    simp only [nodeAt, viaChecks, children_check_refs, List.get?_eq_getElem?,
      List.getElem?_map]
    cases hget : n.children[j]? with
    | none => trivial
    | some c =>
      simp only [Option.map_some']
      by_cases hcc : c.isElementNamed "complex-check" = true
      · have hck : c.isElementNamed "check" = false := by
          cases c <;> simp_all [isElementNamed]
        rw [injectCheckRefsChild_complex m c hcc]
        simpa [hcc, hck] using ih c
      · have hcc2 : c.isElementNamed "complex-check" = false := by simpa using hcc
        by_cases hck : c.isElementNamed "check" = true
        · rw [injectCheckRefsChild_check m c hck]
          simpa [hcc2, hck] using samePlace_check m c q
        · have hck2 : c.isElementNamed "check" = false := by simpa using hck
          rw [injectCheckRefsChild_other m c hcc2 hck2]
          simpa [hcc2, hck2] using samePlace_refl m (nodeAt c q)

/-- C8: after `ds_rds_report_inject_rule_result_refs` every position of the
TestResult tree exists exactly when it existed before, and the node there has
the kind, namespace, name, text and number of children it had; its attributes
are unchanged, except that a `check-content-ref` child of a `check` element
reached from a `rule-result` child of the TestResult through nested
`complex-check` elements, whose `href` is a key of the mapping, has the value
of that `href` replaced by `#` followed by the mapped report id. -/
theorem inject_rule_result_refs_spec (m : String → Option String) (t : XmlNode)
    (p : List Nat) :
    SamePlace m (isRewriteTarget t p) (nodeAt t p)
      (nodeAt (ds_rds_report_inject_rule_result_refs m t) p) := by
  unfold ds_rds_report_inject_rule_result_refs
  cases p with
  | nil => exact hrefRewritten_setChildren_map m t _
  | cons i q =>
    simp only [nodeAt, isRewriteTarget, children_setChildren_map, List.get?_eq_getElem?,
      List.getElem?_map]
    cases hget : t.children[i]? with
    | none => trivial
    | some c =>
      simp only [Option.map_some']
      by_cases hrr : c.isElementNamed "rule-result" = true
      · simpa [hrr] using samePlace_check_refs m q c
      · simpa [hrr] using samePlace_refl m (nodeAt c q)

/-! ## Host names of the asset -/

theorem firstFact_append_singleton (key name content : String) (facts : List (String × String)) :
    firstFact key (facts ++ [(name, content)]) =
      match firstFact key facts with
      | some v => some v
      | none => if name = key then some content else none := by
  unfold firstFact
  rw [List.find?_append]
  cases hfind : facts.find? (fun p => p.1 == key) with
  | some x => simp
  | none =>
    by_cases hname : name = key
    · simp [List.find?, hname]
    · have hb : (name == key) = false := by simpa using hname
      simp [List.find?, hname, hb]

theorem tracks_addMac (st : AiScan) (facts : List (String × String)) (content : String)
    (h : st.Tracks facts) : (st.addMac content).Tracks facts := h

theorem tracks_addAddress (e : String → String) (st : AiScan) (facts : List (String × String))
    (content : String) (h : st.Tracks facts) : (st.addAddress e content).Tracks facts := h

theorem tracks_addFqdn (st : AiScan) (facts : List (String × String)) (content : String)
    (h : st.Tracks facts) : (st.addFqdn content).Tracks (facts ++ [(fact_fqdn, content)]) := by
  obtain ⟨hdev, hf, hh⟩ := h
  have hne : ¬ fact_fqdn = fact_host_name := by decide
  unfold AiScan.Tracks
  rw [firstFact_append_singleton, firstFact_append_singleton]
  cases hfq : firstFact fact_fqdn facts with
  | some v =>
    rw [hfq] at hdev hf hh
    cases hhn : firstFact fact_host_name facts <;>
      (rw [hhn] at hdev hh; simp_all [AiScan.addFqdn])
  | none =>
    rw [hfq] at hdev hf hh
    cases hhn : firstFact fact_host_name facts <;>
      (rw [hhn] at hdev hh; simp_all [AiScan.addFqdn, insertAt])

theorem tracks_addHostname (st : AiScan) (facts : List (String × String)) (content : String)
    (h : st.Tracks facts) :
    (st.addHostname content).Tracks (facts ++ [(fact_host_name, content)]) := by
  obtain ⟨hdev, hf, hh⟩ := h
  have hne : ¬ fact_host_name = fact_fqdn := by decide
  unfold AiScan.Tracks
  rw [firstFact_append_singleton, firstFact_append_singleton]
  cases hfq : firstFact fact_fqdn facts with
  | some v =>
    rw [hfq] at hdev hf hh
    cases hhn : firstFact fact_host_name facts <;>
      (rw [hhn] at hdev hh; simp_all [AiScan.addHostname, insertAt])
  | none =>
    rw [hfq] at hdev hf hh
    cases hhn : firstFact fact_host_name facts <;>
      (rw [hhn] at hdev hh; simp_all [AiScan.addHostname, insertAt])

theorem tracks_other (st : AiScan) (facts : List (String × String)) (name content : String)
    (h1 : ¬ name = fact_fqdn) (h2 : ¬ name = fact_host_name) (h : st.Tracks facts) :
    st.Tracks (facts ++ [(name, content)]) := by
  unfold AiScan.Tracks
  rw [firstFact_append_singleton, firstFact_append_singleton]
  obtain ⟨hdev, hf, hh⟩ := h
  cases hfq : firstFact fact_fqdn facts <;> cases hhn : firstFact fact_host_name facts <;>
    simp_all

theorem tracks_addFact (st : AiScan) (facts : List (String × String)) (child : XmlNode)
    (h : st.Tracks facts) : (st.addFact child).Tracks (facts ++ factEntry child) := by
  unfold AiScan.addFact factEntry
  by_cases hfact : child.isElementNamed "fact" = true
  · simp only [hfact, if_true]
    cases hname : xmlGetProp child "name" with
    | none => simpa using h
    | some name =>
      simp only
      have h1 : (if name = fact_mac then st.addMac (xmlNodeGetContent child) else st).Tracks facts := by
        split_ifs
        · exact tracks_addMac st facts _ h
        · exact h
      by_cases hfq : name = fact_fqdn
      · have hne : ¬ fact_fqdn = fact_host_name := by decide
        subst hfq
        simp only [if_true, hne, if_false]
        exact tracks_addFqdn _ facts _ h1
      · by_cases hhn : name = fact_host_name
        · subst hhn
          simp only [hfq, if_false, if_true]
          exact tracks_addHostname _ facts _ h1
        · simp only [hfq, hhn, if_false]
          exact tracks_other _ facts name _ hfq hhn h1
  · simp only [hfact]
    simpa using h

theorem tracks_foldl_addFact (l : List XmlNode) : ∀ (st : AiScan) (facts : List (String × String)),
    st.Tracks facts → (l.foldl AiScan.addFact st).Tracks (facts ++ l.flatMap factEntry) := by
  induction l with
  | nil => intro st facts h; simpa using h
  | cons c rest ih =>
    intro st facts h
    have := ih (st.addFact c) (facts ++ factEntry c) (tracks_addFact st facts c h)
    simpa [List.foldl_cons, List.flatMap_cons, List.append_assoc] using this

theorem tracks_step (e : String → String) (st : AiScan) (facts : List (String × String))
    (child : XmlNode) (h : st.Tracks facts) :
    (st.step e child).Tracks
      (facts ++ ([child].filter (isElementNamed "target-facts")).flatMap
        (fun target_facts => target_facts.children.flatMap factEntry)) := by
  unfold AiScan.step
  by_cases haddr : child.isElementNamed "target-address" = true
  · have hnf : child.isElementNamed "target-facts" = false := by
      cases child <;> simp_all [isElementNamed]
    simp only [haddr, if_true]
    simpa [List.filter, hnf] using tracks_addAddress e st facts _ h
  · simp only [haddr]
    by_cases hfacts : child.isElementNamed "target-facts" = true
    · simpa [List.filter, hfacts] using tracks_foldl_addFact child.children st facts h
    · simpa [List.filter, hfacts] using h

theorem tracks_foldl_step (e : String → String) (l : List XmlNode) :
    ∀ (st : AiScan) (facts : List (String × String)), st.Tracks facts →
      (l.foldl (AiScan.step e) st).Tracks
        (facts ++ (l.filter (isElementNamed "target-facts")).flatMap
          (fun target_facts => target_facts.children.flatMap factEntry)) := by
  induction l with
  | nil => intro st facts h; simpa using h
  | cons c rest ih =>
    intro st facts h
    have := ih (st.step e c) _ (tracks_step e st facts c h)
    rw [List.append_assoc, ← List.flatMap_append, ← List.filter_append] at this
    simpa using this

/-- At the end of the walk the children of `computing-device` that follow the
`connections` element are the fqdn of the first fqdn fact and then the
hostname of the first host_name fact, as far as such facts exist. -/
theorem aiScan_tracks (e : String → String) (t : XmlNode) :
    (aiScan e t).Tracks (factsOf t) := by
  have := tracks_foldl_step e t.children ⟨[], [], none, none⟩ []
    (by simp [AiScan.Tracks, firstFact])
  simpa [aiScan, factsOf] using this

theorem assetSuffixScan_defined (l : List XmlNode)
    (hids : ∀ c ∈ l, c.isElementNamed "asset" = true → (xmlGetProp c "id").isSome = true) :
    ∀ s, ∃ k, assetSuffixScan l s = some k := by
  induction l with
  | nil => intro s; exact ⟨s, rfl⟩
  | cons c rest ih =>
    intro s
    have ih2 := ih (fun y hy => hids y (by simp [hy]))
    unfold assetSuffixScan
    by_cases hc : c.isElementNamed "asset" = true
    · obtain ⟨id, hid⟩ := Option.isSome_iff_exists.1 (hids c (by simp) hc)
      simp only [hc, if_true, hid]
      exact ih2 _
    · simp only [hc]
      exact ih2 s

/-- On a container all of whose asset children carry an id the extractor
returns the asset built for the result tree. -/
theorem add_ai_defined (e : String → String) (assets t : XmlNode)
    (hids : ∀ c ∈ assets.children, c.isElementNamed "asset" = true →
      (xmlGetProp c "id").isSome = true) :
    ∃ k, ds_rds_add_ai_from_xccdf_results e assets t
      = some (xmlAddChild assets (buildAsset e (assetId k) t), buildAsset e (assetId k) t) := by
  obtain ⟨k, hk⟩ := assetSuffixScan_defined assets.children hids 0
  exact ⟨k, by simp [ds_rds_add_ai_from_xccdf_results, hk]⟩

theorem firstFact_of_mem (key content : String) (facts : List (String × String))
    (h : (key, content) ∈ facts) : ∃ v, firstFact key facts = some v := by
  unfold firstFact
  cases hfind : facts.find? (fun p => p.1 == key) with
  | some x => exact ⟨x.2, rfl⟩
  | none =>
    have := List.find?_eq_none.1 hfind (key, content) h
    simp at this

/-- C9: when the facts of the result tree include an fqdn fact and a
host_name fact, in whatever order and in whatever `target-facts` elements, the
extractor (on a container whose asset children all carry an id) produces an
asset whose `computing-device` has an `fqdn` child immediately followed by
the `hostname` child. -/
theorem fqdn_then_hostname (e : String → String) (assets t : XmlNode)
    (hids : ∀ c ∈ assets.children, c.isElementNamed "asset" = true →
      (xmlGetProp c "id").isSome = true)
    (hfq : ∃ content, (fact_fqdn, content) ∈ factsOf t)
    (hhn : ∃ content, (fact_host_name, content) ∈ factsOf t) :
    ∃ assets1 asset device pre fqdn hostname post,
      ds_rds_add_ai_from_xccdf_results e assets t = some (assets1, asset) ∧
      asset.children = [device] ∧ device.isElementNamed "computing-device" = true ∧
      device.children = pre ++ fqdn :: hostname :: post ∧
      fqdn.isElementNamed "fqdn" = true ∧ hostname.isElementNamed "hostname" = true := by
  obtain ⟨k, hk⟩ := add_ai_defined e assets t hids
  obtain ⟨cf, hcf⟩ := hfq
  obtain ⟨ch, hch⟩ := hhn
  obtain ⟨vf, hvf⟩ := firstFact_of_mem _ _ _ hcf
  obtain ⟨vh, hvh⟩ := firstFact_of_mem _ _ _ hch
  obtain ⟨hdev, _, _⟩ := aiScan_tracks e t
  rw [hvf, hvh] at hdev
  refine ⟨_, _, _,
    (if (aiScan e t).connections.isEmpty then []
     else [.element (some ai_ns_uri) "connections" [] (aiScan e t).connections]),
    contentElement (some ai_ns_uri) "fqdn" vf,
    contentElement (some ai_ns_uri) "hostname" vh, [], hk, rfl, rfl, ?_, rfl, rfl⟩
  simp only [XmlNode.children, AiScan.deviceChildren, hdev]
  rfl

/-- C9 on a result tree whose host_name fact precedes the fqdn fact, each in
its own `target-facts` element. -/
theorem fqdn_then_hostname_witness :
    (∀ c ∈ (XmlNode.element none "assets" [] []).children, c.isElementNamed "asset" = true →
      (xmlGetProp c "id").isSome = true) ∧
    (∃ content, (fact_fqdn, content) ∈ factsOf (.element none "TestResult" []
      [.element none "target-facts" []
        [.element none "fact" [("name", fact_host_name)] [.text "host"]],
       .element none "target-facts" []
        [.element none "fact" [("name", fact_fqdn)] [.text "host.example.com"]]])) ∧
    ∃ assets1 asset device pre fqdn hostname post,
      ds_rds_add_ai_from_xccdf_results (fun s => s) (.element none "assets" [] [])
        (.element none "TestResult" []
          [.element none "target-facts" []
            [.element none "fact" [("name", fact_host_name)] [.text "host"]],
           .element none "target-facts" []
            [.element none "fact" [("name", fact_fqdn)] [.text "host.example.com"]]])
        = some (assets1, asset) ∧
      asset.children = [device] ∧ device.isElementNamed "computing-device" = true ∧
      device.children = pre ++ fqdn :: hostname :: post ∧
      fqdn.isElementNamed "fqdn" = true ∧ hostname.isElementNamed "hostname" = true :=
  ⟨by simp [XmlNode.children], ⟨"host.example.com", by decide⟩,
    fqdn_then_hostname (fun s => s) (.element none "assets" [] []) _
      (by simp [XmlNode.children]) ⟨"host.example.com", by decide⟩ ⟨"host", by decide⟩⟩

/-- Whatever facts the result tree repeats, the `computing-device` of the
asset that the extractor produces (on a container whose asset children all
carry an id) has one `fqdn` child if there is an fqdn fact and none otherwise,
and likewise for `hostname` and the host_name facts.  When the content of the
first fqdn fact holds no `&`, it is the text of the `fqdn` child, and likewise
for the `hostname` child and the first host_name fact. -/
theorem one_fqdn_one_hostname (e : String → String) (assets t : XmlNode)
    (hids : ∀ c ∈ assets.children, c.isElementNamed "asset" = true →
      (xmlGetProp c "id").isSome = true) :
    ∃ assets1 asset device,
      ds_rds_add_ai_from_xccdf_results e assets t = some (assets1, asset) ∧
      asset.children = [device] ∧ device.isElementNamed "computing-device" = true ∧
      device.children.filter (isElementNamed "fqdn")
        = (firstFact fact_fqdn (factsOf t)).toList.map
            (contentElement (some ai_ns_uri) "fqdn") ∧
      device.children.filter (isElementNamed "hostname")
        = (firstFact fact_host_name (factsOf t)).toList.map
            (contentElement (some ai_ns_uri) "hostname") ∧
      ((∀ content, firstFact fact_fqdn (factsOf t) = some content → '&' ∉ content.data) →
        (device.children.filter (isElementNamed "fqdn")).map xmlNodeGetContent
          = (firstFact fact_fqdn (factsOf t)).toList) ∧
      ((∀ content, firstFact fact_host_name (factsOf t) = some content →
          '&' ∉ content.data) →
        (device.children.filter (isElementNamed "hostname")).map xmlNodeGetContent
          = (firstFact fact_host_name (factsOf t)).toList) := by
  obtain ⟨k, hk⟩ := add_ai_defined e assets t hids
  obtain ⟨hdev, _, _⟩ := aiScan_tracks e t
  have hf : (buildAsset e (assetId k) t).children = [XmlNode.element (some ai_ns_uri)
      "computing-device" [] (aiScan e t).deviceChildren] := rfl
  have h1 : (aiScan e t).deviceChildren.filter (isElementNamed "fqdn")
      = (firstFact fact_fqdn (factsOf t)).toList.map
          (contentElement (some ai_ns_uri) "fqdn") := by
    simp only [AiScan.deviceChildren, hdev, List.filter_append]
    cases firstFact fact_fqdn (factsOf t) <;> cases firstFact fact_host_name (factsOf t) <;>
      cases (aiScan e t).connections.isEmpty <;>
      simp [List.filter, isElementNamed, contentElement]
  have h2 : (aiScan e t).deviceChildren.filter (isElementNamed "hostname")
      = (firstFact fact_host_name (factsOf t)).toList.map
          (contentElement (some ai_ns_uri) "hostname") := by
    simp only [AiScan.deviceChildren, hdev, List.filter_append]
    cases firstFact fact_fqdn (factsOf t) <;> cases firstFact fact_host_name (factsOf t) <;>
      cases (aiScan e t).connections.isEmpty <;>
      simp [List.filter, isElementNamed, contentElement]
  refine ⟨_, _, _, hk, hf, rfl, h1, h2, ?_, ?_⟩
  · intro hplain
    simp only [XmlNode.children, h1]
    cases hv : firstFact fact_fqdn (factsOf t) with
    | none => rfl
    | some v => simp [xmlNodeGetContent_contentElement _ _ _ (hplain v hv)]
  · intro hplain
    simp only [XmlNode.children, h2]
    cases hv : firstFact fact_host_name (factsOf t) with
    | none => rfl
    | some v => simp [xmlNodeGetContent_contentElement _ _ _ (hplain v hv)]

/-- C10: on a result tree whose one fqdn fact holds `AT&T` the asset has an
`fqdn` child, and this child is empty: `xmlNodeSetContent` (line 330) reads
`&T` as an entity reference that nothing ends and stores no text. -/
theorem fqdn_text_lost :
    firstFact fact_fqdn (factsOf (.element none "TestResult" []
        [.element none "target-facts" []
          [.element none "fact" [("name", fact_fqdn)] [.text "AT&T"]]])) = some "AT&T" ∧
      ds_rds_add_ai_from_xccdf_results (fun s => s) (.element none "assets" [] [])
        (.element none "TestResult" []
          [.element none "target-facts" []
            [.element none "fact" [("name", fact_fqdn)] [.text "AT&T"]]])
        = some (.element none "assets" []
            [.element (some arf_ns_uri) "asset" [("id", "asset0")]
              [.element (some ai_ns_uri) "computing-device" []
                [.element (some ai_ns_uri) "fqdn" [] []]]],
          .element (some arf_ns_uri) "asset" [("id", "asset0")]
            [.element (some ai_ns_uri) "computing-device" []
              [.element (some ai_ns_uri) "fqdn" [] []]]) ∧
      xmlNodeGetContent (.element (some ai_ns_uri) "fqdn" [] []) = "" :=
  ⟨by decide, rfl, rfl⟩

/-! ## Connections of the asset -/

theorem connections_addFact (e : String → String) (st : AiScan) (child : XmlNode) :
    (st.addFact child).connections
      = st.connections ++ (macSourceOf child).map (connectionFor e) := by
  unfold AiScan.addFact macSourceOf
  by_cases hfact : child.isElementNamed "fact" = true
  · simp only [hfact, if_true]
    cases hname : xmlGetProp child "name" with
    | none => simp
    | some name =>
      have hf : ∀ (s : AiScan) (c : String), (s.addFqdn c).connections = s.connections := by
        intro s c
        unfold AiScan.addFqdn
        cases s.last_fqdn <;> cases s.last_hostname <;> rfl
      have hh : ∀ (s : AiScan) (c : String), (s.addHostname c).connections = s.connections := by
        intro s c
        unfold AiScan.addHostname
        cases s.last_fqdn <;> cases s.last_hostname <;> rfl
      by_cases hmac : name = fact_mac
      · simp only [hmac, if_true]
        split_ifs <;>
          simp [hf, hh, AiScan.addMac, connectionFor, textElement]
      · simp only [hmac, if_false]
        split_ifs <;> simp [hf, hh]
  · simp [hfact]

theorem connections_foldl_addFact (e : String → String) (l : List XmlNode) :
    ∀ st : AiScan, (l.foldl AiScan.addFact st).connections
      = st.connections ++ (l.flatMap macSourceOf).map (connectionFor e) := by
  induction l with
  | nil => intro st; simp
  | cons c rest ih =>
    intro st
    simp only [List.foldl_cons, List.flatMap_cons, List.map_append]
    rw [ih, connections_addFact e, List.append_assoc]

theorem connections_step (e : String → String) (st : AiScan) (child : XmlNode) :
    (st.step e child).connections
      = st.connections ++ (netSourcesOfChild child).map (connectionFor e) := by
  unfold AiScan.step netSourcesOfChild
  by_cases haddr : child.isElementNamed "target-address" = true
  · simp only [haddr, if_true, AiScan.addAddress, List.map_cons, List.map_nil, connectionFor]
  · simp only [haddr]
    by_cases hfacts : child.isElementNamed "target-facts" = true
    · simp only [hfacts, if_true]
      simpa using connections_foldl_addFact e child.children st
    · simp [hfacts]

theorem connections_foldl_step (e : String → String) (l : List XmlNode) :
    ∀ st : AiScan, (l.foldl (AiScan.step e) st).connections
      = st.connections ++ (l.flatMap netSourcesOfChild).map (connectionFor e) := by
  induction l with
  | nil => intro st; simp
  | cons c rest ih =>
    intro st
    simp only [List.foldl_cons, List.flatMap_cons, List.map_append]
    rw [ih, connections_step, List.append_assoc]

/-- At the end of the walk the children of the `connections` element are the
entries of the network sources of the result tree, in document order. -/
theorem aiScan_connections (e : String → String) (t : XmlNode) :
    (aiScan e t).connections = (netSources t).map (connectionFor e) := by
  simpa [aiScan, netSources] using connections_foldl_step e t.children ⟨[], [], none, none⟩

/-- The children of `computing-device` that follow the `connections` element
are `fqdn` and `hostname` elements. -/
theorem aiScan_device_names (e : String → String) (t : XmlNode) :
    ∀ c ∈ (aiScan e t).device, c.isElementNamed "connections" = false := by
  obtain ⟨hdev, _, _⟩ := aiScan_tracks e t
  rw [hdev]
  intro c hc
  simp only [List.mem_append, List.mem_map] at hc
  rcases hc with ⟨a, _, ha⟩ | ⟨a, _, ha⟩ <;> (rw [← ha]; rfl)

theorem isElementNamed_connectionFor (e : String → String) (s : NetSource) :
    (connectionFor e s).isElementNamed "connection" = true := by
  cases s <;> rfl

/-- C11: the `computing-device` of the asset that the extractor produces (on
a container whose asset children all carry an id) holds no `connections`
element when the result tree has no `target-address` child and no mac fact;
otherwise its first child is a `connections` element with at least one child,
all of them `connection` elements, and no other child is a `connections`
element. -/
theorem connections_never_empty (e : String → String) (assets t : XmlNode)
    (hids : ∀ c ∈ assets.children, c.isElementNamed "asset" = true →
      (xmlGetProp c "id").isSome = true) :
    ∃ assets1 asset device,
      ds_rds_add_ai_from_xccdf_results e assets t = some (assets1, asset) ∧
      asset.children = [device] ∧ device.isElementNamed "computing-device" = true ∧
      (netSources t = [] →
        ∀ c ∈ device.children, c.isElementNamed "connections" = false) ∧
      (netSources t ≠ [] →
        ∃ connections rest, device.children = connections :: rest ∧
          connections.isElementNamed "connections" = true ∧
          connections.children ≠ [] ∧
          (∀ c ∈ connections.children, c.isElementNamed "connection" = true) ∧
          ∀ c ∈ rest, c.isElementNamed "connections" = false) := by
  obtain ⟨k, hk⟩ := add_ai_defined e assets t hids
  have hconn := aiScan_connections e t
  have hdev := aiScan_device_names e t
  refine ⟨_, _, _, hk, rfl, rfl, ?_, ?_⟩
  · intro hnone c hc
    simp only [XmlNode.children, AiScan.deviceChildren, hconn, hnone, List.map_nil,
      List.isEmpty_nil, if_true, List.nil_append] at hc
    exact hdev c hc
  · intro hsome
    have hne : (aiScan e t).connections ≠ [] := by
      rw [hconn]
      simpa using hsome
    have hempty : (aiScan e t).connections.isEmpty = false := by
      cases hc : (aiScan e t).connections with
      | nil => exact absurd hc hne
      | cons a l => rfl
    refine ⟨.element (some ai_ns_uri) "connections" [] (aiScan e t).connections,
      (aiScan e t).device, ?_, rfl, hne, ?_, hdev⟩
    · simp [XmlNode.children, AiScan.deviceChildren, hempty]
    · intro c hc
      simp only [XmlNode.children, hconn, List.mem_map] at hc
      obtain ⟨s, _, hs⟩ := hc
      rw [← hs]
      exact isElementNamed_connectionFor e s

/-- C11 on an empty container and a result tree with one `target-address`. -/
theorem connections_never_empty_witness :
    (∀ c ∈ (XmlNode.element none "assets" [] []).children, c.isElementNamed "asset" = true →
      (xmlGetProp c "id").isSome = true) ∧
    ∃ assets1 asset device,
      ds_rds_add_ai_from_xccdf_results (fun s => s) (.element none "assets" [] [])
        (.element none "TestResult" []
          [.element none "target-address" [] [.text "10.0.0.5"]]) = some (assets1, asset) ∧
      asset.children = [device] ∧ device.isElementNamed "computing-device" = true ∧
      (netSources (.element none "TestResult" []
          [.element none "target-address" [] [.text "10.0.0.5"]]) = [] →
        ∀ c ∈ device.children, c.isElementNamed "connections" = false) ∧
      (netSources (.element none "TestResult" []
          [.element none "target-address" [] [.text "10.0.0.5"]]) ≠ [] →
        ∃ connections rest, device.children = connections :: rest ∧
          connections.isElementNamed "connections" = true ∧
          connections.children ≠ [] ∧
          (∀ c ∈ connections.children, c.isElementNamed "connection" = true) ∧
          ∀ c ∈ rest, c.isElementNamed "connections" = false) :=
  ⟨by simp [XmlNode.children],
    connections_never_empty (fun s => s) (.element none "assets" [] []) _
      (by simp [XmlNode.children])⟩

/-- C12: the connection entries of the asset that the extractor produces (on
a container whose asset children all carry an id) are, in the document order
of the result tree, one per `target-address` direct child and one per mac
fact: an `ip-address` with an `ip-v4` holding the text unchanged when the text
contains a dot, an `ip-address` with an `ip-v6` holding the expansion of the
text otherwise, and a `mac-address` holding the text of the fact. -/
theorem connection_entries (e : String → String) (assets t : XmlNode)
    (hids : ∀ c ∈ assets.children, c.isElementNamed "asset" = true →
      (xmlGetProp c "id").isSome = true) :
    ∃ assets1 asset device,
      ds_rds_add_ai_from_xccdf_results e assets t = some (assets1, asset) ∧
      asset.children = [device] ∧ device.isElementNamed "computing-device" = true ∧
      (device.children.filter (isElementNamed "connections")).flatMap XmlNode.children
        = (netSources t).map (connectionFor e) := by
  obtain ⟨k, hk⟩ := add_ai_defined e assets t hids
  have hconn := aiScan_connections e t
  have hdev := aiScan_device_names e t
  refine ⟨_, _, _, hk, rfl, rfl, ?_⟩
  have hfilter : (aiScan e t).device.filter (isElementNamed "connections") = [] :=
    List.filter_eq_nil_iff.2 (fun c hc => by simp [hdev c hc])
  simp only [XmlNode.children, AiScan.deviceChildren, List.filter_append, hfilter,
    List.append_nil]
  cases hc : (aiScan e t).connections with
  | nil =>
    rw [← hconn, hc]
    simp
  | cons a l =>
    rw [← hconn, hc]
    simp [List.filter, isElementNamed, XmlNode.children]

/-- C12 on an empty container and a result tree with an IPv4 address, an
address without a dot and a mac fact. -/
theorem connection_entries_witness :
    (∀ c ∈ (XmlNode.element none "assets" [] []).children, c.isElementNamed "asset" = true →
      (xmlGetProp c "id").isSome = true) ∧
    ∃ assets1 asset device,
      ds_rds_add_ai_from_xccdf_results (fun s => "[" ++ s ++ "]")
        (.element none "assets" [] [])
        (.element none "TestResult" []
          [.element none "target-address" [] [.text "10.0.0.5"],
           .element none "target-address" [] [.text "::1"],
           .element none "target-facts" []
             [.element none "fact" [("name", fact_mac)] [.text "00:11:22:33:44:55"]]])
        = some (assets1, asset) ∧
      asset.children = [device] ∧ device.isElementNamed "computing-device" = true ∧
      (device.children.filter (isElementNamed "connections")).flatMap XmlNode.children
        = (netSources (.element none "TestResult" []
          [.element none "target-address" [] [.text "10.0.0.5"],
           .element none "target-address" [] [.text "::1"],
           .element none "target-facts" []
             [.element none "fact" [("name", fact_mac)] [.text "00:11:22:33:44:55"]]])).map
          (connectionFor (fun s => "[" ++ s ++ "]")) :=
  ⟨by simp [XmlNode.children],
    connection_entries (fun s => "[" ++ s ++ "]") (.element none "assets" [] []) _
      (by simp [XmlNode.children])⟩

/-! ## Relationships and reports -/

theorem setChildren_append_twice (n : XmlNode) (a b : List XmlNode) :
    (n.setChildren (n.children ++ a)).setChildren
        ((n.setChildren (n.children ++ a)).children ++ b)
      = n.setChildren (n.children ++ (a ++ b)) := by
  cases n <;> simp [XmlNode.setChildren, XmlNode.children]

theorem add_relationship_node (relationships : XmlNode) (type subject ref : String) :
    ds_rds_add_relationship relationships type subject ref
      = relationships.setChildren
          (relationships.children ++
            [.element (some core_ns_uri) "relationship" [("type", type), ("subject", subject)]
              [contentElement (some core_ns_uri) "ref" ref]]) := by
  have hne : ¬ "type" = "subject" := by decide
  simp [ds_rds_add_relationship, xmlAddChild, xmlSetProp, attrSet, hne, XmlNode.setChildren,
    XmlNode.children]

theorem add_relationship_eq (relationships : XmlNode) (type subject ref : String)
    (href : storedVerbatim ref = true) :
    ds_rds_add_relationship relationships type subject ref
      = relationships.setChildren
          (relationships.children ++ [relationshipEntry type subject ref]) := by
  rw [add_relationship_node, contentElement_verbatim _ _ _ href]
  rfl

theorem create_report_eq (reports : XmlNode) (source_doc : XmlDoc) (id : String) :
    ds_rds_create_report reports source_doc id
      = (reports.setChildren (reports.children ++ [reportEntry id source_doc.toList]),
          reportEntry id source_doc.toList) := by
  simp [ds_rds_create_report, xmlAddChild, xmlSetProp, attrSet, XmlNode.setChildren,
    XmlNode.children, reportEntry]

/-- The relationship builder `ds_rds_add_relationship` makes the children of
the container the previous children followed by one new `relationship`
element carrying the attributes `type` and `subject` as given and a single
`ref` child made by `xmlNodeSetContent`, whose text is `ref` when `ref` holds
no `&`; a second call with the same arguments appends a second, equal entry;
the arguments are arbitrary strings, no id is looked up. -/
theorem add_relationship_appends (ns : Option String) (name : String)
    (attrs : List (String × String)) (ch : List XmlNode) (type subject ref : String) :
    ∃ entry,
      ds_rds_add_relationship (.element ns name attrs ch) type subject ref
        = .element ns name attrs (ch ++ [entry]) ∧
      entry.isElementNamed "relationship" = true ∧
      entry.attrs = [("type", type), ("subject", subject)] ∧
      entry.children = [contentElement (some core_ns_uri) "ref" ref] ∧
      ('&' ∉ ref.data →
        xmlNodeGetContent (contentElement (some core_ns_uri) "ref" ref) = ref) ∧
      (storedVerbatim ref = true →
        entry.children = [.element (some core_ns_uri) "ref" [] [.text ref]]) ∧
      ds_rds_add_relationship
          (ds_rds_add_relationship (.element ns name attrs ch) type subject ref)
          type subject ref
        = .element ns name attrs (ch ++ [entry, entry]) := by
  refine ⟨.element (some core_ns_uri) "relationship" [("type", type), ("subject", subject)]
      [contentElement (some core_ns_uri) "ref" ref], ?_, rfl, rfl, rfl, ?_, ?_, ?_⟩
  · simp [add_relationship_node, XmlNode.setChildren, XmlNode.children]
  · exact xmlNodeGetContent_contentElement _ _ _
  · intro href
    simp only [XmlNode.children, contentElement_verbatim _ _ _ href]
    rfl
  · simp [add_relationship_node, XmlNode.setChildren, XmlNode.children]

theorem injectInto_defined (t : XmlNode) (asset_id : String) (m : String → Option String)
    (hattrs : ∀ y ∈ t.children, refAttrsPresent y = true) :
    ∃ ret node, injectIntoTestResult t asset_id m = some (ret, node) := by
  unfold injectIntoTestResult
  by_cases hanchor : hasAnchor t = true
  · obtain ⟨pre, x, post, hch, hx, hpost⟩ := exists_last_anchor t.children hanchor
    have hsplit := inject_split t asset_id pre x post hch hx hpost
    have hne := scanDuplicate_ne_none asset_id post
      (fun y hy => hattrs y (by rw [hch]; simp [hy]))
    rw [hsplit]
    cases hscan : scanDuplicate asset_id post with
    | none => exact absurd hscan hne
    | some b => cases b <;> exact ⟨_, _, rfl⟩
  · have hfind : findPrevSibling t.children 0 none = none :=
      (findPrevSibling_none_iff _).2 (by simpa [hasAnchor] using hanchor)
    simp [ds_rds_report_inject_ai_target_id_ref, hfind]

/-- The injection into a report that holds one TestResult goes into that
TestResult. -/
theorem inject_refs_reportEntry (id : String) (root : XmlNode) (asset_id : String)
    (m : String → Option String) (hroot : root.isElementNamed "TestResult" = true) :
    ds_rds_report_inject_refs (reportEntry id [root]) asset_id m =
      match injectIntoTestResult root asset_id m with
      | none => none
      | some (ret, node) => some (ret, reportEntry id [node]) := by
  have helem : root.isElement = true := by
    cases root <;> simp_all [isElementNamed, isElement]
  have hcontent : ds_rds_get_inner_content (reportEntry id [root])
      = some (0, .element (some arf_ns_uri) "content" [] [root]) := rfl
  have hscan : scanContent [root] 0 none = (some (0, root), some (0, root)) := by
    simp [scanContent, helem, hroot]
  unfold ds_rds_report_inject_refs
  rw [hcontent]
  simp only [XmlNode.children, List.isEmpty_cons, Bool.false_eq_true, if_false, hscan]
  cases injectIntoTestResult root asset_id m with
  | none => rfl
  | some r => rfl

theorem injectRefsErrors_reportEntry (id : String) (root : XmlNode)
    (hroot : root.isElementNamed "TestResult" = true) :
    injectRefsErrors (reportEntry id [root]) = targetIdRefErrors root := by
  have helem : root.isElement = true := by
    cases root <;> simp_all [isElementNamed, isElement]
  have hcontent : ds_rds_get_inner_content (reportEntry id [root])
      = some (0, .element (some arf_ns_uri) "content" [] [root]) := rfl
  have hscan : scanContent [root] 0 none = (some (0, root), some (0, root)) := by
    simp [scanContent, helem, hroot]
  unfold injectRefsErrors
  rw [hcontent]
  simp only [XmlNode.children, List.isEmpty_cons, Bool.false_eq_true, if_false, hscan]

theorem targetIdRefErrors_of_anchor (t : XmlNode) (h : hasAnchor t = true) :
    targetIdRefErrors t = [] := by
  unfold targetIdRefErrors
  cases hfind : findPrevSibling t.children 0 none with
  | none =>
    have hno : hasAnchor t = false := (findPrevSibling_none_iff _).1 hfind
    rw [h] at hno
    cases hno
  | some i => rfl

/-- One result: the report, the two relationships and the asset are appended,
provided the id scan of the assets container and the reference injection are
defined. -/
theorem addOneResult_eq (e : String → String) (m : String → Option String) (req : String)
    (c : Containers) (root : XmlNode) (id : String)
    (hroot : root.isElementNamed "TestResult" = true) (hreq : storedVerbatim req = true) :
    addOneResult e m req c root id =
      match assetSuffixScan c.assets.children 0 with
      | none => none
      | some k =>
        match injectIntoTestResult root (assetId k) m with
        | none => none
        | some (_, node) =>
          some { reports := c.reports.setChildren (c.reports.children ++ [reportEntry id [node]]),
                 relationships := c.relationships.setChildren (c.relationships.children ++
                   [relationshipEntry "arfvocab:createdFor" id req,
                    relationshipEntry "arfvocab:isAbout" id (assetId k)]),
                 assets := xmlAddChild c.assets (buildAsset e (assetId k) root),
                 errors := c.errors ++ targetIdRefErrors root } := by
  unfold addOneResult
  simp only [ds_rds_add_ai_from_xccdf_results, create_report_eq, Option.toList]
  cases hscan : assetSuffixScan c.assets.children 0 with
  | none => rfl
  | some k =>
    simp only [xmlGetProp_buildAsset, inject_refs_reportEntry id root (assetId k) m hroot,
      injectRefsErrors_reportEntry id root hroot]
    cases hinj : injectIntoTestResult root (assetId k) m with
    | none => rfl
    | some r =>
      obtain ⟨ret, node⟩ := r
      simp only [add_relationship_eq _ _ _ _ hreq,
        add_relationship_eq _ _ _ _ (assetId_verbatim k), setChildren_append_twice]
      congr 2
      cases c.reports <;> simp [XmlNode.setChildren, XmlNode.children]

/-! ## Result processing -/

theorem setChildren_children (n : XmlNode) : n.setChildren n.children = n := by
  cases n <;> rfl

theorem grown_refl (req : String) (c : Containers) : Grown req c c :=
  ⟨[], [], [], by simp [setChildren_children], by simp [setChildren_children],
    by simp [setChildren_children], by simp, by simp, by simp⟩

theorem grown_trans (req : String) (c c1 c2 : Containers) (h1 : Grown req c c1)
    (h2 : Grown req c1 c2) : Grown req c c2 := by
  obtain ⟨rs1, rels1, as1, hr1, hl1, ha1, hrs1, has1, hrels1⟩ := h1
  obtain ⟨rs2, rels2, as2, hr2, hl2, ha2, hrs2, has2, hrels2⟩ := h2
  refine ⟨rs1 ++ rs2, rels1 ++ rels2, as1 ++ as2, ?_, ?_, ?_, ?_, ?_, ?_⟩
  · rw [hr2, hr1, setChildren_append_twice]
  · rw [hl2, hl1, setChildren_append_twice]
  · rw [ha2, ha1, setChildren_append_twice]
  · intro r hr
    rcases List.mem_append.1 hr with h | h
    · exact hrs1 r h
    · exact hrs2 r h
  · intro a ha
    rcases List.mem_append.1 ha with h | h
    · exact has1 a h
    · exact has2 a h
  · intro r hr
    rcases List.mem_append.1 hr with h | h
    · obtain ⟨ty, subj, ref, hre, ⟨rep, hrep, hrep2⟩, href⟩ := hrels1 r h
      refine ⟨ty, subj, ref, hre, ⟨rep, List.mem_append_left _ hrep, hrep2⟩, ?_⟩
      rcases href with href | ⟨a, ha, ha2⟩
      · exact Or.inl href
      · exact Or.inr ⟨a, List.mem_append_left _ ha, ha2⟩
    · obtain ⟨ty, subj, ref, hre, ⟨rep, hrep, hrep2⟩, href⟩ := hrels2 r h
      refine ⟨ty, subj, ref, hre, ⟨rep, List.mem_append_right _ hrep, hrep2⟩, ?_⟩
      rcases href with href | ⟨a, ha, ha2⟩
      · exact Or.inl href
      · exact Or.inr ⟨a, List.mem_append_right _ ha, ha2⟩

theorem addOneResult_grown (e : String → String) (m : String → Option String) (req : String)
    (c c1 : Containers) (root : XmlNode) (id : String)
    (hroot : root.isElementNamed "TestResult" = true) (hreq : storedVerbatim req = true)
    (h : addOneResult e m req c root id = some c1) : Grown req c c1 := by
  rw [addOneResult_eq e m req c root id hroot hreq] at h
  cases hscan : assetSuffixScan c.assets.children 0 with
  | none => simp [hscan] at h
  | some k =>
    cases hinj : injectIntoTestResult root (assetId k) m with
    | none => simp [hscan, hinj] at h
    | some r =>
      obtain ⟨ret, node⟩ := r
      simp only [hscan, hinj, Option.some.injEq] at h
      subst h
      refine ⟨[reportEntry id [node]],
        [relationshipEntry "arfvocab:createdFor" id req,
         relationshipEntry "arfvocab:isAbout" id (assetId k)],
        [buildAsset e (assetId k) root], rfl, rfl, rfl, ?_, ?_, ?_⟩
      · intro r hr
        exact ⟨id, [node], by simpa using hr⟩
      · intro a ha
        simp only [List.mem_singleton] at ha
        rw [ha]
        rfl
      · intro r hr
        simp only [List.mem_cons, List.mem_singleton, List.not_mem_nil, or_false] at hr
        rcases hr with hr | hr
        · exact ⟨_, _, _, hr, ⟨_, List.mem_singleton.2 rfl, rfl, rfl⟩, Or.inl rfl⟩
        · exact ⟨_, _, _, hr, ⟨_, List.mem_singleton.2 rfl, rfl, rfl⟩,
            Or.inr ⟨_, List.mem_singleton.2 rfl, rfl, xmlGetProp_buildAsset _ _ _⟩⟩

theorem addBenchmarkResults_grown (e : String → String) (m : String → Option String)
    (req : String) (l : List XmlNode) (hreq : storedVerbatim req = true) :
    ∀ (s : Nat) (c c1 : Containers),
      addBenchmarkResults e m req l s c = some c1 → Grown req c c1 := by
  induction l with
  | nil =>
    intro s c c1 h
    simp only [addBenchmarkResults, Option.some.injEq] at h
    subst h
    exact grown_refl req c
  | cons x rest ih =>
    intro s c c1 h
    unfold addBenchmarkResults at h
    by_cases hx : x.isElementNamed "TestResult" = true
    · simp only [hx, if_true] at h
      cases hone : addOneResult e m req c x (reportId s) with
      | none => simp [hone] at h
      | some c2 =>
        simp only [hone] at h
        exact grown_trans req c c2 c1 (addOneResult_grown e m req c c2 x _ hx hreq hone)
          (ih _ _ _ h)
    · simp only [hx] at h
      exact ih _ _ _ (by simpa using h)

theorem add_xccdf_grown (e : String → String) (m : String → Option String) (req : String)
    (c c1 : Containers) (doc : XmlDoc) (hreq : storedVerbatim req = true)
    (h : ds_rds_add_xccdf_test_results e m c doc req = some c1) : Grown req c c1 := by
  unfold ds_rds_add_xccdf_test_results at h
  cases doc with
  | none => simp at h
  | some root =>
    simp only at h
    by_cases h1 : root.isElementNamed "TestResult" = true
    · simp only [h1, if_true] at h
      exact addOneResult_grown e m req c c1 root _ h1 hreq h
    · simp only [h1] at h
      by_cases h2 : root.isElementNamed "Benchmark" = true
      · simp only [h2, if_true] at h
        exact addBenchmarkResults_grown e m req _ hreq _ _ _ (by simpa using h)
      · simp only [h2] at h
        have h3 := Option.some.inj (by simpa using h)
        rw [← h3]
        exact ⟨[], [], [], by simp [setChildren_children], by simp [setChildren_children],
          by simp [setChildren_children], by simp, by simp, by simp⟩

/-- C17: for a result document whose root is named neither TestResult nor
Benchmark, `ds_rds_add_xccdf_test_results` records one error and leaves the
reports, assets and relationships containers as they were. -/
theorem unknown_root_adds_nothing (e : String → String) (m : String → Option String)
    (c : Containers) (root : XmlNode) (req : String)
    (h1 : root.isElementNamed "TestResult" = false)
    (h2 : root.isElementNamed "Benchmark" = false) :
    ∃ c1 message, ds_rds_add_xccdf_test_results e m c (some root) req = some c1 ∧
      c1.errors = c.errors ++ [message] ∧
      c1.reports = c.reports ∧ c1.assets = c.assets ∧ c1.relationships = c.relationships := by
  refine ⟨{ c with errors := c.errors ++
      ["Unknown root element '" ++ root.name ++
        "' in given XCCDF result document, expected TestResult or Benchmark."] },
    _, ?_, rfl, rfl, rfl, rfl⟩
  simp only [ds_rds_add_xccdf_test_results, h1, h2, Bool.false_eq_true, if_false]

/-- C17 on a result document rooted at an `oval_results` element. -/
theorem unknown_root_adds_nothing_witness :
    (XmlNode.element none "oval_results" [] []).isElementNamed "TestResult" = false ∧
    (XmlNode.element none "oval_results" [] []).isElementNamed "Benchmark" = false ∧
    ∃ c1 message,
      ds_rds_add_xccdf_test_results (fun s => s) (fun _ => none)
        ⟨.element none "reports" [] [], .element none "relationships" [] [],
          .element none "assets" [] [], []⟩
        (some (.element none "oval_results" [] [])) "collection1" = some c1 ∧
      c1.errors = ([] : List String) ++ [message] ∧
      c1.reports = .element none "reports" [] [] ∧
      c1.assets = .element none "assets" [] [] ∧
      c1.relationships = .element none "relationships" [] [] :=
  ⟨rfl, rfl, unknown_root_adds_nothing (fun s => s) (fun _ => none) _
    (.element none "oval_results" [] []) "collection1" rfl rfl⟩

/-! ## Composition -/

theorem addOvalReports_some (src : String → Option XmlDoc) (mp : String → Option String)
    (table : List (String × String)) :
    ∀ reports reports1 : XmlNode, addOvalReports src mp table reports = some reports1 →
      ∃ more, reports1 = reports.setChildren (reports.children ++ more) ∧
        more.map (fun r => xmlGetProp r "id") = table.map (fun entry => some entry.2) ∧
        ∀ r ∈ more, ∃ id content, r = reportEntry id content := by
  induction table with
  | nil =>
    intro reports reports1 h
    simp only [addOvalReports, Option.some.injEq] at h
    exact ⟨[], by simp [← h, setChildren_children], by simp, by simp⟩
  | cons entry rest ih =>
    intro reports reports1 h
    obtain ⟨file, id⟩ := entry
    unfold addOvalReports at h
    cases hmp : mp file with
    | none => simp [hmp] at h
    | some report_file =>
      cases hsrc : src report_file with
      | none => simp [hmp, hsrc] at h
      | some doc =>
        simp only [hmp, hsrc, create_report_eq] at h
        obtain ⟨more, hmore, hids, hall⟩ := ih _ _ h
        refine ⟨reportEntry id doc.toList :: more, ?_, ?_, ?_⟩
        · rw [hmore, setChildren_append_twice]
          rfl
        · simp only [List.map_cons, hids]
          rfl
        · intro r hr
          rcases List.mem_cons.1 hr with hr | hr
          · exact ⟨id, doc.toList, hr⟩
          · exact hall r hr

theorem addOvalReports_defined (src : String → Option XmlDoc) (mp : String → Option String)
    (table : List (String × String)) (hres : OvalResolvable src mp table) :
    ∀ reports : XmlNode, ∃ reports1, addOvalReports src mp table reports = some reports1 := by
  induction table with
  | nil => intro reports; exact ⟨reports, rfl⟩
  | cons entry rest ih =>
    intro reports
    obtain ⟨file, id⟩ := entry
    obtain ⟨report_file, doc, h1, h2⟩ := hres (file, id) (by simp)
    have hrest : OvalResolvable src mp rest := fun x hx => hres x (by simp [hx])
    simp only at h1
    unfold addOvalReports
    simp only [h1, h2]
    exact ih hrest _

/-- The import on the memory and the import as a function of the bundle tree
agree on the tree below `arf:content`; the bundle document is left as it was
when the root is copied, the merge changing the copy only, and is left without
a root when the root is moved. -/
theorem importBundleMem_eq (h : SdsHelpers) (fuel : Nat) (clone : Bool) (sds_doc : XmlDoc)
    (tailoring : Option Tailoring) :
    (importBundleMem h fuel clone sds_doc tailoring).map
        (fun r => (r.2.bind (fun node => r.1.nodes.get? node), r.1.sdsDoc))
      = (importBundle h fuel sds_doc tailoring).map
        (fun bundle => (bundle, if clone then sds_doc else none)) := by
  have himp : ∀ root : XmlNode, importRoot clone (BundleMem.ofDoc (some root))
      = if clone then (⟨[root, root], some 0⟩, some 1) else (⟨[root], none⟩, some 0) := by
    intro root
    cases clone <;> rfl
  cases sds_doc with
  | none =>
    cases tailoring with
    | none => cases clone <;> rfl
    | some t =>
      by_cases ht : t.filepath = "NONEXISTENT"
      · cases clone <;> simp [importBundleMem, importBundle, ht, importRoot, BundleMem.ofDoc,
          BundleMem.sdsDoc]
      · simp [importBundleMem, importBundle, ht, importRoot, BundleMem.ofDoc]
  | some root =>
    cases tailoring with
    | none =>
      cases clone <;> rfl
    | some t =>
      by_cases ht : t.filepath = "NONEXISTENT"
      · cases clone <;> simp [importBundleMem, importBundle, ht, importRoot, BundleMem.ofDoc,
          BundleMem.sdsDoc]
      · simp only [importBundleMem, importBundle, ht, if_false, himp]
        cases clone with
        | false =>
          simp only [Bool.false_eq_true, if_false, List.get?_cons_zero]
          cases mergeTailoring h fuel root t with
          | none => rfl
          | some merged => rfl
        | true =>
          simp only [if_true, List.get?_cons_succ, List.get?_cons_zero]
          cases mergeTailoring h fuel root t with
          | none => rfl
          | some merged => rfl

/-- The composer in terms of its three stages. -/
theorem create_from_dom_eq (h : SdsHelpers) (fuel : Nat) (e : String → String)
    (sds_doc : XmlDoc) (tailoring : Option Tailoring) (doc : XmlDoc)
    (src : String → Option XmlDoc) (mp : String → Option String)
    (table : List (String × String)) (clone : Bool) (bundle : XmlDoc) (c : Containers)
    (reports1 : XmlNode)
    (hbundle : importBundle h fuel sds_doc tailoring = some bundle)
    (hadd : ds_rds_add_xccdf_test_results e (oscap_htable_get table)
      ⟨.element (some arf_ns_uri) "reports" [] [],
        .element (some core_ns_uri) "relationships" [] [],
        .element (some arf_ns_uri) "assets" [] [], []⟩ doc "collection1" = some c)
    (hoval : addOvalReports src mp table c.reports = some reports1) :
    _ds_rds_create_from_dom h fuel e sds_doc tailoring doc src mp table clone
      = some ⟨0, some (.element (some arf_ns_uri) "asset-report-collection" []
          [c.relationships,
           .element (some arf_ns_uri) "report-requests" []
             [.element (some arf_ns_uri) "report-request" [("id", "collection1")]
               [.element (some arf_ns_uri) "content" [] bundle.toList]],
           c.assets, reports1]), if clone then sds_doc else none⟩ := by
  have himp := importBundleMem_eq h fuel clone sds_doc tailoring
  rw [hbundle] at himp
  unfold _ds_rds_create_from_dom
  cases hmem : importBundleMem h fuel clone sds_doc tailoring with
  | none => simp [hmem] at himp
  | some r =>
    obtain ⟨mem, sds_res_node⟩ := r
    simp only [hmem, Option.map_some', Option.some.injEq, Prod.mk.injEq] at himp
    simp only [hadd, hoval, himp.1, himp.2]
    rfl

theorem create_from_dom_some (h : SdsHelpers) (fuel : Nat) (e : String → String)
    (sds_doc : XmlDoc) (tailoring : Option Tailoring) (doc : XmlDoc)
    (src : String → Option XmlDoc) (mp : String → Option String)
    (table : List (String × String)) (clone : Bool) (result : CreateResult)
    (hres : _ds_rds_create_from_dom h fuel e sds_doc tailoring doc src mp table clone
      = some result) :
    ∃ bundle c reports1,
      importBundle h fuel sds_doc tailoring = some bundle ∧
      ds_rds_add_xccdf_test_results e (oscap_htable_get table)
        ⟨.element (some arf_ns_uri) "reports" [] [],
          .element (some core_ns_uri) "relationships" [] [],
          .element (some arf_ns_uri) "assets" [] [], []⟩ doc "collection1" = some c ∧
      addOvalReports src mp table c.reports = some reports1 ∧
      result = ⟨0, some (.element (some arf_ns_uri) "asset-report-collection" []
          [c.relationships,
           .element (some arf_ns_uri) "report-requests" []
             [.element (some arf_ns_uri) "report-request" [("id", "collection1")]
               [.element (some arf_ns_uri) "content" [] bundle.toList]],
           c.assets, reports1]), if clone then sds_doc else none⟩ := by
  have himp := importBundleMem_eq h fuel clone sds_doc tailoring
  cases hbundle : importBundle h fuel sds_doc tailoring with
  | none =>
    rw [hbundle] at himp
    cases hmem : importBundleMem h fuel clone sds_doc tailoring with
    | none => simp [_ds_rds_create_from_dom, hmem] at hres
    | some r => simp [hmem] at himp
  | some bundle =>
    have hmem : ∃ r, importBundleMem h fuel clone sds_doc tailoring = some r := by
      cases hm : importBundleMem h fuel clone sds_doc tailoring with
      | none => simp [hm, hbundle] at himp
      | some r => exact ⟨r, rfl⟩
    obtain ⟨r, hmem⟩ := hmem
    cases hadd : ds_rds_add_xccdf_test_results e (oscap_htable_get table)
        ⟨.element (some arf_ns_uri) "reports" [] [],
          .element (some core_ns_uri) "relationships" [] [],
          .element (some arf_ns_uri) "assets" [] [], []⟩ doc "collection1" with
    | none => simp [_ds_rds_create_from_dom, hmem, hadd] at hres
    | some c =>
      cases hoval : addOvalReports src mp table c.reports with
      | none => simp [_ds_rds_create_from_dom, hmem, hadd, hoval] at hres
      | some reports1 =>
        rw [create_from_dom_eq h fuel e sds_doc tailoring doc src mp table clone bundle c
          reports1 hbundle hadd hoval] at hres
        exact ⟨bundle, c, reports1, rfl, rfl, hoval, (Option.some.inj hres).symm⟩

/-- The containers of a composition: what the result processing and the
sub-result loop leave in them. -/
theorem composed_containers (e : String → String) (m : String → Option String)
    (doc : XmlDoc) (c : Containers) (src : String → Option XmlDoc)
    (mp : String → Option String) (table : List (String × String)) (reports1 : XmlNode)
    (hadd : ds_rds_add_xccdf_test_results e m
      ⟨.element (some arf_ns_uri) "reports" [] [],
        .element (some core_ns_uri) "relationships" [] [],
        .element (some arf_ns_uri) "assets" [] [], []⟩ doc "collection1" = some c)
    (hoval : addOvalReports src mp table c.reports = some reports1) :
    ∃ reports rels assets more : List XmlNode,
      c.relationships = .element (some core_ns_uri) "relationships" [] rels ∧
      c.assets = .element (some arf_ns_uri) "assets" [] assets ∧
      reports1 = .element (some arf_ns_uri) "reports" [] (reports ++ more) ∧
      (∀ r ∈ reports ++ more, ∃ id content, r = reportEntry id content) ∧
      (∀ a ∈ assets, a.isElementNamed "asset" = true) ∧
      ∀ r ∈ rels, ∃ type subject ref, r = relationshipEntry type subject ref ∧
        (∃ report ∈ reports, report.isElementNamed "report" = true ∧
          xmlGetProp report "id" = some subject) ∧
        (ref = "collection1" ∨
          ∃ asset ∈ assets, asset.isElementNamed "asset" = true ∧
            xmlGetProp asset "id" = some ref) := by
  obtain ⟨reports, rels, assets, hr, hl, ha, hrs, has, hrels⟩ :=
    add_xccdf_grown e m "collection1" _ c doc rfl hadd
  obtain ⟨more, hmore, _, hall⟩ := addOvalReports_some src mp table _ _ hoval
  refine ⟨reports, rels, assets, more, by simpa [XmlNode.setChildren, XmlNode.children] using hl,
    by simpa [XmlNode.setChildren, XmlNode.children] using ha, ?_, ?_, has, hrels⟩
  · rw [hmore, hr]
    simp [XmlNode.setChildren, XmlNode.children]
  · intro r hr2
    rcases List.mem_append.1 hr2 with h | h
    · exact hrs r h
    · exact hall r h

/-- C14: whenever `_ds_rds_create_from_dom` returns, with or without
tailoring and whatever the root of the result document, it returns 0 and the
root of the output document has exactly four children, the elements
relationships, report-requests, assets and reports in this order; and
report-requests holds exactly one child, a report-request with the id
collection1. -/
theorem composed_skeleton (h : SdsHelpers) (fuel : Nat) (e : String → String)
    (sds_doc : XmlDoc) (tailoring : Option Tailoring) (doc : XmlDoc)
    (src : String → Option XmlDoc) (mp : String → Option String)
    (table : List (String × String)) (clone : Bool) (result : CreateResult)
    (hres : _ds_rds_create_from_dom h fuel e sds_doc tailoring doc src mp table clone
      = some result) :
    result.code = 0 ∧
    ∃ root relationships report_requests assets reports report_request,
      result.ret = some root ∧
      root.children = [relationships, report_requests, assets, reports] ∧
      relationships.isElementNamed "relationships" = true ∧
      report_requests.isElementNamed "report-requests" = true ∧
      assets.isElementNamed "assets" = true ∧
      reports.isElementNamed "reports" = true ∧
      report_requests.children = [report_request] ∧
      report_request.isElementNamed "report-request" = true ∧
      xmlGetProp report_request "id" = some "collection1" := by
  obtain ⟨bundle, c, reports1, _, hadd, hoval, hresult⟩ :=
    create_from_dom_some h fuel e sds_doc tailoring doc src mp table clone result hres
  obtain ⟨reports, rels, assets, more, hl, ha, hr, _, _, _⟩ :=
    composed_containers e _ doc c src mp table reports1 hadd hoval
  subst hresult
  refine ⟨rfl, _, _, _, _, _, _, rfl, rfl, ?_, rfl, ?_, ?_, rfl, rfl, rfl⟩
  · rw [hl]; rfl
  · rw [ha]; rfl
  · rw [hr]; rfl

/-- C14 on a composition with a tailoring document and a result document
rooted at an element that is neither TestResult nor Benchmark. -/
theorem composed_skeleton_witness :
    ∃ result,
      _ds_rds_create_from_dom exampleHelpers 1 (fun s => s) (some exampleBundle)
        (some exampleTailoring) (some (.element none "oval_results" [] []))
        (fun _ => none) (fun _ => none) [] true = some result ∧
      result.code = 0 ∧
      ∃ root relationships report_requests assets reports report_request,
        result.ret = some root ∧
        root.children = [relationships, report_requests, assets, reports] ∧
        relationships.isElementNamed "relationships" = true ∧
        report_requests.isElementNamed "report-requests" = true ∧
        assets.isElementNamed "assets" = true ∧
        reports.isElementNamed "reports" = true ∧
        report_requests.children = [report_request] ∧
        report_request.isElementNamed "report-request" = true ∧
        xmlGetProp report_request "id" = some "collection1" :=
  ⟨_, rfl, composed_skeleton exampleHelpers 1 (fun s => s) (some exampleBundle)
    (some exampleTailoring) (some (.element none "oval_results" [] []))
    (fun _ => none) (fun _ => none) [] true _ rfl⟩

/-- C20: whenever the composer returns, every relationship of the output has
as subject the id of a report element of the reports container and as ref
text the id of the report-request, collection1, or the id of an asset element
of the assets container. -/
theorem relationships_resolve (h : SdsHelpers) (fuel : Nat) (e : String → String)
    (sds_doc : XmlDoc) (tailoring : Option Tailoring) (doc : XmlDoc)
    (src : String → Option XmlDoc) (mp : String → Option String)
    (table : List (String × String)) (clone : Bool) (result : CreateResult)
    (hres : _ds_rds_create_from_dom h fuel e sds_doc tailoring doc src mp table clone
      = some result) :
    ∃ root relationships report_requests assets reports,
      result.ret = some root ∧
      root.children = [relationships, report_requests, assets, reports] ∧
      ∀ r ∈ relationships.children, ∃ subject ref,
        xmlGetProp r "subject" = some subject ∧
        r.children.map xmlNodeGetContent = [ref] ∧
        (∃ report ∈ reports.children, report.isElementNamed "report" = true ∧
          xmlGetProp report "id" = some subject) ∧
        (ref = "collection1" ∨
          ∃ asset ∈ assets.children, asset.isElementNamed "asset" = true ∧
            xmlGetProp asset "id" = some ref) := by
  obtain ⟨bundle, c, reports1, _, hadd, hoval, hresult⟩ :=
    create_from_dom_some h fuel e sds_doc tailoring doc src mp table clone result hres
  obtain ⟨reports, rels, assets, more, hl, ha, hr, _, _, hrels⟩ :=
    composed_containers e _ doc c src mp table reports1 hadd hoval
  subst hresult
  refine ⟨_, _, _, _, _, rfl, rfl, ?_⟩
  intro r hrmem
  rw [hl] at hrmem
  obtain ⟨ty, subject, ref, hre, ⟨report, hrep, hrep2⟩, href⟩ := hrels r hrmem
  refine ⟨subject, ref, ?_, ?_, ⟨report, ?_, hrep2⟩, ?_⟩
  · rw [hre]
    have hne : ¬ "type" = "subject" := by decide
    simp [relationshipEntry, xmlGetProp, XmlNode.attrs, attrLookup, hne]
  · rw [hre]
    simp [relationshipEntry, XmlNode.children, xmlNodeGetContent, XmlNode.innerText,
      innerTextList]
  · rw [hr]
    exact List.mem_append_left _ hrep
  · rcases href with href | ⟨a, hamem, ha2⟩
    · exact Or.inl href
    · exact Or.inr ⟨a, by rw [ha]; exact hamem, ha2⟩

/-- C20 on a composition whose result document is a Benchmark with two
TestResult children. -/
theorem relationships_resolve_witness :
    ∃ result,
      _ds_rds_create_from_dom exampleHelpers 0 (fun s => s) (some exampleBundle) none
        (some (.element none "Benchmark" []
          [.element none "TestResult" [] [.element none "target" [] [.text "a"]],
           .element none "TestResult" [] [.element none "target" [] [.text "b"]]]))
        (fun _ => none) (fun _ => none) [] false = some result ∧
      ∃ root relationships report_requests assets reports,
        result.ret = some root ∧
        root.children = [relationships, report_requests, assets, reports] ∧
        ∀ r ∈ relationships.children, ∃ subject ref,
          xmlGetProp r "subject" = some subject ∧
          r.children.map xmlNodeGetContent = [ref] ∧
          (∃ report ∈ reports.children, report.isElementNamed "report" = true ∧
            xmlGetProp report "id" = some subject) ∧
          (ref = "collection1" ∨
            ∃ asset ∈ assets.children, asset.isElementNamed "asset" = true ∧
              xmlGetProp asset "id" = some ref) :=
  ⟨_, rfl, relationships_resolve exampleHelpers 0 (fun s => s) (some exampleBundle) none
    (some (.element none "Benchmark" []
      [.element none "TestResult" [] [.element none "target" [] [.text "a"]],
       .element none "TestResult" [] [.element none "target" [] [.text "b"]]]))
    (fun _ => none) (fun _ => none) [] false _ rfl⟩

/-- C18 as stated fails: on a result document rooted at an `oval_results`
element `ds_rds_create_from_dom` returns 0 and hands back a document. -/
theorem composer_accepts_unknown_root :
    (XmlNode.element none "oval_results" [] []).isElementNamed "TestResult" = false ∧
    (XmlNode.element none "oval_results" [] []).isElementNamed "Benchmark" = false ∧
    ∃ result root,
      ds_rds_create_from_dom exampleHelpers 0 (fun s => s) (some exampleBundle) none
        (some (.element none "oval_results" [] [])) (fun _ => none) (fun _ => none) []
        = some result ∧
      result.code = 0 ∧ result.ret = some root :=
  ⟨rfl, rfl, _, _, rfl, rfl, rfl⟩

/-- C18, amended: for a result document whose root is named neither
TestResult nor Benchmark the composer, once the bundle import and the
sub-result lookups are defined, returns 0 and hands back a document in which
the relationships and assets containers are empty and the reports container
holds just one report per entry of the report mapping. -/
theorem unknown_root_still_composes (h : SdsHelpers) (fuel : Nat) (e : String → String)
    (sds_doc : XmlDoc) (tailoring : Option Tailoring) (root_element : XmlNode)
    (src : String → Option XmlDoc) (mp : String → Option String)
    (table : List (String × String)) (clone : Bool) (bundle : XmlDoc)
    (h1 : root_element.isElementNamed "TestResult" = false)
    (h2 : root_element.isElementNamed "Benchmark" = false)
    (hbundle : importBundle h fuel sds_doc tailoring = some bundle)
    (hoval : OvalResolvable src mp table) :
    ∃ result root relationships report_requests assets reports,
      _ds_rds_create_from_dom h fuel e sds_doc tailoring (some root_element) src mp table clone
        = some result ∧
      result.code = 0 ∧ result.ret = some root ∧
      root.children = [relationships, report_requests, assets, reports] ∧
      relationships.children = [] ∧ assets.children = [] ∧
      reports.children.map (fun r => xmlGetProp r "id")
        = table.map (fun entry => some entry.2) := by
  obtain ⟨c1, message, hadd, _, hr, ha, hl⟩ := unknown_root_adds_nothing e
    (oscap_htable_get table)
    ⟨.element (some arf_ns_uri) "reports" [] [],
      .element (some core_ns_uri) "relationships" [] [],
      .element (some arf_ns_uri) "assets" [] [], []⟩ root_element "collection1" h1 h2
  obtain ⟨reports1, hreports1⟩ := addOvalReports_defined src mp table hoval c1.reports
  obtain ⟨more, hmore, hids, _⟩ := addOvalReports_some src mp table _ _ hreports1
  refine ⟨_, _, _, _, _, _, create_from_dom_eq h fuel e sds_doc tailoring _ src mp table clone
    bundle c1 reports1 hbundle hadd hreports1, rfl, rfl, rfl, ?_, ?_, ?_⟩
  · rw [hl]; rfl
  · rw [ha]; rfl
  · rw [hmore, hr]
    simpa [XmlNode.setChildren, XmlNode.children] using hids

/-- The amended C18 on a result document rooted at an `oval_results` element,
with a tailoring document and one sub-result. -/
theorem unknown_root_still_composes_witness :
    (XmlNode.element none "oval_results" [] []).isElementNamed "TestResult" = false ∧
    (XmlNode.element none "oval_results" [] []).isElementNamed "Benchmark" = false ∧
    (importBundle exampleHelpers 1 (some exampleBundle) (some exampleTailoring)).isSome = true ∧
    ∃ result root relationships report_requests assets reports,
      _ds_rds_create_from_dom exampleHelpers 1 (fun s => s) (some exampleBundle)
        (some exampleTailoring) (some (.element none "oval_results" [] []))
        (fun _ => some (some (.element none "oval_results" [] [])))
        (fun file => some file) [("oval.xml", "oval0")] true = some result ∧
      result.code = 0 ∧ result.ret = some root ∧
      root.children = [relationships, report_requests, assets, reports] ∧
      relationships.children = [] ∧ assets.children = [] ∧
      reports.children.map (fun r => xmlGetProp r "id")
        = [("oval.xml", "oval0")].map (fun entry => some entry.2) :=
  ⟨rfl, rfl, rfl,
    unknown_root_still_composes exampleHelpers 1 (fun s => s) (some exampleBundle)
      (some exampleTailoring) (.element none "oval_results" [] [])
      (fun _ => some (some (.element none "oval_results" [] []))) (fun file => some file)
      [("oval.xml", "oval0")] true _ rfl rfl rfl
      (fun entry _ => ⟨entry.1, _, rfl, rfl⟩)⟩

theorem injectInto_no_anchor (t : XmlNode) (asset_id : String) (m : String → Option String)
    (hanchor : hasAnchor t = false) :
    injectIntoTestResult t asset_id m
      = some (-1, ds_rds_report_inject_rule_result_refs m t) := by
  have hfind : findPrevSibling t.children 0 none = none :=
    (findPrevSibling_none_iff _).2 hanchor
  simp [injectIntoTestResult, ds_rds_report_inject_ai_target_id_ref, hfind]

theorem isElementNamed_check_refs (m : String → Option String) (tag : String) (c : XmlNode) :
    (ds_rds_report_inject_rule_result_check_refs m c).isElementNamed tag
      = c.isElementNamed tag := by
  cases c <;> simp [ds_rds_report_inject_rule_result_check_refs, isElementNamed]

/-- Rewriting the hrefs neither adds nor removes a `target-id-ref` child. -/
theorem countTargetIdRef_rule_result_refs (m : String → Option String) (t : XmlNode) :
    countTargetIdRef (ds_rds_report_inject_rule_result_refs m t) = countTargetIdRef t := by
  simp only [countTargetIdRef, ds_rds_report_inject_rule_result_refs, children_setChildren_map,
    List.filter_map, List.length_map]
  congr 1
  apply List.filter_congr
  intro c _
  simp only [Function.comp]
  split_ifs
  · exact isElementNamed_check_refs m _ c
  · rfl

/-- C19: for a result document rooted at a TestResult without a target,
target-address or target-facts child, the composer, once the bundle import and
the sub-result lookups are defined, returns 0 with a document: its reports
container starts with the report xccdf1, whose content is the TestResult with
its hrefs rewritten and as many `target-id-ref` children as before, its assets
container holds one asset, asset0, and its relationships container holds the
createdFor and the isAbout entry of xccdf1. -/
theorem composes_without_anchor (h : SdsHelpers) (fuel : Nat) (e : String → String)
    (sds_doc : XmlDoc) (tailoring : Option Tailoring) (root_element : XmlNode)
    (src : String → Option XmlDoc) (mp : String → Option String)
    (table : List (String × String)) (clone : Bool) (bundle : XmlDoc)
    (hroot : root_element.isElementNamed "TestResult" = true)
    (hanchor : hasAnchor root_element = false)
    (hbundle : importBundle h fuel sds_doc tailoring = some bundle)
    (hoval : OvalResolvable src mp table) :
    ∃ result root relationships report_requests assets reports asset embedded more,
      _ds_rds_create_from_dom h fuel e sds_doc tailoring (some root_element) src mp table clone
        = some result ∧
      result.code = 0 ∧ result.ret = some root ∧
      root.children = [relationships, report_requests, assets, reports] ∧
      reports.children = reportEntry "xccdf1" [embedded] :: more ∧
      embedded = ds_rds_report_inject_rule_result_refs (oscap_htable_get table) root_element ∧
      countTargetIdRef embedded = countTargetIdRef root_element ∧
      assets.children = [asset] ∧ asset.isElementNamed "asset" = true ∧
      xmlGetProp asset "id" = some "asset0" ∧
      relationships.children =
        [relationshipEntry "arfvocab:createdFor" "xccdf1" "collection1",
         relationshipEntry "arfvocab:isAbout" "xccdf1" "asset0"] := by
  have hadd : ds_rds_add_xccdf_test_results e (oscap_htable_get table)
      ⟨.element (some arf_ns_uri) "reports" [] [],
        .element (some core_ns_uri) "relationships" [] [],
        .element (some arf_ns_uri) "assets" [] [], []⟩ (some root_element) "collection1"
      = some ⟨.element (some arf_ns_uri) "reports" []
            [reportEntry "xccdf1"
              [ds_rds_report_inject_rule_result_refs (oscap_htable_get table) root_element]],
          .element (some core_ns_uri) "relationships" []
            [relationshipEntry "arfvocab:createdFor" "xccdf1" "collection1",
             relationshipEntry "arfvocab:isAbout" "xccdf1" "asset0"],
          .element (some arf_ns_uri) "assets" [] [buildAsset e "asset0" root_element],
          targetIdRefErrors root_element⟩ := by
    simp only [ds_rds_add_xccdf_test_results, hroot, if_true]
    rw [addOneResult_eq e _ "collection1" _ root_element "xccdf1" hroot rfl]
    simp only [XmlNode.children, assetSuffixScan]
    rw [injectInto_no_anchor root_element (assetId 0) _ hanchor]
    rfl
  obtain ⟨reports1, hreports1⟩ := addOvalReports_defined src mp table hoval
    (.element (some arf_ns_uri) "reports" []
      [reportEntry "xccdf1"
        [ds_rds_report_inject_rule_result_refs (oscap_htable_get table) root_element]])
  obtain ⟨more, hmore, _, _⟩ := addOvalReports_some src mp table _ _ hreports1
  refine ⟨_, _, _, _, _, _, buildAsset e "asset0" root_element, _, more,
    create_from_dom_eq h fuel e sds_doc tailoring _ src mp table clone bundle _ reports1
      hbundle hadd hreports1, rfl, rfl, rfl, ?_, rfl,
    countTargetIdRef_rule_result_refs _ _, rfl, rfl, rfl, rfl⟩
  rw [hmore]
  simp [XmlNode.setChildren, XmlNode.children]

/-- C19 on a TestResult that holds only a rule-result, composed with a
tailoring document. -/
theorem composes_without_anchor_witness :
    (XmlNode.element none "TestResult" [] [.element none "rule-result" [] []]).isElementNamed
      "TestResult" = true ∧
    hasAnchor (.element none "TestResult" [] [.element none "rule-result" [] []]) = false ∧
    (importBundle exampleHelpers 1 (some exampleBundle) (some exampleTailoring)).isSome = true ∧
    ∃ result root relationships report_requests assets reports asset embedded more,
      _ds_rds_create_from_dom exampleHelpers 1 (fun s => s) (some exampleBundle)
        (some exampleTailoring)
        (some (.element none "TestResult" [] [.element none "rule-result" [] []]))
        (fun _ => none) (fun _ => none) [] true = some result ∧
      result.code = 0 ∧ result.ret = some root ∧
      root.children = [relationships, report_requests, assets, reports] ∧
      reports.children = reportEntry "xccdf1" [embedded] :: more ∧
      embedded = ds_rds_report_inject_rule_result_refs (oscap_htable_get [])
        (.element none "TestResult" [] [.element none "rule-result" [] []]) ∧
      countTargetIdRef embedded
        = countTargetIdRef (.element none "TestResult" [] [.element none "rule-result" [] []]) ∧
      assets.children = [asset] ∧ asset.isElementNamed "asset" = true ∧
      xmlGetProp asset "id" = some "asset0" ∧
      relationships.children =
        [relationshipEntry "arfvocab:createdFor" "xccdf1" "collection1",
         relationshipEntry "arfvocab:isAbout" "xccdf1" "asset0"] :=
  ⟨rfl, rfl, rfl,
    composes_without_anchor exampleHelpers 1 (fun s => s) (some exampleBundle)
      (some exampleTailoring) (.element none "TestResult" [] [.element none "rule-result" [] []])
      (fun _ => none) (fun _ => none) [] true _ rfl rfl rfl
      (fun entry hentry => absurd hentry (List.not_mem_nil entry))⟩

/-- C15: composing, without tailoring and with an empty report mapping, a
result document whose root is a TestResult with the target-address 10.0.0.5
and the host_name fact scanner1 returns 0 with this document: two
relationships, createdFor and isAbout, both with the subject xccdf1 and with
the refs collection1 and asset0; the report-request collection1 around the
bundle; one asset, asset0, with the ip-v4 address 10.0.0.5 and the hostname
scanner1; one report, xccdf1, whose TestResult has gained a `target-id-ref`
with the name asset0 after the target-facts. -/
theorem compose_single_test_result (h : SdsHelpers) (fuel : Nat) (e : String → String)
    (sds_doc : XmlDoc) (src : String → Option XmlDoc) (mp : String → Option String)
    (clone : Bool) :
    _ds_rds_create_from_dom h fuel e sds_doc none
      (some (.element none "TestResult" []
        [.element none "target-address" [] [.text "10.0.0.5"],
         .element none "target-facts" []
           [.element none "fact" [("name", fact_host_name)] [.text "scanner1"]]]))
      src mp [] clone
    = some ⟨0, some (.element (some arf_ns_uri) "asset-report-collection" []
        [.element (some core_ns_uri) "relationships" []
          [.element (some core_ns_uri) "relationship"
             [("type", "arfvocab:createdFor"), ("subject", "xccdf1")]
             [.element (some core_ns_uri) "ref" [] [.text "collection1"]],
           .element (some core_ns_uri) "relationship"
             [("type", "arfvocab:isAbout"), ("subject", "xccdf1")]
             [.element (some core_ns_uri) "ref" [] [.text "asset0"]]],
         .element (some arf_ns_uri) "report-requests" []
          [.element (some arf_ns_uri) "report-request" [("id", "collection1")]
            [.element (some arf_ns_uri) "content" [] sds_doc.toList]],
         .element (some arf_ns_uri) "assets" []
          [.element (some arf_ns_uri) "asset" [("id", "asset0")]
            [.element (some ai_ns_uri) "computing-device" []
              [.element (some ai_ns_uri) "connections" []
                [.element (some ai_ns_uri) "connection" []
                  [.element (some ai_ns_uri) "ip-address" []
                    [.element (some ai_ns_uri) "ip-v4" [] [.text "10.0.0.5"]]]],
               .element (some ai_ns_uri) "hostname" [] [.text "scanner1"]]]],
         .element (some arf_ns_uri) "reports" []
          [.element (some arf_ns_uri) "report" [("id", "xccdf1")]
            [.element (some arf_ns_uri) "content" []
              [.element none "TestResult" []
                [.element none "target-address" [] [.text "10.0.0.5"],
                 .element none "target-facts" []
                   [.element none "fact" [("name", fact_host_name)] [.text "scanner1"]],
                 .element none "target-id-ref"
                   [("system", ai_ns_uri), ("name", "asset0"), ("href", "")] []]]]]]),
      if clone then sds_doc else none⟩ := by
  cases sds_doc <;> cases clone <;> rfl

/-! ## Benchmark results -/

theorem assetSuffixScan_range (l : List XmlNode) (k : Nat)
    (hids : assetIdsOf l = (List.range' 0 k).map (fun i => some (assetId i))) :
    assetSuffixScan l 0 = some k := by
  rw [assetSuffixScan_eq_scanIds, hids]
  simpa using scanIds_range k 0

theorem children_xmlAddChild (n x : XmlNode) (hel : n.isElement = true) :
    (xmlAddChild n x).children = n.children ++ [x] := by
  cases n <;> simp_all [xmlAddChild, XmlNode.setChildren, XmlNode.children, isElement]

theorem isElement_xmlAddChild (n x : XmlNode) (hel : n.isElement = true) :
    (xmlAddChild n x).isElement = true := by
  cases n <;> simp_all [xmlAddChild, XmlNode.setChildren, isElement]

/-- The loop over the children of a Benchmark, entered with report suffix
`k + 1` on an assets container that holds asset0 ... asset(k-1): one report,
one asset and two relationships are appended per TestResult child. -/
theorem addBenchmarkResults_spec (e : String → String) (m : String → Option String)
    (req : String) (children : List XmlNode) (hreq : storedVerbatim req = true) :
    ∀ (k : Nat) (c : Containers),
      c.assets.isElement = true →
      assetIdsOf c.assets.children = (List.range' 0 k).map (fun i => some (assetId i)) →
      (∀ tr ∈ children.filter (isElementNamed "TestResult"),
        ∀ y ∈ tr.children, refAttrsPresent y = true) →
      ∃ c1, addBenchmarkResults e m req children (k + 1) c = some c1 ∧
        c1.reports = c.reports.setChildren (c.reports.children ++
          List.zipWith (fun i tr => reportEntry (reportId (i + 1))
              [injectedCopy m (assetId i) tr])
            (List.range' k (children.filter (isElementNamed "TestResult")).length)
            (children.filter (isElementNamed "TestResult"))) ∧
        c1.assets = c.assets.setChildren (c.assets.children ++
          List.zipWith (fun i tr => buildAsset e (assetId i) tr)
            (List.range' k (children.filter (isElementNamed "TestResult")).length)
            (children.filter (isElementNamed "TestResult"))) ∧
        c1.relationships = c.relationships.setChildren (c.relationships.children ++
          (List.range' k (children.filter (isElementNamed "TestResult")).length).flatMap
            (fun i => [relationshipEntry "arfvocab:createdFor" (reportId (i + 1)) req,
              relationshipEntry "arfvocab:isAbout" (reportId (i + 1)) (assetId i)])) := by
  induction children with
  | nil =>
    intro k c _ _ _
    exact ⟨c, rfl, by simp [setChildren_children], by simp [setChildren_children],
      by simp [setChildren_children]⟩
  | cons x rest ih =>
    intro k c hel hids hattrs
    by_cases hx : x.isElementNamed "TestResult" = true
    · have hfilter : (x :: rest).filter (isElementNamed "TestResult")
          = x :: rest.filter (isElementNamed "TestResult") := by
        simp [List.filter, hx]
      rw [hfilter] at hattrs ⊢
      obtain ⟨ret, node, hinj⟩ := injectInto_defined x (assetId k) m
        (hattrs x (by simp))
      have hcopy : injectedCopy m (assetId k) x = node := by
        simp [injectedCopy, hinj]
      have hone := addOneResult_eq e m req c x (reportId (k + 1)) hx hreq
      rw [assetSuffixScan_range _ k hids] at hone
      simp only [hinj] at hone
      have hids2 : assetIdsOf (xmlAddChild c.assets (buildAsset e (assetId k) x)).children
          = (List.range' 0 (k + 1)).map (fun i => some (assetId i)) := by
        rw [children_xmlAddChild _ _ hel, assetIdsOf_append, hids, assetIdsOf_buildAsset,
          List.range'_concat]
        simp
      obtain ⟨c1, hc1, hr, ha, hl⟩ := ih (k + 1)
        { reports := c.reports.setChildren
            (c.reports.children ++ [reportEntry (reportId (k + 1)) [node]]),
          relationships := c.relationships.setChildren (c.relationships.children ++
            [relationshipEntry "arfvocab:createdFor" (reportId (k + 1)) req,
             relationshipEntry "arfvocab:isAbout" (reportId (k + 1)) (assetId k)]),
          assets := xmlAddChild c.assets (buildAsset e (assetId k) x),
          errors := c.errors ++ targetIdRefErrors x }
        (isElement_xmlAddChild c.assets (buildAsset e (assetId k) x) hel) hids2
        (fun tr htr => hattrs tr (by simp [htr]))
      refine ⟨c1, ?_, ?_, ?_, ?_⟩
      · unfold addBenchmarkResults
        simp only [hx, if_true, hone]
        exact hc1
      · rw [hr, setChildren_append_twice]
        simp [List.range'_succ, hcopy]
      · rw [ha]
        simp only [xmlAddChild]
        rw [setChildren_append_twice]
        simp [List.range'_succ]
      · rw [hl, setChildren_append_twice]
        simp [List.range'_succ]
    · have hfilter : (x :: rest).filter (isElementNamed "TestResult")
          = rest.filter (isElementNamed "TestResult") := by
        simp [List.filter, hx]
      rw [hfilter] at hattrs ⊢
      obtain ⟨c1, hc1, hr, ha, hl⟩ := ih k c hel hids hattrs
      refine ⟨c1, ?_, hr, ha, hl⟩
      unfold addBenchmarkResults
      simp only [hx]
      exact hc1

/-- C16 as stated fails: for a Benchmark with one TestResult that holds a
`target`, the content of the report xccdf1 is not a copy of the TestResult: it
has gained the `target-id-ref` for asset0. -/
theorem report_content_is_not_a_copy :
    (ds_rds_add_xccdf_test_results (fun s => s) (fun _ => none)
        ⟨.element none "reports" [] [], .element none "relationships" [] [],
          .element none "assets" [] [], []⟩
        (some (.element none "Benchmark" []
          [.element none "TestResult" [] [.element none "target" [] [.text "host"]]]))
        "collection1").map (fun c1 => c1.reports.children)
      = some [reportEntry "xccdf1"
        [.element none "TestResult" []
          [.element none "target" [] [.text "host"],
           .element none "target-id-ref"
             [("system", ai_ns_uri), ("name", "asset0"), ("href", "")] []]]] ∧
    [reportEntry "xccdf1"
        [.element none "TestResult" []
          [.element none "target" [] [.text "host"],
           .element none "target-id-ref"
             [("system", ai_ns_uri), ("name", "asset0"), ("href", "")] []]]]
      ≠ [reportEntry "xccdf1"
        [.element none "TestResult" [] [.element none "target" [] [.text "host"]]]] :=
  ⟨rfl, by simp [reportEntry]⟩

/-- C16, amended: for a result document whose root is a Benchmark, with N
TestResult element children whose `target-id-ref` children carry the `system`
and `name` attributes, and for a request id that is not empty and holds no
`&`, `ds_rds_add_xccdf_test_results` on empty containers leaves N reports with
the ids xccdf1 ... xccdfN in the document order of the TestResults, the
content of the i-th being the i-th TestResult after the reference injection
for asset(i-1); N assets with the ids asset0 ... asset(N-1), the i-th being
the asset that the extractor builds from the i-th TestResult; and 2N
relationships, for each i in order a createdFor entry with subject xccdf i
and the request id as ref, then an isAbout entry with subject xccdf i and ref
asset(i-1). -/
theorem benchmark_results (e : String → String) (m : String → Option String) (req : String)
    (nsb : Option String) (attrsb : List (String × String)) (children : List XmlNode)
    (ns1 ns2 ns3 : Option String) (name1 name2 name3 : String)
    (attrs1 attrs2 attrs3 : List (String × String)) (errors : List String)
    (hattrs : ∀ tr ∈ children.filter (isElementNamed "TestResult"),
      ∀ y ∈ tr.children, refAttrsPresent y = true)
    (hreq : storedVerbatim req = true) :
    ∃ c1,
      ds_rds_add_xccdf_test_results e m
        ⟨.element ns1 name1 attrs1 [], .element ns2 name2 attrs2 [],
          .element ns3 name3 attrs3 [], errors⟩
        (some (.element nsb "Benchmark" attrsb children)) req = some c1 ∧
      c1.reports.children =
        List.zipWith (fun i tr => reportEntry (reportId (i + 1))
            [injectedCopy m (assetId i) tr])
          (List.range (children.filter (isElementNamed "TestResult")).length)
          (children.filter (isElementNamed "TestResult")) ∧
      c1.reports.children.map (fun r => xmlGetProp r "id") =
        (List.range (children.filter (isElementNamed "TestResult")).length).map
          (fun i => some (reportId (i + 1))) ∧
      c1.assets.children =
        List.zipWith (fun i tr => buildAsset e (assetId i) tr)
          (List.range (children.filter (isElementNamed "TestResult")).length)
          (children.filter (isElementNamed "TestResult")) ∧
      c1.assets.children.map (fun a => xmlGetProp a "id") =
        (List.range (children.filter (isElementNamed "TestResult")).length).map
          (fun i => some (assetId i)) ∧
      c1.relationships.children =
        (List.range (children.filter (isElementNamed "TestResult")).length).flatMap
          (fun i => [relationshipEntry "arfvocab:createdFor" (reportId (i + 1)) req,
            relationshipEntry "arfvocab:isAbout" (reportId (i + 1)) (assetId i)]) := by
  obtain ⟨c1, hc1, hr, ha, hl⟩ := addBenchmarkResults_spec e m req children hreq 0
    ⟨.element ns1 name1 attrs1 [], .element ns2 name2 attrs2 [],
      .element ns3 name3 attrs3 [], errors⟩ rfl (by simp [assetIdsOf, XmlNode.children]) hattrs
  have hmapzip : ∀ (f : Nat → XmlNode → XmlNode) (g : Nat → Option String)
      (l : List XmlNode) (s : Nat),
      (∀ i tr, xmlGetProp (f i tr) "id" = g i) →
      (List.zipWith f (List.range' s l.length) l).map (fun r => xmlGetProp r "id")
        = (List.range' s l.length).map g := by
    intro f g l
    induction l with
    | nil => intro s _; simp
    | cons a l ih =>
      intro s hf
      simp [List.range'_succ, hf, ih (s + 1) hf]
  refine ⟨c1, ?_, ?_, ?_, ?_, ?_, ?_⟩
  · simp only [ds_rds_add_xccdf_test_results, isElementNamed]
    simpa using hc1
  · rw [hr, List.range_eq_range']
    simp [XmlNode.setChildren, XmlNode.children]
  · rw [hr, List.range_eq_range']
    simp only [XmlNode.setChildren, XmlNode.children, List.nil_append]
    exact hmapzip _ _ _ 0 (fun i tr => rfl)
  · rw [ha, List.range_eq_range']
    simp [XmlNode.setChildren, XmlNode.children]
  · rw [ha, List.range_eq_range']
    simp only [XmlNode.setChildren, XmlNode.children, List.nil_append]
    exact hmapzip _ _ _ 0 (fun i tr => xmlGetProp_buildAsset e _ tr)
  · rw [hl, List.range_eq_range']
    simp [XmlNode.setChildren, XmlNode.children]

/-- The amended C16 on a Benchmark holding a title and two TestResults, the
first with a `target` and the second without an anchor. -/
theorem benchmark_results_witness :
    (∀ tr ∈ [XmlNode.element none "title" [] [],
          .element none "TestResult" [] [.element none "target" [] [.text "a"]],
          .element none "TestResult" [] [.element none "rule-result" [] []]].filter
        (isElementNamed "TestResult"),
      ∀ y ∈ tr.children, refAttrsPresent y = true) ∧
    storedVerbatim "collection1" = true ∧
    ∃ c1,
      ds_rds_add_xccdf_test_results (fun s => s) (fun _ => none)
        ⟨.element none "reports" [] [], .element none "relationships" [] [],
          .element none "assets" [] [], []⟩
        (some (.element none "Benchmark" []
          [.element none "title" [] [],
           .element none "TestResult" [] [.element none "target" [] [.text "a"]],
           .element none "TestResult" [] [.element none "rule-result" [] []]]))
        "collection1" = some c1 ∧
      c1.reports.children =
        List.zipWith (fun i tr => reportEntry (reportId (i + 1))
            [injectedCopy (fun _ => none) (assetId i) tr])
          (List.range ([XmlNode.element none "title" [] [],
            .element none "TestResult" [] [.element none "target" [] [.text "a"]],
            .element none "TestResult" [] [.element none "rule-result" [] []]].filter
              (isElementNamed "TestResult")).length)
          ([XmlNode.element none "title" [] [],
            .element none "TestResult" [] [.element none "target" [] [.text "a"]],
            .element none "TestResult" [] [.element none "rule-result" [] []]].filter
              (isElementNamed "TestResult")) ∧
      c1.reports.children.map (fun r => xmlGetProp r "id") =
        (List.range ([XmlNode.element none "title" [] [],
            .element none "TestResult" [] [.element none "target" [] [.text "a"]],
            .element none "TestResult" [] [.element none "rule-result" [] []]].filter
              (isElementNamed "TestResult")).length).map
          (fun i => some (reportId (i + 1))) ∧
      c1.assets.children =
        List.zipWith (fun i tr => buildAsset (fun s => s) (assetId i) tr)
          (List.range ([XmlNode.element none "title" [] [],
            .element none "TestResult" [] [.element none "target" [] [.text "a"]],
            .element none "TestResult" [] [.element none "rule-result" [] []]].filter
              (isElementNamed "TestResult")).length)
          ([XmlNode.element none "title" [] [],
            .element none "TestResult" [] [.element none "target" [] [.text "a"]],
            .element none "TestResult" [] [.element none "rule-result" [] []]].filter
              (isElementNamed "TestResult")) ∧
      c1.assets.children.map (fun a => xmlGetProp a "id") =
        (List.range ([XmlNode.element none "title" [] [],
            .element none "TestResult" [] [.element none "target" [] [.text "a"]],
            .element none "TestResult" [] [.element none "rule-result" [] []]].filter
              (isElementNamed "TestResult")).length).map
          (fun i => some (assetId i)) ∧
      c1.relationships.children =
        (List.range ([XmlNode.element none "title" [] [],
            .element none "TestResult" [] [.element none "target" [] [.text "a"]],
            .element none "TestResult" [] [.element none "rule-result" [] []]].filter
              (isElementNamed "TestResult")).length).flatMap
          (fun i => [relationshipEntry "arfvocab:createdFor" (reportId (i + 1)) "collection1",
            relationshipEntry "arfvocab:isAbout" (reportId (i + 1)) (assetId i)]) :=
  ⟨by decide, rfl,
    benchmark_results (fun s => s) (fun _ => none) "collection1" none []
      [.element none "title" [] [],
       .element none "TestResult" [] [.element none "target" [] [.text "a"]],
       .element none "TestResult" [] [.element none "rule-result" [] []]]
      none none none "reports" "relationships" "assets" [] [] [] [] (by decide) rfl⟩

/-! ## Tree node locator -/

theorem findFirst_none_iff (p : XmlNode → Bool) (l : List XmlNode) :
    findFirst p l = none ↔ ∀ c ∈ l, p c = false := by
  induction l with
  | nil => simp [findFirst]
  | cons c rest ih =>
    by_cases hc : p c = true
    · simp [findFirst, hc]
    · simp [findFirst, hc, ih]

theorem findFirst_some_iff (p : XmlNode → Bool) (l : List XmlNode) :
    ∀ (i : Nat) (node : XmlNode), findFirst p l = some (i, node) ↔
      ∃ pre post, l = pre ++ node :: post ∧ pre.length = i ∧ p node = true ∧
        ∀ y ∈ pre, p y = false := by
  induction l with
  | nil =>
    intro i node
    simp [findFirst]
  | cons c rest ih =>
    intro i node
    by_cases hc : p c = true
    · simp only [findFirst, hc, if_true, Option.some.injEq, Prod.mk.injEq]
      constructor
      · rintro ⟨hi, hnode⟩
        subst hi hnode
        exact ⟨[], rest, rfl, rfl, hc, by simp⟩
      · rintro ⟨pre, post, hl, hlen, hp, hpre⟩
        cases pre with
        | nil =>
          simp only [List.nil_append, List.cons.injEq] at hl
          exact ⟨by simpa using hlen, hl.1⟩
        | cons a pre =>
          simp only [List.cons_append, List.cons.injEq] at hl
          have := hpre a (by simp)
          rw [← hl.1, hc] at this
          simp at this
    · have hcf : p c = false := by simpa using hc
      simp only [findFirst, hcf, Bool.false_eq_true, if_false, Option.map_eq_some',
        Prod.mk.injEq, Prod.exists]
      constructor
      · rintro ⟨j, n, hfind, hj, hn⟩
        subst hn
        obtain ⟨pre, post, hl, hlen, hp, hpre⟩ := (ih j n).1 hfind
        refine ⟨c :: pre, post, by simp [hl], by simp [hlen, hj], hp, ?_⟩
        intro y hy
        rcases List.mem_cons.1 hy with hy | hy
        · rw [hy]; exact hcf
        · exact hpre y hy
      · rintro ⟨pre, post, hl, hlen, hp, hpre⟩
        cases pre with
        | nil =>
          simp only [List.nil_append, List.cons.injEq] at hl
          rw [hl.1, hp] at hcf
          simp at hcf
        | cons a pre =>
          simp only [List.cons_append, List.cons.injEq] at hl
          refine ⟨pre.length, node, (ih pre.length node).2
            ⟨pre, post, hl.2, rfl, hp, fun y hy => hpre y (by simp [hy])⟩, ?_, rfl⟩
          simpa using hlen

theorem findElementNamed_eq_findFirst (tag : String) (l : List XmlNode) :
    findElementNamed tag l = findFirst (isElementNamed tag) l := by
  induction l with
  | nil => rfl
  | cons c rest ih => simp [findElementNamed, findFirst, ih]

theorem findComponent_eq_findFirst (component_name id : String) (l : List XmlNode) :
    findComponent component_name id l = findFirst (isComponent component_name id) l := by
  induction l with
  | nil => rfl
  | cons c rest ih => simp [findComponent, findFirst, ih, isComponent, oscap_streq]

/-- C21: `ds_rds_lookup_container` returns nothing exactly when the document
has no root or no child of the root is an element with the given name; and it
returns a node exactly when that node is a direct child of the root, is an
element with the given name, and no child before it is one. -/
theorem lookup_container_spec (doc : XmlDoc) (name : String) :
    (ds_rds_lookup_container doc name = none ↔
      (doc = none ∨ ∃ root, doc = some root ∧
        ∀ c ∈ root.children, c.isElementNamed name = false)) ∧
    ∀ (i : Nat) (node : XmlNode), ds_rds_lookup_container doc name = some (i, node) ↔
      ∃ root pre post, doc = some root ∧ root.children = pre ++ node :: post ∧
        pre.length = i ∧ node.isElement = true ∧ node.isElementNamed name = true ∧
        ∀ y ∈ pre, y.isElementNamed name = false := by
  have helem : ∀ n : XmlNode, n.isElementNamed name = true → n.isElement = true := by
    intro n hn
    cases n <;> simp_all [isElementNamed, isElement]
  cases doc with
  | none => simp [ds_rds_lookup_container]
  | some root =>
    have heq : ds_rds_lookup_container (some root) name
        = findFirst (isElementNamed name) root.children := by
      simp [ds_rds_lookup_container, findElementNamed_eq_findFirst]
    rw [heq]
    refine ⟨⟨fun h => Or.inr ⟨root, rfl, (findFirst_none_iff _ _).1 h⟩, fun h => ?_⟩,
      fun i node => ⟨fun h => ?_, fun h => ?_⟩⟩
    · rcases h with h | ⟨r, hr, h⟩
      · simp at h
      · rw [← Option.some.inj hr] at h
        exact (findFirst_none_iff _ _).2 h
    · obtain ⟨pre, post, hl, hlen, hp, hpre⟩ := (findFirst_some_iff _ _ i node).1 h
      exact ⟨root, pre, post, rfl, hl, hlen, helem node hp, hp, hpre⟩
    · obtain ⟨r, pre, post, hr, hl, hlen, _, hp, hpre⟩ := h
      rw [← Option.some.inj hr] at hl
      exact (findFirst_some_iff _ _ i node).2 ⟨pre, post, hl, hlen, hp, hpre⟩

/-- C22: `ds_rds_lookup_component` returns nothing exactly when the container
is absent or none of its children is an element with the component name and
the given id; and it returns a node exactly when that node is a direct child
of the container found by `ds_rds_lookup_container`, is an element with the
component name whose id attribute is the given id, and no child before it is
one. -/
theorem lookup_component_spec (doc : XmlDoc) (container_name component_name id : String) :
    (ds_rds_lookup_component doc container_name component_name id = none ↔
      (ds_rds_lookup_container doc container_name = none ∨
        ∃ k container, ds_rds_lookup_container doc container_name = some (k, container) ∧
          ∀ c ∈ container.children, isComponent component_name id c = false)) ∧
    ∀ (i : Nat) (node : XmlNode),
      ds_rds_lookup_component doc container_name component_name id = some (i, node) ↔
        ∃ k container pre post,
          ds_rds_lookup_container doc container_name = some (k, container) ∧
          container.children = pre ++ node :: post ∧ pre.length = i ∧
          node.isElementNamed component_name = true ∧ xmlGetProp node "id" = some id ∧
          ∀ y ∈ pre, isComponent component_name id y = false := by
  unfold ds_rds_lookup_component
  cases hcont : ds_rds_lookup_container doc container_name with
  | none => simp
  | some r =>
    obtain ⟨k, container⟩ := r
    simp only [findComponent_eq_findFirst]
    refine ⟨⟨fun h => Or.inr ⟨k, container, rfl, (findFirst_none_iff _ _).1 h⟩, fun h => ?_⟩,
      fun i node => ⟨fun h => ?_, fun h => ?_⟩⟩
    · rcases h with h | ⟨k2, c2, hc, h⟩
      · simp at h
      · have := Option.some.inj hc
        simp only [Prod.mk.injEq] at this
        rw [← this.2] at h
        exact (findFirst_none_iff _ _).2 h
    · obtain ⟨pre, post, hl, hlen, hp, hpre⟩ := (findFirst_some_iff _ _ i node).1 h
      simp only [isComponent, Bool.and_eq_true, beq_iff_eq] at hp
      exact ⟨k, container, pre, post, rfl, hl, hlen, hp.1, hp.2, hpre⟩
    · obtain ⟨k2, c2, pre, post, hc, hl, hlen, hp1, hp2, hpre⟩ := h
      have := Option.some.inj hc
      simp only [Prod.mk.injEq] at this
      rw [← this.2] at hl
      exact (findFirst_some_iff _ _ i node).2
        ⟨pre, post, hl, hlen, by simp [isComponent, hp1, hp2], hpre⟩

/-! ## Content dump -/

theorem lastElementChild_eq (l : List XmlNode) : ∀ acc : Option XmlNode,
    lastElementChild l acc =
      match (l.filter XmlNode.isElement).getLast? with
      | some x => some x
      | none => acc := by
  induction l with
  | nil => intro acc; rfl
  | cons c rest ih =>
    intro acc
    simp only [lastElementChild]
    rw [ih]
    by_cases hc : c.isElement = true
    · simp only [hc, if_true, List.filter_cons_of_pos]
      cases hrest : rest.filter XmlNode.isElement with
      | nil => simp
      | cons a l =>
        simp only [List.getLast?_cons_cons]
        rw [List.getLast?_eq_getLast _ (List.cons_ne_nil a l)]
    · simp [hc]

/-- C25 as stated fails: the component r1 is found, it has a `content` child
and this child has an element child, yet the call returns -1, the value of a
registration that fails. -/
theorem dump_returns_registration_failure :
    (ds_rds_lookup_component
      (some (.element none "asset-report-collection" []
        [.element none "reports" []
          [.element none "report" [("id", "r1")]
            [.element none "content" [] [.element none "oval_results" [] []]]]]))
      "reports" "report" "r1").isSome = true ∧
    ds_rds_dump_arf_content (fun _ _ => -1)
      (some (.element none "asset-report-collection" []
        [.element none "reports" []
          [.element none "report" [("id", "r1")]
            [.element none "content" [] [.element none "oval_results" [] []]]]]))
      "/tmp" "reports" "report" "r1"
      = (-1, some ⟨some (.element none "oval_results" [] []), "/tmp/report.xml"⟩) :=
  ⟨rfl, rfl⟩

/-- C25, amended: `ds_rds_dump_arf_content` returns -1 without handing
anything to the session when the component with the given id is not found, or
when it has no `content` element child, or when its first `content` child has
no element child; otherwise it hands over a document rooted at the last
element child of the first `content` child, under the path of the component
name in the target directory, and returns what the registration returns. -/
theorem dump_arf_content_spec (register : String → OscapSource → Int) (doc : XmlDoc)
    (target_dir container_name component_name content_id : String) :
    ds_rds_dump_arf_content register doc target_dir container_name component_name content_id =
      match ds_rds_lookup_component doc container_name component_name content_id with
      | none => (-1, none)
      | some (_, component) =>
        match findFirst (isElementNamed "content") component.children with
        | none => (-1, none)
        | some (_, content) =>
          match (content.children.filter XmlNode.isElement).getLast? with
          | none => (-1, none)
          | some inner =>
            (register content_id ⟨some inner, target_dir ++ "/" ++ component_name ++ ".xml"⟩,
              some ⟨some inner, target_dir ++ "/" ++ component_name ++ ".xml"⟩) := by
  unfold ds_rds_dump_arf_content
  cases ds_rds_lookup_component doc container_name component_name content_id with
  | none => rfl
  | some r =>
    obtain ⟨i, component⟩ := r
    simp only [ds_rds_get_inner_content, findElementNamed_eq_findFirst]
    cases findFirst (isElementNamed "content") component.children with
    | none => rfl
    | some r2 =>
      obtain ⟨j, content⟩ := r2
      simp only [lastElementChild_eq]
      cases (content.children.filter XmlNode.isElement).getLast? with
      | none => rfl
      | some inner => rfl

/-! ## Import of the bundle -/

theorem importBundleMem_root (h : SdsHelpers) (fuel : Nat) (clone : Bool) (sds_doc : XmlDoc)
    (tailoring : Option Tailoring) (mem : BundleMem) (sds_res_node : Option Nat)
    (hmem : importBundleMem h fuel clone sds_doc tailoring = some (mem, sds_res_node)) :
    mem.sds_root = (if clone then sds_doc.map (fun _ => 0) else none) ∧
      sds_res_node = sds_doc.map (fun _ => if clone then 1 else 0) := by
  have himp : importRoot clone (BundleMem.ofDoc sds_doc)
      = (⟨if clone then sds_doc.toList ++ sds_doc.toList else sds_doc.toList,
          if clone then sds_doc.map (fun _ => 0) else none⟩,
         sds_doc.map (fun _ => if clone then 1 else 0)) := by
    cases sds_doc <;> cases clone <;> rfl
  unfold importBundleMem at hmem
  rw [himp] at hmem
  cases tailoring with
  | none =>
    simp only [Option.some.injEq, Prod.mk.injEq] at hmem
    rw [← hmem.1, ← hmem.2]
    exact ⟨rfl, rfl⟩
  | some t =>
    by_cases ht : t.filepath = "NONEXISTENT"
    · simp only [ht, if_true, Option.some.injEq, Prod.mk.injEq] at hmem
      rw [← hmem.1, ← hmem.2]
      exact ⟨rfl, rfl⟩
    · simp only [ht, if_false] at hmem
      cases sds_doc with
      | none => simp at hmem
      | some root =>
        simp only [Option.map_some'] at hmem
        split at hmem
        · simp at hmem
        · split at hmem
          · simp at hmem
          · simp only [Option.some.injEq, Prod.mk.injEq] at hmem
            rw [← hmem.1, ← hmem.2]
            exact ⟨rfl, rfl⟩

/-- C23: whenever the composer returns, the bundle document is left as it was
in clone mode (the mode of `ds_rds_create_from_dom_clone`, which
`ds_rds_create_source` calls): the node below `arf:content`, which the
tailoring merge changes in place, is a copy at another address than the root
of the bundle document.  In adopt mode (the mode of `ds_rds_create_from_dom`)
the bundle document is left without a root.  In both modes the `content`
child of the report-request holds the bundle root: the original tree when no
tailoring is merged, and else the tree that the merge makes of the original
root. -/
theorem import_modes (h : SdsHelpers) (fuel : Nat) (e : String → String)
    (sds_doc : XmlDoc) (tailoring : Option Tailoring) (doc : XmlDoc)
    (src : String → Option XmlDoc) (mp : String → Option String)
    (table : List (String × String)) (clone : Bool) (result : CreateResult)
    (hres : _ds_rds_create_from_dom h fuel e sds_doc tailoring doc src mp table clone
      = some result) :
    ds_rds_create_from_dom_clone h fuel e sds_doc tailoring doc src mp table
      = _ds_rds_create_from_dom h fuel e sds_doc tailoring doc src mp table true ∧
    ds_rds_create_from_dom h fuel e sds_doc tailoring doc src mp table
      = _ds_rds_create_from_dom h fuel e sds_doc tailoring doc src mp table false ∧
    (∃ mem sds_res_node,
      importBundleMem h fuel clone sds_doc tailoring = some (mem, sds_res_node) ∧
      result.sds_doc = mem.sdsDoc ∧
      (clone = true → mem.sdsDoc = sds_doc ∧
        ∀ node, sds_res_node = some node → mem.sds_root ≠ some node) ∧
      (clone = false → mem.sds_root = none ∧ mem.sdsDoc = none)) ∧
    result.sds_doc = (if clone then sds_doc else none) ∧
    ∃ root relationships report_requests assets reports report_request content,
      result.ret = some root ∧
      root.children = [relationships, report_requests, assets, reports] ∧
      report_requests.children = [report_request] ∧
      report_request.children = [content] ∧ content.isElementNamed "content" = true ∧
      (tailoring = none → content.children = sds_doc.toList) ∧
      (∀ t, tailoring = some t → t.filepath = "NONEXISTENT" →
        content.children = sds_doc.toList) ∧
      (∀ t, tailoring = some t → t.filepath ≠ "NONEXISTENT" →
        ∃ sds_root merged, sds_doc = some sds_root ∧
          mergeTailoring h fuel sds_root t = some merged ∧ content.children = [merged]) := by
  obtain ⟨bundle, c, reports1, hbundle, _, _, hresult⟩ :=
    create_from_dom_some h fuel e sds_doc tailoring doc src mp table clone result hres
  have himp := importBundleMem_eq h fuel clone sds_doc tailoring
  rw [hbundle] at himp
  have hmem : ∃ r, importBundleMem h fuel clone sds_doc tailoring = some r := by
    cases hm : importBundleMem h fuel clone sds_doc tailoring with
    | none => simp [hm] at himp
    | some r => exact ⟨r, rfl⟩
  obtain ⟨⟨mem, sds_res_node⟩, hmem⟩ := hmem
  simp only [hmem, Option.map_some', Option.some.injEq, Prod.mk.injEq] at himp
  obtain ⟨hroot, hnode⟩ := importBundleMem_root h fuel clone sds_doc tailoring mem sds_res_node
    hmem
  subst hresult
  refine ⟨rfl, rfl, ⟨mem, sds_res_node, hmem, himp.2.symm, ?_, ?_⟩, rfl,
    _, _, _, _, _, _, _, rfl, rfl, rfl, rfl, rfl, ?_, ?_, ?_⟩
  · intro hclone
    subst hclone
    refine ⟨by simpa using himp.2, ?_⟩
    intro node hn
    rw [hnode] at hn
    rw [hroot]
    cases sds_doc with
    | none => simp at hn
    | some root =>
      simp only [Option.map_some', if_true, Option.some.injEq] at hn
      rw [← hn]
      simp
  · intro hclone
    subst hclone
    exact ⟨by simpa using hroot, by simpa using himp.2⟩
  · intro ht
    subst ht
    simp only [importBundle, Option.some.injEq] at hbundle
    rw [hbundle]
    rfl
  · intro t ht hpath
    subst ht
    simp only [importBundle, hpath, if_true, Option.some.injEq] at hbundle
    rw [hbundle]
    rfl
  · intro t ht hpath
    subst ht
    simp only [importBundle, hpath, if_false] at hbundle
    cases sds_doc with
    | none => simp at hbundle
    | some sds_root =>
      simp only [Option.map_eq_some'] at hbundle
      obtain ⟨merged, hmerged, hb⟩ := hbundle
      refine ⟨sds_root, merged, rfl, hmerged, ?_⟩
      rw [← hb]
      rfl

/-- C23 on a composition in clone mode with a tailoring document: the merge
changes the copy below `arf:content`, the bundle document is as it was. -/
theorem import_modes_witness :
    ∃ result,
      _ds_rds_create_from_dom exampleHelpers 1 (fun s => s) (some exampleBundle)
        (some exampleTailoring)
        (some (.element none "TestResult" [] [.element none "target" [] [.text "a"]]))
        (fun _ => none) (fun _ => none) [] true = some result ∧
      result.sds_doc = some exampleBundle ∧
      ∃ root relationships report_requests assets reports report_request content,
        result.ret = some root ∧
        root.children = [relationships, report_requests, assets, reports] ∧
        report_requests.children = [report_request] ∧
        report_request.children = [content] ∧
        content.children = [.element none "data-stream-collection" []
          [.element none "data-stream" []
            [.element none "checklists" []
              [.element none "component-ref"
                [("id", "scap_org.open-scap_cref_t.xml_tailoring"),
                 ("xlink:href", "#scap_org.open-scap_comp_t.xml_tailoring")] []]],
           .element none "component"
             [("id", "scap_org.open-scap_comp_t.xml_tailoring"),
              ("timestamp", "2014-01-01T00:00:00")]
             [.element none "Tailoring" [] []]]] :=
  ⟨_, rfl,
    (import_modes exampleHelpers 1 (fun s => s) (some exampleBundle) (some exampleTailoring)
      (some (.element none "TestResult" [] [.element none "target" [] [.text "a"]]))
      (fun _ => none) (fun _ => none) [] true _ rfl).2.2.2.1,
    _, _, _, _, _, _, _, rfl, rfl, rfl, rfl, rfl⟩

/-! ## Location of the TestResult in a report -/

theorem set_append_cons (pre post : List XmlNode) (x y : XmlNode) :
    (pre ++ x :: post).set pre.length y = pre ++ y :: post := by
  induction pre with
  | nil => rfl
  | cons a pre ih => simp [List.set, ih]

theorem isElement_of_named (tag : String) (n : XmlNode) (h : n.isElementNamed tag = true) :
    n.isElement = true := by
  cases n <;> simp_all [isElementNamed, isElement]

theorem scanContent_first (cpre : List XmlNode) (tr : XmlNode) (cpost : List XmlNode)
    (htr : tr.isElementNamed "TestResult" = true)
    (hpre : ∀ y ∈ cpre, y.isElementNamed "TestResult" = false) :
    ∀ (i : Nat) (inner : Option (Nat × XmlNode)),
      scanContent (cpre ++ tr :: cpost) i inner
        = (some (i + cpre.length, tr), some (i + cpre.length, tr)) := by
  induction cpre with
  | nil =>
    intro i inner
    simp [scanContent, htr, isElement_of_named _ _ htr]
  | cons y cpre ih =>
    intro i inner
    have hy := hpre y (by simp)
    have ih2 := ih (fun z hz => hpre z (by simp [hz]))
    simp only [List.cons_append, scanContent, hy, Bool.false_eq_true, if_false, List.append_eq,
      List.length_cons]
    by_cases hel : y.isElement = true
    · simp only [hel, if_true]
      rw [ih2]
      simp [Nat.add_assoc, Nat.add_comm 1]
    · simp only [hel]
      rw [if_neg (by simp), ih2]
      simp [Nat.add_assoc, Nat.add_comm 1]

theorem scanContent_no_element (l : List XmlNode) (h : ∀ y ∈ l, y.isElement = false) :
    ∀ (i : Nat) (inner : Option (Nat × XmlNode)), scanContent l i inner = (none, inner) := by
  induction l with
  | nil => intro i inner; rfl
  | cons y l ih =>
    intro i inner
    simp only [scanContent, h y (by simp), Bool.false_eq_true, if_false]
    exact ih (fun z hz => h z (by simp [hz])) _ _

theorem scanContent_last (cpre : List XmlNode) (last : XmlNode) (cpost : List XmlNode)
    (hpre : ∀ y ∈ cpre, y.isElementNamed "TestResult" = false)
    (hlast : last.isElement = true) (hlast2 : last.isElementNamed "TestResult" = false)
    (hpost : ∀ y ∈ cpost, y.isElement = false) :
    ∀ (i : Nat) (inner : Option (Nat × XmlNode)),
      scanContent (cpre ++ last :: cpost) i inner = (none, some (i + cpre.length, last)) := by
  induction cpre with
  | nil =>
    intro i inner
    simp only [List.nil_append, scanContent, hlast, hlast2, if_true, Bool.false_eq_true,
      if_false, List.length_nil, Nat.add_zero]
    exact scanContent_no_element cpost hpost _ _
  | cons y cpre ih =>
    intro i inner
    have hy := hpre y (by simp)
    have ih2 := ih (fun z hz => hpre z (by simp [hz]))
    simp only [List.cons_append, scanContent, hy, Bool.false_eq_true, if_false, List.append_eq,
      List.length_cons]
    by_cases hel : y.isElement = true
    · simp only [hel, if_true]
      rw [ih2]
      simp [Nat.add_assoc, Nat.add_comm 1]
    · simp only [hel]
      rw [if_neg (by simp), ih2]
      simp [Nat.add_assoc, Nat.add_comm 1]

theorem findLastTestResult_none (l : List XmlNode)
    (h : ∀ y ∈ l, y.isElementNamed "TestResult" = false) :
    ∀ (i : Nat) (acc : Option (Nat × XmlNode)), findLastTestResult l i acc = acc := by
  induction l with
  | nil => intro i acc; rfl
  | cons y l ih =>
    intro i acc
    simp only [findLastTestResult, h y (by simp), Bool.false_eq_true, if_false]
    exact ih (fun z hz => h z (by simp [hz])) _ _

theorem findLastTestResult_last (bpre : List XmlNode) (tr : XmlNode) (bpost : List XmlNode)
    (htr : tr.isElementNamed "TestResult" = true)
    (hpost : ∀ y ∈ bpost, y.isElementNamed "TestResult" = false) :
    ∀ (i : Nat) (acc : Option (Nat × XmlNode)),
      findLastTestResult (bpre ++ tr :: bpost) i acc = some (i + bpre.length, tr) := by
  induction bpre with
  | nil =>
    intro i acc
    simp only [List.nil_append, findLastTestResult, htr, if_true, List.length_nil,
      Nat.add_zero]
    exact findLastTestResult_none bpost hpost _ _
  | cons y bpre ih =>
    intro i acc
    simp only [List.cons_append, findLastTestResult, List.length_cons, List.append_eq]
    rw [ih]
    simp [Nat.add_assoc, Nat.add_comm 1]

theorem inner_content_of_split (report : XmlNode) (rpre : List XmlNode) (content : XmlNode)
    (rpost : List XmlNode) (hrep : report.children = rpre ++ content :: rpost)
    (hcontent : content.isElementNamed "content" = true)
    (hfirst : ∀ y ∈ rpre, y.isElementNamed "content" = false) :
    ds_rds_get_inner_content report = some (rpre.length, content) := by
  rw [ds_rds_get_inner_content, findElementNamed_eq_findFirst]
  exact (findFirst_some_iff _ _ _ _).2 ⟨rpre, rpost, hrep, rfl, hcontent, hfirst⟩

/-- The injection works on the located TestResult and on nothing else. -/
theorem inject_refs_located (report tr : XmlNode) (put : XmlNode → XmlNode) (a : String)
    (m : String → Option String) (hloc : Located report tr put) :
    ds_rds_report_inject_refs report a m
      = (injectIntoTestResult tr a m).map (fun r => (r.1, put r.2)) := by
  obtain ⟨rpre, content, rpost, hrep, hcontent, hfirst, hcase⟩ := hloc
  have hinner := inner_content_of_split report rpre content rpost hrep hcontent hfirst
  unfold ds_rds_report_inject_refs
  rw [hinner]
  rcases hcase with ⟨cpre, cpost, hch, htr, hpre, hput⟩ |
    ⟨cpre, bench, cpost, bpre, bpost, hch, hpre, hpost, hbench, hbch, htr, hbpost, hput⟩
  · have hscan := scanContent_first cpre tr cpost htr hpre 0 none
    simp only [Nat.zero_add] at hscan
    simp only [hch, hscan, hrep, set_append_cons]
    rw [if_neg (by simp)]
    subst hput
    cases injectIntoTestResult tr a m with
    | none => rfl
    | some r => simp [hch, hrep]
  · have hbt : bench.isElementNamed "TestResult" = false := by
      cases bench <;> simp_all [isElementNamed]
    have hscan := scanContent_last cpre bench cpost hpre (isElement_of_named _ _ hbench) hbt
      hpost 0 none
    have hlast := findLastTestResult_last bpre tr bpost htr hbpost 0 none
    simp only [Nat.zero_add] at hscan hlast
    simp only [hch, hscan, hrep, hbch, hlast, hbench, set_append_cons]
    rw [if_neg (by simp)]
    simp only [Bool.not_true, Bool.false_eq_true, if_false]
    rw [if_neg (by simp)]
    subst hput
    cases injectIntoTestResult tr a m with
    | none => rfl
    | some r => simp [hch, hrep, hbch]

theorem inject_ai_defined (t : XmlNode) (asset_id : String)
    (hattrs : ∀ y ∈ t.children, refAttrsPresent y = true) :
    ∃ ret node, ds_rds_report_inject_ai_target_id_ref t asset_id = some (ret, node) := by
  obtain ⟨ret, node, h⟩ := injectInto_defined t asset_id (fun _ => none) hattrs
  unfold injectIntoTestResult at h
  cases hinj : ds_rds_report_inject_ai_target_id_ref t asset_id with
  | none => simp [hinj] at h
  | some r => exact ⟨r.1, r.2, rfl⟩

/-- In `ds_rds_report_inject_refs` the two jobs are independent.  When a
TestResult is located and its `target-id-ref` children carry the `system` and
`name` attributes, the insertion of the back-reference returns, the function
returns what the insertion returns, and the node that the insertion leaves
has its hrefs rewritten and stands where the TestResult stood, whatever the
insertion returned; a TestResult without anchor has its hrefs rewritten while
-1 is returned. -/
theorem inject_refs_jobs_independent (report test_result : XmlNode) (put : XmlNode → XmlNode)
    (asset_id : String) (arf_report_mapping : String → Option String)
    (hloc : Located report test_result put)
    (hattrs : ∀ y ∈ test_result.children, refAttrsPresent y = true) :
    ∃ ret node,
      ds_rds_report_inject_ai_target_id_ref test_result asset_id = some (ret, node) ∧
      ds_rds_report_inject_refs report asset_id arf_report_mapping
        = some (ret, put (ds_rds_report_inject_rule_result_refs arf_report_mapping node)) ∧
      (hasAnchor test_result = false → ret = -1 ∧ node = test_result) := by
  have h := inject_refs_located report test_result put asset_id arf_report_mapping hloc
  obtain ⟨ret, node, hinj⟩ := inject_ai_defined test_result asset_id hattrs
  refine ⟨ret, node, hinj, ?_, ?_⟩
  · rw [h, injectIntoTestResult, hinj]
    rfl
  · intro hanchor
    have hno := injectInto_no_anchor test_result asset_id arf_report_mapping hanchor
    rw [injectIntoTestResult, hinj] at hno
    simp only [Option.some.injEq, Prod.mk.injEq] at hno
    have hfind : findPrevSibling test_result.children 0 none = none :=
      (findPrevSibling_none_iff _).2 hanchor
    have hval : ds_rds_report_inject_ai_target_id_ref test_result asset_id
        = some (-1, test_result) := by
      simp [ds_rds_report_inject_ai_target_id_ref, hfind]
    rw [hval] at hinj
    simp only [Option.some.injEq, Prod.mk.injEq] at hinj
    exact ⟨hinj.1.symm, hinj.2.symm⟩

/-- The two jobs on a report whose TestResult has an anchor: the back-reference
is inserted behind the anchor, the href is rewritten, and 0 is returned. -/
theorem inject_refs_jobs_independent_witness :
    ∃ put ret node,
      Located (.element none "report" [("id", "xccdf1")]
        [.element none "content" [] [exampleAnchoredTestResult]])
        exampleAnchoredTestResult put ∧
      ds_rds_report_inject_ai_target_id_ref exampleAnchoredTestResult "asset0"
        = some (ret, node) ∧
      ds_rds_report_inject_refs (.element none "report" [("id", "xccdf1")]
          [.element none "content" [] [exampleAnchoredTestResult]]) "asset0" exampleMapping
        = some (ret, put (ds_rds_report_inject_rule_result_refs exampleMapping node)) ∧
      ret = 0 ∧
      put (ds_rds_report_inject_rule_result_refs exampleMapping node)
        = .element none "report" [("id", "xccdf1")]
            [.element none "content" []
              [.element none "TestResult" []
                [.element none "target" [] [.text "host"],
                 .element none "target-id-ref"
                   [("system", ai_ns_uri), ("name", "asset0"), ("href", "")] [],
                 .element none "rule-result" []
                  [.element none "check" []
                    [.element none "check-content-ref" [("href", "#oval0")] []]]]]] := by
  have hloc : Located (.element none "report" [("id", "xccdf1")]
        [.element none "content" [] [exampleAnchoredTestResult]]) exampleAnchoredTestResult
      (fun node => (XmlNode.element none "report" [("id", "xccdf1")]
        [.element none "content" [] [exampleAnchoredTestResult]]).setChildren
        ([] ++ (XmlNode.element none "content" [] [exampleAnchoredTestResult]).setChildren
          ([] ++ node :: []) :: [])) :=
    ⟨[], .element none "content" [] [exampleAnchoredTestResult], [], rfl, rfl, by simp,
      Or.inl ⟨[], [], rfl, rfl, by simp, rfl⟩⟩
  obtain ⟨ret, node, h1, h2, _⟩ :=
    inject_refs_jobs_independent _ exampleAnchoredTestResult _ "asset0" exampleMapping hloc
      (by decide)
  have h3 : some (ret, node) = some ((0 : Int), XmlNode.element none "TestResult" []
      [.element none "target" [] [.text "host"],
       .element none "target-id-ref"
         [("system", ai_ns_uri), ("name", "asset0"), ("href", "")] [],
       .element none "rule-result" []
        [.element none "check" []
          [.element none "check-content-ref" [("href", "oval.xml")] []]]]) :=
    h1.symm.trans rfl
  simp only [Option.some.injEq, Prod.mk.injEq] at h3
  refine ⟨_, ret, node, hloc, h1, h2, h3.1, ?_⟩
  rw [h3.2]
  rfl

/-- C26: on a report whose TestResult holds a `target`, then a `target-id-ref`
without attributes, then a rule-result with a `check-content-ref`, the
TestResult is located and has an anchor, yet `ds_rds_report_inject_refs` has
no result: the insertion of the back-reference hands the missing `system`
attribute to `strcmp` (line 396), so the rewriting of line 562 is never
reached and no value is returned. -/
theorem inject_refs_dies_before_rewriting :
    (∃ put, Located (.element none "report" [("id", "xccdf1")]
        [.element none "content" [] [exampleBareRefTestResult]])
        exampleBareRefTestResult put) ∧
      hasAnchor exampleBareRefTestResult = true ∧
      ds_rds_report_inject_ai_target_id_ref exampleBareRefTestResult "asset0" = none ∧
      ds_rds_report_inject_refs (.element none "report" [("id", "xccdf1")]
          [.element none "content" [] [exampleBareRefTestResult]]) "asset0" exampleMapping
        = none :=
  ⟨⟨_, [], .element none "content" [] [exampleBareRefTestResult], [], rfl, rfl, by simp,
      Or.inl ⟨[], [], rfl, rfl, by simp, rfl⟩⟩, rfl, rfl, rfl⟩

/-- In a report whose first `content` element child is `content`,
`ds_rds_report_inject_refs` works on one TestResult.  When the content has a
TestResult element child, the first such child is the one that the insertion
and the rewriting change, and nothing else in the report changes.  When the
content has no TestResult element child and its last element child is a
Benchmark with a TestResult element child, the last TestResult child of this
Benchmark is the one changed, and nothing else in the report changes.  In
both cases the call returns when the `target-id-ref` children of this
TestResult carry the `system` and `name` attributes.  When the content has no
TestResult element child and its last element child is no Benchmark, or a
Benchmark without a TestResult element child, the function returns -1 and the
report is unchanged. -/
theorem inject_refs_location (report : XmlNode) (asset_id : String)
    (arf_report_mapping : String → Option String)
    (rpre : List XmlNode) (content : XmlNode) (rpost : List XmlNode)
    (hrep : report.children = rpre ++ content :: rpost)
    (hcontent : content.isElementNamed "content" = true)
    (hfirst : ∀ y ∈ rpre, y.isElementNamed "content" = false) :
    (∀ cpre test_result cpost,
        content.children = cpre ++ test_result :: cpost →
        test_result.isElementNamed "TestResult" = true →
        (∀ y ∈ cpre, y.isElementNamed "TestResult" = false) →
        (∀ y ∈ test_result.children, refAttrsPresent y = true) →
        ∃ ret node,
          injectIntoTestResult test_result asset_id arf_report_mapping = some (ret, node) ∧
          ds_rds_report_inject_refs report asset_id arf_report_mapping
            = some (ret, report.setChildren
                (rpre ++ content.setChildren (cpre ++ node :: cpost) :: rpost))) ∧
      (∀ cpre bench cpost bpre test_result bpost,
        content.children = cpre ++ bench :: cpost →
        (∀ y ∈ cpre, y.isElementNamed "TestResult" = false) →
        (∀ y ∈ cpost, y.isElement = false) →
        bench.isElementNamed "Benchmark" = true →
        bench.children = bpre ++ test_result :: bpost →
        test_result.isElementNamed "TestResult" = true →
        (∀ y ∈ bpost, y.isElementNamed "TestResult" = false) →
        (∀ y ∈ test_result.children, refAttrsPresent y = true) →
        ∃ ret node,
          injectIntoTestResult test_result asset_id arf_report_mapping = some (ret, node) ∧
          ds_rds_report_inject_refs report asset_id arf_report_mapping
            = some (ret, report.setChildren (rpre ++ content.setChildren
                (cpre ++ bench.setChildren (bpre ++ node :: bpost) :: cpost) :: rpost))) ∧
      (∀ cpre last cpost,
        content.children = cpre ++ last :: cpost →
        (∀ y ∈ cpre, y.isElementNamed "TestResult" = false) →
        (∀ y ∈ cpost, y.isElement = false) →
        last.isElement = true →
        last.isElementNamed "TestResult" = false →
        (last.isElementNamed "Benchmark" = false ∨
          ∀ y ∈ last.children, y.isElementNamed "TestResult" = false) →
        ds_rds_report_inject_refs report asset_id arf_report_mapping = some (-1, report)) := by
  refine ⟨?_, ?_, ?_⟩
  · intro cpre tr cpost hch htr hpre hattrs
    obtain ⟨ret, node, hinj⟩ := injectInto_defined tr asset_id arf_report_mapping hattrs
    refine ⟨ret, node, hinj, ?_⟩
    rw [inject_refs_located report tr _ asset_id arf_report_mapping
      ⟨rpre, content, rpost, hrep, hcontent, hfirst,
        Or.inl ⟨cpre, cpost, hch, htr, hpre, rfl⟩⟩, hinj]
    rfl
  · intro cpre bench cpost bpre tr bpost hch hpre hpost hbench hbch htr hbpost hattrs
    obtain ⟨ret, node, hinj⟩ := injectInto_defined tr asset_id arf_report_mapping hattrs
    refine ⟨ret, node, hinj, ?_⟩
    rw [inject_refs_located report tr _ asset_id arf_report_mapping
      ⟨rpre, content, rpost, hrep, hcontent, hfirst,
        Or.inr ⟨cpre, bench, cpost, bpre, bpost, hch, hpre, hpost, hbench, hbch, htr, hbpost,
          rfl⟩⟩, hinj]
    rfl
  · intro cpre last cpost hch hpre hpost hlast hlast2 hcase
    have hinner := inner_content_of_split report rpre content rpost hrep hcontent hfirst
    have hscan := scanContent_last cpre last cpost hpre hlast hlast2 hpost 0 none
    simp only [Nat.zero_add] at hscan
    unfold ds_rds_report_inject_refs
    rw [hinner]
    simp only [hch, hscan]
    rw [if_neg (by simp)]
    rcases hcase with hb | hno
    · simp [hb]
    · by_cases hb : last.isElementNamed "Benchmark" = true
      · simp only [hb, Bool.not_true, Bool.false_eq_true, if_false]
        by_cases hempty : last.children.isEmpty = true
        · simp [hempty]
        · simp only [hempty, Bool.false_eq_true, if_false, findLastTestResult_none _ hno]
      · simp [hb]

/-- The injection into a report whose content is a Benchmark with two
TestResults, the last one with an anchor: the first TestResult is unchanged,
the last one gains the back-reference and has its href rewritten. -/
theorem inject_refs_location_witness :
    ds_rds_report_inject_refs (.element none "report" [("id", "xccdf1")]
        [.element none "content" []
          [.element none "Benchmark" []
            [exampleAnchoredTestResult, exampleAnchoredTestResult]]]) "asset0" exampleMapping
      = some (0, .element none "report" [("id", "xccdf1")]
          [.element none "content" []
            [.element none "Benchmark" []
              [exampleAnchoredTestResult,
               .element none "TestResult" []
                [.element none "target" [] [.text "host"],
                 .element none "target-id-ref"
                   [("system", ai_ns_uri), ("name", "asset0"), ("href", "")] [],
                 .element none "rule-result" []
                  [.element none "check" []
                    [.element none "check-content-ref" [("href", "#oval0")] []]]]]]]) := by
  obtain ⟨ret, node, h1, h2⟩ :=
    (inject_refs_location (.element none "report" [("id", "xccdf1")]
        [.element none "content" []
          [.element none "Benchmark" []
            [exampleAnchoredTestResult, exampleAnchoredTestResult]]]) "asset0" exampleMapping
      [] (.element none "content" []
          [.element none "Benchmark" []
            [exampleAnchoredTestResult, exampleAnchoredTestResult]]) []
      rfl rfl (by simp)).2.1 []
      (.element none "Benchmark" [] [exampleAnchoredTestResult, exampleAnchoredTestResult]) []
      [exampleAnchoredTestResult] exampleAnchoredTestResult []
      rfl (by simp) (by simp) rfl rfl rfl (by simp) (by decide)
  have h3 : some (ret, node) = some ((0 : Int), XmlNode.element none "TestResult" []
      [.element none "target" [] [.text "host"],
       .element none "target-id-ref"
         [("system", ai_ns_uri), ("name", "asset0"), ("href", "")] [],
       .element none "rule-result" []
        [.element none "check" []
          [.element none "check-content-ref" [("href", "#oval0")] []]]]) :=
    h1.symm.trans rfl
  simp only [Option.some.injEq, Prod.mk.injEq] at h3
  rw [h2, h3.1, h3.2]
  rfl

/-- C24: on the bundle `<data-stream-collection><data-stream/></data-stream-collection>`
with a tailoring document under the file path `t.xml`, the merge appends the
tailoring component and nothing else: the `data-stream` of the merged bundle
has no `checklists` child, and the component-ref is in the bundle nowhere
(the call `xmlAddChild(NULL, tailoring_component_ref)` of line 765 adds
nothing). -/
theorem merge_loses_component_ref :
    importBundle exampleHelpers 1 (some exampleBareBundle) (some exampleTailoring)
        = some (some (.element none "data-stream-collection" []
            [.element none "data-stream" [] [],
             .element none "component"
               [("id", "scap_org.open-scap_comp_t.xml_tailoring"),
                ("timestamp", "2014-01-01T00:00:00")]
               [.element none "Tailoring" [] []]])) ∧
      (mergeTailoring exampleHelpers 1 exampleBareBundle exampleTailoring).map
          (fun merged => (node_get_child_element merged "data-stream").map
            (fun datastream => (node_get_child_element datastream.2 "checklists").isSome))
        = some (some false) :=
  ⟨rfl, rfl⟩

/-! ## Reports of the sub-result documents -/

theorem attrLookup_mem (key value : String) (table : List (String × String))
    (h : attrLookup key table = some value) : (key, value) ∈ table := by
  induction table with
  | nil => simp [attrLookup] at h
  | cons entry rest ih =>
    obtain ⟨k, v⟩ := entry
    simp only [attrLookup] at h
    by_cases hk : k = key
    · simp only [hk, if_true, Option.some.injEq] at h
      simp [hk, h]
    · simp only [hk, if_false] at h
      exact List.mem_cons_of_mem _ (ih h)

theorem ovalReport_eq (src : String → Option XmlDoc) (mp : String → Option String)
    (entry : String × String) (r : XmlNode) (h : ovalReport src mp entry = some r) :
    ∃ content, r = reportEntry entry.2 content := by
  unfold ovalReport at h
  cases hmp : mp entry.1 with
  | none => simp [hmp] at h
  | some report_file =>
    cases hsrc : src report_file with
    | none => simp [hmp, hsrc] at h
    | some doc =>
      simp only [hmp, hsrc, create_report_eq, Option.some.injEq] at h
      exact ⟨doc.toList, h.symm⟩

theorem addOvalReports_exact (src : String → Option XmlDoc) (mp : String → Option String)
    (table : List (String × String)) :
    ∀ reports reports1 : XmlNode, addOvalReports src mp table reports = some reports1 →
      ∃ more, reports1 = reports.setChildren (reports.children ++ more) ∧
        more.map some = table.map (ovalReport src mp) := by
  induction table with
  | nil =>
    intro reports reports1 h
    simp only [addOvalReports, Option.some.injEq] at h
    exact ⟨[], by simp [← h, setChildren_children], by simp⟩
  | cons entry rest ih =>
    intro reports reports1 h
    obtain ⟨file, id⟩ := entry
    unfold addOvalReports at h
    cases hmp : mp file with
    | none => simp [hmp] at h
    | some report_file =>
      cases hsrc : src report_file with
      | none => simp [hmp, hsrc] at h
      | some doc =>
        simp only [hmp, hsrc, create_report_eq] at h
        obtain ⟨more, hmore, hmap⟩ := ih _ _ h
        refine ⟨reportEntry id doc.toList :: more, ?_, ?_⟩
        · rw [hmore, setChildren_append_twice]
          rfl
        · simp only [List.map_cons, hmap, ovalReport, hmp, hsrc, create_report_eq]

theorem addOneResult_reports (e : String → String) (m : String → Option String) (req : String)
    (c c1 : Containers) (root : XmlNode) (id : String)
    (hroot : root.isElementNamed "TestResult" = true) (hreq : storedVerbatim req = true)
    (h : addOneResult e m req c root id = some c1) :
    ∃ node, c1.reports = c.reports.setChildren (c.reports.children ++ [reportEntry id [node]]) := by
  rw [addOneResult_eq e m req c root id hroot hreq] at h
  cases hscan : assetSuffixScan c.assets.children 0 with
  | none => simp [hscan] at h
  | some k =>
    cases hinj : injectIntoTestResult root (assetId k) m with
    | none => simp [hscan, hinj] at h
    | some r =>
      obtain ⟨ret, node⟩ := r
      simp only [hscan, hinj, Option.some.injEq] at h
      subst h
      exact ⟨node, rfl⟩

theorem addBenchmarkResults_reports (e : String → String) (m : String → Option String)
    (req : String) (l : List XmlNode) (hreq : storedVerbatim req = true) :
    ∀ (s : Nat) (c c1 : Containers), addBenchmarkResults e m req l s c = some c1 →
      ∃ reports, c1.reports = c.reports.setChildren (c.reports.children ++ reports) ∧
        ∀ r ∈ reports, ∃ n content, r = reportEntry (reportId n) content := by
  induction l with
  | nil =>
    intro s c c1 h
    simp only [addBenchmarkResults, Option.some.injEq] at h
    subst h
    exact ⟨[], by simp [setChildren_children], by simp⟩
  | cons x rest ih =>
    intro s c c1 h
    unfold addBenchmarkResults at h
    by_cases hx : x.isElementNamed "TestResult" = true
    · simp only [hx, if_true] at h
      cases hone : addOneResult e m req c x (reportId s) with
      | none => simp [hone] at h
      | some c2 =>
        simp only [hone] at h
        obtain ⟨node, hnode⟩ := addOneResult_reports e m req c c2 x _ hx hreq hone
        obtain ⟨reports, hreports, hall⟩ := ih _ _ _ h
        refine ⟨reportEntry (reportId s) [node] :: reports, ?_, ?_⟩
        · rw [hreports, hnode, setChildren_append_twice]
          simp
        · intro r hr
          rcases List.mem_cons.1 hr with hr | hr
          · exact ⟨s, [node], hr⟩
          · exact hall r hr
    · simp only [hx] at h
      exact ih _ _ _ (by simpa using h)

theorem add_xccdf_reports (e : String → String) (m : String → Option String) (req : String)
    (c c1 : Containers) (doc : XmlDoc) (hreq : storedVerbatim req = true)
    (h : ds_rds_add_xccdf_test_results e m c doc req = some c1) :
    ∃ reports, c1.reports = c.reports.setChildren (c.reports.children ++ reports) ∧
      ∀ r ∈ reports, ∃ n content, r = reportEntry (reportId n) content := by
  unfold ds_rds_add_xccdf_test_results at h
  cases doc with
  | none => simp at h
  | some root =>
    simp only at h
    by_cases h1 : root.isElementNamed "TestResult" = true
    · simp only [h1, if_true] at h
      obtain ⟨node, hnode⟩ := addOneResult_reports e m req c c1 root _ h1 hreq h
      refine ⟨[reportEntry "xccdf1" [node]], hnode, ?_⟩
      intro r hr
      exact ⟨1, [node], by simpa using hr⟩
    · simp only [h1] at h
      by_cases h2 : root.isElementNamed "Benchmark" = true
      · simp only [h2, if_true] at h
        exact addBenchmarkResults_reports e m req _ hreq _ _ _ (by simpa using h)
      · simp only [h2] at h
        have h3 := Option.some.inj (by simpa using h)
        rw [← h3]
        exact ⟨[], by simp [setChildren_children], by simp⟩

theorem ovalReport_ids (src : String → Option XmlDoc) (mp : String → Option String)
    (table : List (String × String)) :
    ∀ more : List XmlNode, more.map some = table.map (ovalReport src mp) →
      more.map (fun r => xmlGetProp r "id") = table.map (fun entry => some entry.2) := by
  induction table with
  | nil =>
    intro more hmap
    cases more with
    | nil => rfl
    | cons a l => simp at hmap
  | cons entry rest ih =>
    intro more hmap
    cases more with
    | nil => simp at hmap
    | cons a l =>
      simp only [List.map_cons, List.cons.injEq] at hmap ⊢
      obtain ⟨content, hcontent⟩ := ovalReport_eq _ _ _ _ hmap.1.symm
      exact ⟨by rw [hcontent]; rfl, ih l hmap.2⟩

/-- C28 as stated fails: with the report mapping that gives the id `oval0`
to the two files `a.xml` and `b.xml`, both resolving to a loaded document, the
composition succeeds and two reports with the id `oval0` stand after the
report `xccdf1`. -/
theorem shared_report_id_twice :
    (_ds_rds_create_from_dom exampleHelpers 1 (fun s => s) (some exampleBundle) none
        (some exampleTestResult)
        (fun _ => some (some (.element none "oval_results" [] [])))
        (fun name => some name) [("a.xml", "oval0"), ("b.xml", "oval0")] false).map
      (fun result => (result.code, result.ret.map (fun root =>
        root.children.getLast?.map (fun reports =>
          reports.children.map (fun r => xmlGetProp r "id")))))
      = some (0, some (some [some "xccdf1", some "oval0", some "oval0"])) :=
  rfl

/-- C28, amended: in the output of a composition the children of the reports
container are the `xccdf<N>` reports followed by one report for each entry of
the report mapping, in iteration order: the copy of the sub-result document
that the file name of the entry resolves to, under the id of the entry.  The reference
injector leaves a node as it is or sets its href to `#X` where `X` is the
value of a mapping entry, and the reports container then holds a `report`
element whose id is `X`.  The number of appended reports with a given id is
the number of entries with this id. -/
theorem oval_reports_resolve (h : SdsHelpers) (fuel : Nat) (expand_ipv6 : String → String)
    (sds_doc : XmlDoc) (tailoring : Option Tailoring) (xccdf_result_file_doc : XmlDoc)
    (oval_result_sources : String → Option XmlDoc)
    (oval_result_mapping : String → Option String)
    (arf_report_mapping : List (String × String)) (clone : Bool) (result : CreateResult)
    (hres : _ds_rds_create_from_dom h fuel expand_ipv6 sds_doc tailoring xccdf_result_file_doc
      oval_result_sources oval_result_mapping arf_report_mapping clone = some result) :
    ∃ relationships report_requests assets xccdf more,
      result.code = 0 ∧
      result.ret = some (.element (some arf_ns_uri) "asset-report-collection" []
        [relationships, report_requests, assets,
         .element (some arf_ns_uri) "reports" [] (xccdf ++ more)]) ∧
      (∀ r ∈ xccdf, ∃ n content, r = reportEntry (reportId n) content) ∧
      more.map some
        = arf_report_mapping.map (ovalReport oval_result_sources oval_result_mapping) ∧
      more.map (fun r => xmlGetProp r "id")
        = arf_report_mapping.map (fun entry => some entry.2) ∧
      (∀ r ∈ more, r.isElementNamed "report" = true) ∧
      (∀ node : XmlNode,
        ds_rds_report_inject_check_content_ref (oscap_htable_get arf_report_mapping) node = node ∨
        ∃ oval_filename X, (oval_filename, X) ∈ arf_report_mapping ∧
          ds_rds_report_inject_check_content_ref (oscap_htable_get arf_report_mapping) node
            = xmlSetProp node "href" ("#" ++ X) ∧
          ∃ r ∈ xccdf ++ more, r.isElementNamed "report" = true ∧
            xmlGetProp r "id" = some X) ∧
      ∀ X, (more.filter (fun r => xmlGetProp r "id" == some X)).length
        = (arf_report_mapping.filter (fun entry => entry.2 == X)).length := by
  obtain ⟨bundle, c, reports1, _, hadd, hoval, hresult⟩ :=
    create_from_dom_some h fuel expand_ipv6 sds_doc tailoring xccdf_result_file_doc
      oval_result_sources oval_result_mapping arf_report_mapping clone result hres
  obtain ⟨xccdf, hxccdf, hids⟩ := add_xccdf_reports _ _ "collection1" _ _ _ rfl hadd
  obtain ⟨more, hmore, hmap⟩ := addOvalReports_exact _ _ _ _ _ hoval
  have hentry : ∀ entry ∈ arf_report_mapping, ∃ r ∈ more, ∃ content,
      r = reportEntry entry.2 content := by
    intro entry hentry
    have h1 : ovalReport oval_result_sources oval_result_mapping entry
        ∈ more.map some := by
      rw [hmap]
      exact List.mem_map_of_mem _ hentry
    obtain ⟨r, hr, hr2⟩ := List.mem_map.1 h1
    exact ⟨r, hr, ovalReport_eq _ _ _ _ hr2.symm⟩
  have hall : ∀ r ∈ more, ∃ entry ∈ arf_report_mapping, ∃ content,
      r = reportEntry entry.2 content := by
    intro r hr
    have h1 : some r ∈ arf_report_mapping.map
        (ovalReport oval_result_sources oval_result_mapping) := by
      rw [← hmap]
      exact List.mem_map_of_mem _ hr
    obtain ⟨entry, hentry2, hr2⟩ := List.mem_map.1 h1
    exact ⟨entry, hentry2, ovalReport_eq _ _ _ _ hr2⟩
  have hidmap := ovalReport_ids _ _ _ _ hmap
  refine ⟨c.relationships,
    .element (some arf_ns_uri) "report-requests" []
      [.element (some arf_ns_uri) "report-request" [("id", "collection1")]
        [.element (some arf_ns_uri) "content" [] bundle.toList]],
    c.assets, xccdf, more, by rw [hresult], ?_, hids, hmap, hidmap, ?_, ?_, ?_⟩
  · rw [hresult, hmore, hxccdf]
    simp [XmlNode.setChildren, XmlNode.children]
  · intro r hr
    obtain ⟨entry, _, content, hcontent⟩ := hall r hr
    rw [hcontent]
    rfl
  · intro node
    unfold ds_rds_report_inject_check_content_ref
    by_cases hname : node.isElementNamed "check-content-ref" = true
    · simp only [hname, if_true]
      cases hhref : xmlGetProp node "href" with
      | none => exact Or.inl rfl
      | some oval_filename =>
        cases hget : oscap_htable_get arf_report_mapping oval_filename with
        | none => exact Or.inl (by simp only [hget])
        | some X =>
          have hmem := attrLookup_mem _ _ _ hget
          obtain ⟨r, hr, content, hcontent⟩ := hentry _ hmem
          refine Or.inr ⟨oval_filename, X, hmem, by simp only [hget], r,
            List.mem_append_right _ hr, ?_, ?_⟩
          · rw [hcontent]
            rfl
          · rw [hcontent]
            rfl
    · simp only [hname]
      exact Or.inl rfl
  · intro X
    have h1 : ((more.map (fun r => xmlGetProp r "id")).filter (fun id => id == some X)).length
        = ((arf_report_mapping.map (fun entry => some entry.2)).filter
            (fun id => id == some X)).length := by
      rw [hidmap]
    simpa [List.filter_map, Function.comp_def] using h1

theorem oval_reports_resolve_witness :
    ∃ result,
      _ds_rds_create_from_dom exampleHelpers 1 (fun s => s) (some exampleBundle) none
        (some exampleTestResult) exampleSources exampleResultMapping exampleTable false
        = some result ∧
      result.ret = some (.element (some arf_ns_uri) "asset-report-collection" []
        [.element (some core_ns_uri) "relationships" []
          [relationshipEntry "arfvocab:createdFor" "xccdf1" "collection1",
           relationshipEntry "arfvocab:isAbout" "xccdf1" "asset0"],
         .element (some arf_ns_uri) "report-requests" []
           [.element (some arf_ns_uri) "report-request" [("id", "collection1")]
             [.element (some arf_ns_uri) "content" [] [exampleBundle]]],
         .element (some arf_ns_uri) "assets" []
           [buildAsset (fun s => s) "asset0" exampleTestResult],
         .element (some arf_ns_uri) "reports" []
           [reportEntry "xccdf1"
              [.element none "TestResult" []
                [.element none "rule-result" []
                  [.element none "check" []
                    [.element none "check-content-ref" [("href", "#oval0")] []]]]],
            reportEntry "oval0" [.element none "oval_results" [] []]]]) ∧
      ∃ relationships report_requests assets xccdf more,
        result.code = 0 ∧
        result.ret = some (.element (some arf_ns_uri) "asset-report-collection" []
          [relationships, report_requests, assets,
           .element (some arf_ns_uri) "reports" [] (xccdf ++ more)]) ∧
        (∀ r ∈ xccdf, ∃ n content, r = reportEntry (reportId n) content) ∧
        more.map some = exampleTable.map (ovalReport exampleSources exampleResultMapping) ∧
        more.map (fun r => xmlGetProp r "id") = exampleTable.map (fun entry => some entry.2) ∧
        (∀ r ∈ more, r.isElementNamed "report" = true) ∧
        (∀ node : XmlNode,
          ds_rds_report_inject_check_content_ref (oscap_htable_get exampleTable) node = node ∨
          ∃ oval_filename X, (oval_filename, X) ∈ exampleTable ∧
            ds_rds_report_inject_check_content_ref (oscap_htable_get exampleTable) node
              = xmlSetProp node "href" ("#" ++ X) ∧
            ∃ r ∈ xccdf ++ more, r.isElementNamed "report" = true ∧
              xmlGetProp r "id" = some X) ∧
        ∀ X, (more.filter (fun r => xmlGetProp r "id" == some X)).length
          = (exampleTable.filter (fun entry => entry.2 == X)).length :=
  ⟨_, rfl, rfl,
    oval_reports_resolve exampleHelpers 1 (fun s => s) (some exampleBundle) none
      (some exampleTestResult) exampleSources exampleResultMapping exampleTable false _ rfl⟩

end Rds
